import Mathlib

/-!
# cpu-pathtracer: a shallow embedding of the light-transport core

The C++ program computes in `double`.  The embedding is written over an arbitrary
linearly ordered field `K` (the reals, or the rationals when a computation is to be
evaluated), so every statement below is about exact arithmetic: rounding, infinities
and NaN are outside the model.  The functions of `<cmath>` the program calls
(`sqrt`, `sin`, `cos`, `acos`, `pow`) are passed in as a record `CMath K`; what a proof
needs of them is stated as a hypothesis.

Sources: `object.h`, `object.cpp`, `lightTransport.h`, `lightTransport.cpp`.
-/

namespace PathTracer

/-! ## object.h / object.cpp : vectors, rays, vertices, triangles -/

/-- The `<cmath>` functions used by the program. -/
structure CMath (K : Type) where
  sqrt : K → K
  sin : K → K
  cos : K → K
  acos : K → K
  pow : K → K → K

/-- The class `Vec3`: three coordinates `coord[0..2]`. -/
structure Vec3 (K : Type) where
  x : K
  y : K
  z : K
deriving DecidableEq, Repr

/-- What the properties below assume of `sqrt`: on non-negative arguments it is the exact
non-negative square root. -/
def CMath.IsSqrt {K : Type} [LinearOrderedField K] (M : CMath K) : Prop :=
  ∀ x : K, 0 ≤ x → 0 ≤ M.sqrt x ∧ M.sqrt x * M.sqrt x = x

/-- What the properties below assume of `cos` and `acos`: `cos (acos x) = x` on `[0, 1]`. -/
def CMath.IsCosAcos {K : Type} [LinearOrderedField K] (M : CMath K) : Prop :=
  ∀ x : K, 0 ≤ x → x ≤ 1 → M.cos (M.acos x) = x

/-- What the properties below assume of `sin` and `cos`: `sin² x + cos² x = 1`. -/
def CMath.IsSinCos {K : Type} [LinearOrderedField K] (M : CMath K) : Prop :=
  ∀ x : K, M.sin x * M.sin x + M.cos x * M.cos x = 1

/-- The three material classes derived from `BSDF`, as a tagged variant (the base class is
never instantiated by the program).  `phongExponent` is the `int` member of `phongBSDF`. -/
inductive BSDF where
  | simpleDiffuse : BSDF
  | phong (phongExponent : Int) : BSDF
  | mirror : BSDF
deriving DecidableEq, Repr

/-- The class `Ray`: private members `dir` and `orig`. -/
structure Ray (K : Type) where
  dir : Vec3 K
  orig : Vec3 K
deriving DecidableEq, Repr

/-- The struct `Vertex`: position `pt`, colour `c`, normal `n`. -/
structure Vertex (K : Type) where
  pt : Vec3 K
  c : Vec3 K
  n : Vec3 K
deriving DecidableEq, Repr

/-- The struct `Triangle`.  The three `Vertex*` handles are read-only while rendering and
are embedded as the vertices they point to; `material` is the `BSDF*`. -/
structure Triangle (K : Type) where
  a : Vertex K
  b : Vertex K
  c : Vertex K
  emission : Vec3 K
  material : BSDF
deriving DecidableEq, Repr

section VectorAlgebra

variable {K : Type} [LinearOrderedField K]

namespace Vec3

/-- Source `Vec3::Vec3()` : the zero vector. -/
def zero : Vec3 K := ⟨0, 0, 0⟩

/-- Source `Vec3::lengthSquared`. -/
def lengthSquared (v : Vec3 K) : K := v.x * v.x + v.y * v.y + v.z * v.z

/-- Source `Vec3::length`. -/
def length (M : CMath K) (v : Vec3 K) : K := M.sqrt (lengthSquared v)

/-- Source `Vec3::operator-() const`. -/
def neg (v : Vec3 K) : Vec3 K := ⟨-v.x, -v.y, -v.z⟩

/-- Source `operator+(const Vec3&, const Vec3&)`. -/
def add (v1 v2 : Vec3 K) : Vec3 K := ⟨v1.x + v2.x, v1.y + v2.y, v1.z + v2.z⟩

/-- Source `operator-(const Vec3&, const Vec3&)`. -/
def sub (v1 v2 : Vec3 K) : Vec3 K := ⟨v1.x - v2.x, v1.y - v2.y, v1.z - v2.z⟩

/-- Source `operator*(const Vec3&, double)`. -/
def scale (v : Vec3 K) (r : K) : Vec3 K := ⟨v.x * r, v.y * r, v.z * r⟩

/-- Source `operator*(double, const Vec3&)`, which returns `v * r`. -/
def lscale (r : K) (v : Vec3 K) : Vec3 K := scale v r

/-- Source `operator*(const Vec3&, const Vec3&)` : componentwise product (through `*=`). -/
def mul (a b : Vec3 K) : Vec3 K := ⟨a.x * b.x, a.y * b.y, a.z * b.z⟩

/-- Source `operator/(const Vec3&, double)`. -/
def div (v : Vec3 K) (r : K) : Vec3 K := ⟨v.x / r, v.y / r, v.z / r⟩

/-- Source `Vec3::operator[]`, for the indices 0, 1, 2 used in the program. -/
def get (v : Vec3 K) (i : Nat) : K :=
  match i with
  | 0 => v.x
  | 1 => v.y
  | _ => v.z

end Vec3

/-- Source `dot`. -/
def dot (v1 v2 : Vec3 K) : K := v1.x * v2.x + v1.y * v2.y + v1.z * v2.z

/-- Source `cross`. -/
def cross (v1 v2 : Vec3 K) : Vec3 K :=
  ⟨v1.y * v2.z - v1.z * v2.y, v1.z * v2.x - v1.x * v2.z, v1.x * v2.y - v1.y * v2.x⟩

/-- Source `unit` : `v / v.length()`. -/
def unit (M : CMath K) (v : Vec3 K) : Vec3 K := Vec3.div v (Vec3.length M v)

/-- Source `Ray::pointAt` : `orig + dir*t`. -/
def Ray.pointAt (r : Ray K) (t : K) : Vec3 K := Vec3.add r.orig (Vec3.scale r.dir t)

/-- Source `Ray::direction`. -/
def Ray.direction (r : Ray K) : Vec3 K := r.dir

/-- Source `Ray::origin`. -/
def Ray.origin (r : Ray K) : Vec3 K := r.orig

/-- The tangent chosen by `toLocal` and `toWorld` (the same `if` in both). -/
def frameTangent (M : CMath K) (normal : Vec3 K) : Vec3 K :=
  if |normal.x| > |normal.z| then
    unit M ⟨-normal.y, normal.x, 0⟩
  else
    unit M ⟨0, -normal.z, normal.y⟩

/-- Source `toLocal(wi_world, normal, wi_local)`; the out-parameter is the result. -/
def toLocal (M : CMath K) (wi_world normal : Vec3 K) : Vec3 K :=
  let t := frameTangent M normal
  let b := cross normal t
  ⟨dot wi_world t, dot wi_world b, dot wi_world normal⟩

/-- Source `toWorld(normal, wo_local, wo_world)`; the out-parameter is the result. -/
def toWorld (M : CMath K) (normal wo_local : Vec3 K) : Vec3 K :=
  let t := frameTangent M normal
  let b := cross normal t
  Vec3.add (Vec3.add (Vec3.lscale wo_local.x t) (Vec3.lscale wo_local.y b))
    (Vec3.lscale wo_local.z normal)

end VectorAlgebra

/-! ## lightTransport.cpp : intersection -/

section Intersection

variable {K : Type} [LinearOrderedField K]

/-- The literal `0.00001` of `triangleIntersect`. -/
def EPS : K := 1 / 100000

/-- The miss sentinel `{-1.0, Vec3(0,0,0)}`. -/
def miss : K × Vec3 K := (-1, ⟨0, 0, 0⟩)

/-- Source `triangleIntersect`. -/
def triangleIntersect (tri : Triangle K) (r : Ray K) : K × Vec3 K :=
  let e1 := Vec3.sub tri.b.pt tri.a.pt
  let e2 := Vec3.sub tri.c.pt tri.a.pt
  let h := cross r.direction e2
  let a := dot h e1
  if a < EPS then miss
  else
    let f := 1 / a
    let s := Vec3.sub r.origin tri.a.pt
    let u := f * dot s h
    let q := cross s e1
    let v := f * dot r.direction q
    let t := f * dot e2 q
    if ((0 ≤ u ∧ 0 ≤ v ∧ u + v ≤ 1) ∧ EPS < t) then (t, ⟨u, v, 1 - u - v⟩)
    else miss

/-- The struct `Intersection` (the never-read field `name` is left out).  `hitTri` is
`none` for the default-constructed `Triangle()`, whose vertex handles are null. -/
structure Intersection (K : Type) where
  point : Vec3 K
  normal : Vec3 K
  baseColor : Vec3 K
  ray : Ray K
  hitTri : Option (Triangle K)
  valid : Bool
  backface : Bool
deriving DecidableEq, Repr

/-- The constructor `Intersection() {valid = false;}` : every member default-constructed
(the uninitialised `backface` is taken as `false`). -/
def Intersection.empty : Intersection K :=
  ⟨Vec3.zero, Vec3.zero, Vec3.zero, ⟨Vec3.zero, Vec3.zero⟩, none, false, false⟩

/-- The constant `std::numeric_limits<double>::max()`, the largest finite double. -/
def DBL_MAX : K := 2 ^ 1024 - 2 ^ 971

/-- The default argument `max_t = 99999999.0` of `sceneIntersection`. -/
def MAX_T : K := 99999999

/-- The record written into `closest` when `tri` becomes the nearest hit (lines 62-68 of
`lightTransport.cpp`), `t` and `P` being the pair returned by `triangleIntersect`. -/
def hitRecord (r : Ray K) (tri : Triangle K) : Intersection K :=
  let t := (triangleIntersect tri r).1
  let P := (triangleIntersect tri r).2
  ⟨r.pointAt t, tri.a.n,
    Vec3.add (Vec3.add (Vec3.scale tri.a.c (P.get 0)) (Vec3.scale tri.b.c (P.get 1)))
      (Vec3.scale tri.c.c (P.get 2)),
    r, some tri, true, false⟩

/-- The body of the `for (const Triangle& tri : tris)` loop of `sceneIntersection`, on the
loop state `(minT, closest)`. -/
def sceneStep (r : Ray K) (max_t : K) (st : K × Intersection K) (tri : Triangle K) :
    K × Intersection K :=
  let t := (triangleIntersect tri r).1
  if t ≠ -1 then
    if t < st.1 ∧ t < max_t then (t, hitRecord r tri)
    else st
  else st

/-- Source `sceneIntersection(tris, r, max_t)`. -/
def sceneIntersection (tris : List (Triangle K)) (r : Ray K) (max_t : K) : Intersection K :=
  (tris.foldl (sceneStep r max_t) (DBL_MAX, Intersection.empty)).2

end Intersection

/-! ## lightTransport.h / lightTransport.cpp : sampler and BSDFs -/

section Materials

variable {K : Type} [LinearOrderedField K]

/-- The class `SimpleSampler`: the values `dist(rng)` will produce, and how many were drawn. -/
structure SimpleSampler (K : Type) where
  stream : Nat → K
  pos : Nat

/-- Source `SimpleSampler::get1D`. -/
def SimpleSampler.get1D (s : SimpleSampler K) : K × SimpleSampler K :=
  (s.stream s.pos, ⟨s.stream, s.pos + 1⟩)

/-- Source `SimpleSampler::get2D` : `{dist(rng), dist(rng)}`, evaluated left to right. -/
def SimpleSampler.get2D (s : SimpleSampler K) : (K × K) × SimpleSampler K :=
  ((s.stream s.pos, s.stream (s.pos + 1)), ⟨s.stream, s.pos + 2⟩)

/-- The constant `PI = 3.14159265358979323846` of `lightTransport.cpp`. -/
def PI : K := 314159265358979323846 / 100000000000000000000

/-- The reflected direction `(Vec3(0,0,1) * (2.0 * dot(wi, Vec3(0,0,1)))) - wi`. -/
def reflectZ (wi : Vec3 K) : Vec3 K :=
  Vec3.sub (Vec3.scale ⟨0, 0, 1⟩ (2 * dot wi ⟨0, 0, 1⟩)) wi

/-- Source `phongBSDF::f`.  `std::pow` with the `int` exponent is the integer power. -/
def phongBSDF.f (phongExponent : Int) (wi wo color : Vec3 K) : Vec3 K :=
  if wi.get 2 ≤ 0 ∨ wo.get 2 ≤ 0 then Vec3.zero
  else
    let wr := reflectZ wi
    let cosAlpha := max 0 (dot wo wr)
    Vec3.scale (Vec3.scale (Vec3.scale color (((phongExponent + 2 : Int) : K) / (2 * PI)))
      (cosAlpha ^ phongExponent)) wo.z

/-- Source `phongBSDF::pdf`. -/
def phongBSDF.pdf (M : CMath K) (phongExponent : Int) (wi wo : Vec3 K) : K :=
  if wi.z ≤ 0 ∨ wo.z ≤ 0 then 0
  else
    let wr := unit M (reflectZ wi)
    (((phongExponent + 2 : Int) : K) / (2 * PI)) * (max 0 (dot wo wr)) ^ phongExponent

/-- Source `phongBSDF::sample_f`; returns the colour, `wo`, `pdf` and the advanced sampler. -/
def phongBSDF.sample_f (M : CMath K) (phongExponent : Int) (wi color : Vec3 K)
    (sample : SimpleSampler K) : Vec3 K × Vec3 K × K × SimpleSampler K :=
  let wr := reflectZ wi
  let u1 := sample.get2D.1.1
  let u2 := sample.get2D.1.2
  let theta := M.acos (M.pow u1 (1 / ((phongExponent + 2 : Int) : K)))
  let phi := 2 * PI * u2
  let x := M.sin theta * M.cos phi
  let y := M.sin theta * M.sin phi
  let z := M.cos theta
  let t : Vec3 K := if |wr.get 2| < 999 / 1000 then unit M (cross ⟨0, 0, 1⟩ wr) else ⟨1, 0, 0⟩
  let b := cross wr t
  let wo := unit M (Vec3.add (Vec3.add (Vec3.scale t x) (Vec3.scale b y)) (Vec3.scale wr z))
  (phongBSDF.f phongExponent wi wo color, wo, phongBSDF.pdf M phongExponent wi wo, sample.get2D.2)

/-- Source `simpleDiffuseBSDF::f`. -/
def simpleDiffuseBSDF.f (_wi _wo color : Vec3 K) : Vec3 K := Vec3.div color PI

/-- Source `simpleDiffuseBSDF::pdf`. -/
def simpleDiffuseBSDF.pdf (_wi wo : Vec3 K) : K :=
  if wo.z ≤ 0 then 0 else wo.z / PI

/-- Source `simpleDiffuseBSDF::sample_f`. -/
def simpleDiffuseBSDF.sample_f (M : CMath K) (wi color : Vec3 K) (sample : SimpleSampler K) :
    Vec3 K × Vec3 K × K × SimpleSampler K :=
  let u1 := sample.get2D.1.1
  let u2 := sample.get2D.1.2
  let theta := M.acos (M.sqrt u1)
  let phi := 2 * PI * u2
  let x := M.sin theta * M.cos phi
  let y := M.sin theta * M.sin phi
  let z := M.cos theta
  let wo : Vec3 K := ⟨x, y, z⟩
  (simpleDiffuseBSDF.f wi wo color, wo, simpleDiffuseBSDF.pdf wi wo, sample.get2D.2)

/-- Source `mirrorBSDF::f`. -/
def mirrorBSDF.f (_wi _wo color : Vec3 K) : Vec3 K := color

/-- Source `mirrorBSDF::pdf`. -/
def mirrorBSDF.pdf (_wi _wo : Vec3 K) : K := 1

/-- Source `mirrorBSDF::sample_f`; the sampler is not touched. -/
def mirrorBSDF.sample_f (wi color : Vec3 K) (sample : SimpleSampler K) :
    Vec3 K × Vec3 K × K × SimpleSampler K :=
  let wo := reflectZ wi
  (mirrorBSDF.f wi wo color, wo, mirrorBSDF.pdf wi wo, sample)

/-- Virtual dispatch of `BSDF::f`. -/
def BSDF.f (m : BSDF) (wi wo color : Vec3 K) : Vec3 K :=
  match m with
  | .simpleDiffuse => simpleDiffuseBSDF.f wi wo color
  | .phong n => phongBSDF.f n wi wo color
  | .mirror => mirrorBSDF.f wi wo color

/-- Virtual dispatch of `BSDF::sample_f`. -/
def BSDF.sample_f (m : BSDF) (M : CMath K) (wi color : Vec3 K) (sample : SimpleSampler K) :
    Vec3 K × Vec3 K × K × SimpleSampler K :=
  match m with
  | .simpleDiffuse => simpleDiffuseBSDF.sample_f M wi color sample
  | .phong n => phongBSDF.sample_f M n wi color sample
  | .mirror => mirrorBSDF.sample_f wi color sample

/-- Virtual dispatch of `BSDF::pdf`. -/
def BSDF.pdf (m : BSDF) (M : CMath K) (wi wo : Vec3 K) : K :=
  match m with
  | .simpleDiffuse => simpleDiffuseBSDF.pdf wi wo
  | .phong n => phongBSDF.pdf M n wi wo
  | .mirror => mirrorBSDF.pdf wi wo

end Materials

/-! ## lightTransport.cpp : next-event estimation and the MIS integrator

A thrown `std::out_of_range` (from `lights.at`) or a read through a null handle is the
result `none`. -/

section Integrator

variable {K : Type} [LinearOrderedField K]

/-- The weight `neeWeight` of `MISIntegrator::Li`. -/
def neeWeight (light_pdf pdf_val : K) : K :=
  light_pdf * light_pdf / (light_pdf * light_pdf + pdf_val * pdf_val)

/-- The weight `bsdfWeight` of `MISIntegrator::Li`. -/
def bsdfWeight (light_pdf pdf_val : K) : K :=
  pdf_val * pdf_val / (light_pdf * light_pdf + pdf_val * pdf_val)

variable [FloorRing K]

/-- The cast `static_cast<int>(x)` : truncation toward zero. -/
def truncToInt (x : K) : Int := if 0 ≤ x then ⌊x⌋ else ⌈x⌉

/-- The lookup `std::vector::at` with an `int` index (converted to `size_t`): `none` is the thrown
`std::out_of_range`. -/
def vectorAt {α : Type} (v : List α) (index : Int) : Option α :=
  if 0 ≤ index then v.get? index.toNat else none

/-- The point sampled on the light `l` from the two draws `d1`, `d2` (lines 168-171):
`u = sqrt(d1)`, `v = d2`, `p = (1 - u) * a + u * (1 - v) * b + u * v * c`. -/
def lightSamplePoint (M : CMath K) (l : Triangle K) (d1 d2 : K) : Vec3 K :=
  let u := M.sqrt d1
  let v := d2
  Vec3.add (Vec3.add (Vec3.lscale (1 - u) l.a.pt) (Vec3.lscale (u * (1 - v)) l.b.pt))
    (Vec3.lscale (u * v) l.c.pt)

/-- The shadow ray of `nextEventEstimation` (lines 172-178): direction
`unit(p - intersect.point)`, origin `intersect.point + n * 0.0001` with `n = hitTri.a->n`. -/
def shadowRay (M : CMath K) (intersect : Intersection K) (hitTri : Triangle K) (p : Vec3 K) :
    Ray K :=
  let n := hitTri.a.n
  let surfaceToLight := Vec3.sub p intersect.point
  let wi := unit M surfaceToLight
  ⟨wi, Vec3.add intersect.point (Vec3.scale n (1 / 10000))⟩

/-- Source `nextEventEstimation`; returns the contribution, `light_pdf` (an in/out reference in the
source) and the advanced sampler. -/
def nextEventEstimation (M : CMath K) (wo : Vec3 K) (objects lights : List (Triangle K))
    (sample : SimpleSampler K) (reflector : BSDF) (intersect : Intersection K) (light_pdf : K) :
    Option (Vec3 K × K × SimpleSampler K) :=
  let contribution : Vec3 K := ⟨0, 0, 0⟩
  let index := truncToInt (sample.get1D.1 * (lights.length : K))
  let s1 := sample.get1D.2
  match vectorAt lights index with
  | none => none
  | some l =>
    let s2 := s1.get1D.2
    let s3 := s2.get1D.2
    let p := lightSamplePoint M l s1.get1D.1 s2.get1D.1
    match intersect.hitTri with
    | none => none
    | some hitTri =>
      let n := hitTri.a.n
      let surfaceToLight := Vec3.sub p intersect.point
      let r := shadowRay M intersect hitTri p
      let wi := r.dir
      let t := (triangleIntersect l r).1
      let lightIntersect := sceneIntersection objects r (t * (99999 / 100000))
      if lightIntersect.valid = false ∧ t ≠ -1 then
        let distanceSQR := Vec3.lengthSquared surfaceToLight
        let lightNormal := l.a.n
        let G := dot lightNormal (Vec3.neg wi) * dot n wi / distanceSQR
        let area := 1 / 2 * Vec3.length M (cross (Vec3.sub l.b.pt l.a.pt) (Vec3.sub l.c.pt l.a.pt))
        let light_pdf1 := distanceSQR / ((lights.length : K) * dot lightNormal (Vec3.neg wi) * area)
        let Le := l.emission
        let f_val := reflector.f wi wo intersect.baseColor
        some (Vec3.div (Vec3.scale (Vec3.mul f_val Le) G) light_pdf1, light_pdf1, s3)
      else some (contribution, light_pdf, s3)

/-- The `for (int depth = 0; depth < maxDepth; depth++)` loop of `MISIntegrator::Li`, with
`n` iterations left, on the loop state `(Li, beta, r, sample)`. -/
def LiLoop (M : CMath K) (objects lights : List (Triangle K)) :
    Nat → Vec3 K → Vec3 K → Ray K → SimpleSampler K → Option (Vec3 K × SimpleSampler K)
  | 0, Li, _, _, sample => some (Li, sample)
  | n + 1, Li, beta, r, sample =>
    let intersectPt := sceneIntersection objects r MAX_T
    if intersectPt.valid = false then some (Li, sample)
    else
      match intersectPt.hitTri with
      | none => none
      | some hitTri =>
        let reflector := hitTri.material
        let wi_local := toLocal M (Vec3.neg r.direction) (unit M intersectPt.normal)
        match nextEventEstimation M wi_local objects lights sample reflector intersectPt 0 with
        | none => none
        | some (nee, light_pdf, s1) =>
          let sf := reflector.sample_f M wi_local intersectPt.baseColor s1
          let f_val := sf.1
          let wo_local := sf.2.1
          let pdf_val := sf.2.2.1
          let s2 := sf.2.2.2
          if pdf_val ≤ 0 then some (Li, s2)
          else
            let wo_world := toWorld M (unit M intersectPt.normal) wo_local
            let r1 : Ray K :=
              ⟨wo_world, Vec3.add intersectPt.point (Vec3.scale intersectPt.normal (1 / 10000))⟩
            let Li1 := Vec3.add Li (Vec3.scale (Vec3.mul beta nee) (neeWeight light_pdf pdf_val))
            let beta1 := Vec3.mul beta (Vec3.div (Vec3.scale f_val |wo_local.z|) pdf_val)
            let Li2 := Vec3.add Li1
              (Vec3.scale (Vec3.mul beta1 hitTri.emission) (bsdfWeight light_pdf pdf_val))
            LiLoop M objects lights n Li2 beta1 r1 s2

/-- Source `MISIntegrator::Li` for an integrator with the given `maxDepth`. -/
def MISIntegrator.Li (M : CMath K) (maxDepth : Int) (objects lights : List (Triangle K))
    (r : Ray K) (sample : SimpleSampler K) : Option (Vec3 K × SimpleSampler K) :=
  LiLoop M objects lights maxDepth.toNat Vec3.zero ⟨1, 1, 1⟩ r sample

end Integrator

/-! ## Concrete scenes

Small scenes on which the definitions are evaluated. -/

section Scenes

variable (K : Type) [LinearOrderedField K]

/-- A vertex at `(x, y, z)` with colour `c` and normal `n`. -/
def vtx (x y z : K) (c n : Vec3 K) : Vertex K := ⟨⟨x, y, z⟩, c, n⟩

/-- The triangle `a = (-1,-1,0)`, `b = (3,-1,0)`, `c = (-1,3,0)`: it covers the viewport
`[-1/2, 1/2]²` of the plane `z = 0` and is wound so that the camera at `(0,0,1)` sees its
front.  Vertex colour `col`, vertex normals `(0,0,1)`, emission `e`, material `m`. -/
def viewTri (col e : Vec3 K) (m : BSDF) : Triangle K :=
  ⟨vtx K (-1) (-1) 0 col ⟨0, 0, 1⟩, vtx K 3 (-1) 0 col ⟨0, 0, 1⟩, vtx K (-1) 3 0 col ⟨0, 0, 1⟩,
    e, m⟩

/-- The primary ray through the centre of the viewport: origin `C = (0,0,1)`, direction
`(0,0,0) - C`. -/
def camRay : Ray K := ⟨⟨0, 0, -1⟩, ⟨0, 0, 1⟩⟩

/-- A wall in the plane `x = -1`, facing `+x`: `a = (-1,-1,-2)`, `b = (-1,3,-2)`,
`c = (-1,-1,2)`, vertex normals `(1,0,0)`, vertex colour `col`, no emission, material `m`. -/
def wallTri (col : Vec3 K) (m : BSDF) : Triangle K :=
  ⟨vtx K (-1) (-1) (-2) col ⟨1, 0, 0⟩, vtx K (-1) 3 (-2) col ⟨1, 0, 0⟩,
    vtx K (-1) (-1) 2 col ⟨1, 0, 0⟩, ⟨0, 0, 0⟩, m⟩

/-- A lamp in the plane `x = 0` wound to face `-x`, toward the wall: `a = (0,-1,-2)`,
`b = (0,-1,2)`, `c = (0,3,-2)`, with vertex normals `nl`, emission `e`. -/
def lampTri (nl col e : Vec3 K) (m : BSDF) : Triangle K :=
  ⟨vtx K 0 (-1) (-2) col nl, vtx K 0 (-1) 2 col nl, vtx K 0 3 (-2) col nl, e, m⟩

/-- The lamp with `b` and `c` exchanged: wound to face `+x`, away from the wall. -/
def backLampTri (nl col e : Vec3 K) (m : BSDF) : Triangle K :=
  ⟨vtx K 0 (-1) (-2) col nl, vtx K 0 3 (-2) col nl, vtx K 0 (-1) 2 col nl, e, m⟩

/-- The primary ray through the viewport point `(-1/2, 0, 0)`: origin `C = (0,0,1)`,
direction `(-1/2, 0, 0) - C`.  It meets the wall at `(-1, 0, -1)` with `t = 2`. -/
def sideRay : Ray K := ⟨⟨-1 / 2, 0, -1⟩, ⟨0, 0, 1⟩⟩

/-- A sampler whose first three draws are `0`, `1/4`, `1/2` (all later ones `0`): light
index 0 and the light point `1/2·a + 1/4·b + 1/4·c`. -/
def lampSampler : SimpleSampler K :=
  ⟨fun i => if i = 1 then 1 / 4 else if i = 2 then 1 / 2 else 0, 0⟩

/-- A screen in the plane `x = -1/2`, between the wall and the lamp, wound like the lamp
(facing `-x`): `a = (-1/2,-1,-2)`, `b = (-1/2,-1,2)`, `c = (-1/2,3,-2)`. -/
def screenTri (col : Vec3 K) (m : BSDF) : Triangle K :=
  ⟨vtx K (-1 / 2) (-1) (-2) col ⟨-1, 0, 0⟩, vtx K (-1 / 2) (-1) 2 col ⟨-1, 0, 0⟩,
    vtx K (-1 / 2) 3 (-2) col ⟨-1, 0, 0⟩, ⟨0, 0, 0⟩, m⟩

end Scenes

/-! ## The mesh loader `readObj` (`render.cpp`)

The model starts after tokenisation: a file is the list of its lines by prefix, a face line
the list of its vertex tokens.  Vertices are held by value (the source keeps pointers into
`vertices`).  An out-of-range `operator[]` is the failure `none`. -/

section Loader

variable {K : Type} [LinearOrderedField K]

/-- A vertex token `pos[/tex[/normal]]` of a face record after the three
`getline(vss, idx, '/')`: `pos` and `normal` are what `stoi` reads from the first and the
third field, `none` when that field is empty or absent. -/
structure FaceToken where
  pos : Option Int
  normal : Option Int
deriving DecidableEq

/-- One line of the mesh file by its prefix: `v x y z`, `vt ...`, `vn x y z`, `f tokens`;
`skip` is an empty line, a `#` line or a line with any other prefix. -/
inductive ObjRecord (K : Type) where
  | v (p : Vec3 K) : ObjRecord K
  | vt : ObjRecord K
  | vn (n : Vec3 K) : ObjRecord K
  | f (tokens : List FaceToken) : ObjRecord K
  | skip : ObjRecord K

/-- The three vectors `readObj` appends to: `vertices`, `mesh`, `lights`. -/
structure Scene (K : Type) where
  vertices : List (Vertex K)
  mesh : List (Triangle K)
  lights : List (Triangle K)

/-- The unchecked `operator[]` of `std::vector` with an `int` index: outside the vector the
behaviour is undefined, which is the result `none`. -/
def vectorIdx {α : Type} (v : List α) (index : Int) : Option α :=
  if 0 ≤ index then v.get? index.toNat else none

/-- The list `vertexIndices` of a face record: `stoi(idx) - 1` of every non-empty first
field. -/
def vertexIndicesOf (tokens : List FaceToken) : List Int :=
  tokens.filterMap (fun tok => tok.pos.map (fun i => i - 1))

/-- The list `normalIndices` of a face record: `stoi(idx) - 1` of every non-empty third
field. -/
def normalIndicesOf (tokens : List FaceToken) : List Int :=
  tokens.filterMap (fun tok => tok.normal.map (fun i => i - 1))

/-- The vertex `Vertex(points[vertexIndices[i]], c, normals[normalIndices[i]])`. -/
def faceVertex (points normals : List (Vec3 K)) (vertexIndices normalIndices : List Int)
    (c : Vec3 K) (i : Nat) : Option (Vertex K) :=
  match vertexIndices.get? i, normalIndices.get? i with
  | some vi, some ni =>
    match vectorIdx points vi, vectorIdx normals ni with
    | some p, some nn => some ⟨p, c, nn⟩
    | _, _ => none
  | _, _ => none

/-- The two statements `mesh.push_back(Triangle(v1, v2, v3, e, &material));
if (e.lengthSquared() > 0) lights.push_back(...)`, on the pair `(mesh, lights)`. -/
def pushTriangle (e : Vec3 K) (material : BSDF) (v1 v2 v3 : Vertex K)
    (ml : List (Triangle K) × List (Triangle K)) : List (Triangle K) × List (Triangle K) :=
  (ml.1 ++ [⟨v1, v2, v3, e, material⟩],
    if 0 < Vec3.lengthSquared e then ml.2 ++ [⟨v1, v2, v3, e, material⟩] else ml.2)

/-- The first loop of the branch `n > 4`: `polyVertices` after `k` iterations. -/
def buildPoly (mk : Nat → Option (Vertex K)) : Nat → Option (List (Vertex K))
  | 0 => some []
  | k + 1 =>
    match buildPoly mk k, mk k with
    | some vs, some v => some (vs ++ [v])
    | _, _ => none

/-- The second loop of the branch `n > 4`, `for (int i = 1; i < n - 1; ++i)`, from index `i`
with `k` iterations left. -/
def fanLoop (poly : List (Vertex K)) (e : Vec3 K) (material : BSDF) :
    Nat → Nat → List (Triangle K) × List (Triangle K) →
      Option (List (Triangle K) × List (Triangle K))
  | _, 0, ml => some ml
  | i, k + 1, ml =>
    match poly.get? 0, poly.get? i, poly.get? (i + 1) with
    | some v1, some v2, some v3 => fanLoop poly e material (i + 1) k (pushTriangle e material v1 v2 v3 ml)
    | _, _, _ => none

/-- The branch `prefix == "f"` of `readObj` once the tokens are split. -/
def readFace (points normals : List (Vec3 K)) (c e : Vec3 K) (material : BSDF)
    (tokens : List FaceToken) (sc : Scene K) : Option (Scene K) :=
  let vertexIndices := vertexIndicesOf tokens
  let normalIndices := normalIndicesOf tokens
  let mk := faceVertex points normals vertexIndices normalIndices c
  let n := vertexIndices.length
  if n = 3 then
    match mk 0, mk 1, mk 2 with
    | some v1, some v2, some v3 =>
      let ml := pushTriangle e material v1 v2 v3 (sc.mesh, sc.lights)
      some ⟨sc.vertices ++ [v1, v2, v3], ml.1, ml.2⟩
    | _, _, _ => none
  else if n = 4 then
    match mk 0, mk 1, mk 2, mk 3 with
    | some v1, some v2, some v3, some v4 =>
      let ml := pushTriangle e material v1 v3 v4
        (pushTriangle e material v1 v2 v3 (sc.mesh, sc.lights))
      some ⟨sc.vertices ++ [v1, v2, v3, v4], ml.1, ml.2⟩
    | _, _, _, _ => none
  else if 4 < n then
    match buildPoly mk n with
    | none => none
    | some polyVertices =>
      match fanLoop polyVertices e material 1 (n - 2) (sc.mesh, sc.lights) with
      | none => none
      | some ml => some ⟨sc.vertices ++ polyVertices, ml.1, ml.2⟩
  else some sc

/-- The `while (std::getline(file, line))` loop of `readObj` on the remaining records, with
the local vectors `points` and `normals`. -/
def readLines (c e : Vec3 K) (material : BSDF) :
    List (ObjRecord K) → List (Vec3 K) → List (Vec3 K) → Scene K → Option (Scene K)
  | [], _, _, sc => some sc
  | ObjRecord.v p :: rest, points, normals, sc =>
    readLines c e material rest (points ++ [p]) normals sc
  | ObjRecord.vt :: rest, points, normals, sc => readLines c e material rest points normals sc
  | ObjRecord.vn n :: rest, points, normals, sc =>
    readLines c e material rest points (normals ++ [n]) sc
  | ObjRecord.f tokens :: rest, points, normals, sc =>
    match readFace points normals c e material tokens sc with
    | none => none
    | some sc1 => readLines c e material rest points normals sc1
  | ObjRecord.skip :: rest, points, normals, sc =>
    readLines c e material rest points normals sc

/-- Source `readObj`: `file` is `none` when the file cannot be opened (the vectors are left as
they are) and the list of its records otherwise. -/
def readObj (file : Option (List (ObjRecord K))) (sc : Scene K) (c e : Vec3 K)
    (material : BSDF) : Option (Scene K) :=
  match file with
  | none => some sc
  | some records => readLines c e material records [] [] sc

/-- One call `readObj(filename, vertices, objects, lights, c, e, material)` of `main`. -/
structure ObjCall (K : Type) where
  file : Option (List (ObjRecord K))
  c : Vec3 K
  e : Vec3 K
  material : BSDF

/-- A sequence of `readObj` calls on the same three vectors, as in `main`. -/
def readObjs : List (ObjCall K) → Scene K → Option (Scene K)
  | [], sc => some sc
  | call :: rest, sc =>
    match readObj call.file sc call.c call.e call.material with
    | none => none
    | some sc1 => readObjs rest sc1

/-- The fan `(p0, p_i, p_{i+1})`, `i = 1 .. n-2`, over the vertices `vs` of a face, as the
specification words it. -/
def fanSpec (vs : List (Vertex K)) (e : Vec3 K) (material : BSDF) : List (Triangle K) :=
  match vs with
  | [] => []
  | v0 :: rest => List.zipWith (fun a b => ⟨v0, a, b, e, material⟩) rest rest.tail

/-- The vertices of a face all of whose tokens carry a position index and a normal index
inside the vectors read so far (`none` otherwise), as the specification words it. -/
def faceVerticesSpec (points normals : List (Vec3 K)) (c : Vec3 K) :
    List FaceToken → Option (List (Vertex K))
  | [] => some []
  | tok :: rest =>
    match tok.pos, tok.normal with
    | some p, some q =>
      match vectorIdx points (p - 1), vectorIdx normals (q - 1),
          faceVerticesSpec points normals c rest with
      | some pt, some nn, some vs => some (⟨pt, c, nn⟩ :: vs)
      | _, _, _ => none
    | _, _ => none

/-- The two properties the emissive list is meant to have relative to the full triangle
list: every emissive triangle has non-zero emission and occurs in `mesh`, and every mesh
triangle with non-zero emission occurs in `lights`. -/
def Scene.EmissiveInvariant (sc : Scene K) : Prop :=
  (∀ t ∈ sc.lights, t.emission ≠ ⟨0, 0, 0⟩ ∧ t ∈ sc.mesh) ∧
  (∀ t ∈ sc.mesh, t.emission ≠ ⟨0, 0, 0⟩ → t ∈ sc.lights)

/-- The four corner positions of the unit square in the plane `z = 0`. -/
def squarePoints : List (Vec3 K) := [⟨0, 0, 0⟩, ⟨1, 0, 0⟩, ⟨1, 1, 0⟩, ⟨0, 1, 0⟩]

/-- The face record `f 1//1 2//1 3//1 4//1`. -/
def squareFace : List FaceToken :=
  [⟨some 1, some 1⟩, ⟨some 2, some 1⟩, ⟨some 3, some 1⟩, ⟨some 4, some 1⟩]

/-- A mesh file with the four corners of the unit square, the normal `(0,0,1)` and the
quad face over them. -/
def squareFile : List (ObjRecord K) :=
  [ObjRecord.v ⟨0, 0, 0⟩, ObjRecord.v ⟨1, 0, 0⟩, ObjRecord.v ⟨1, 1, 0⟩, ObjRecord.v ⟨0, 1, 0⟩,
    ObjRecord.vn ⟨0, 0, 1⟩, ObjRecord.f squareFace]

/-- The four vertices the quad face of `squareFile` creates with base colour `c`. -/
def squareVertices (c : Vec3 K) : List (Vertex K) :=
  [⟨⟨0, 0, 0⟩, c, ⟨0, 0, 1⟩⟩, ⟨⟨1, 0, 0⟩, c, ⟨0, 0, 1⟩⟩, ⟨⟨1, 1, 0⟩, c, ⟨0, 0, 1⟩⟩,
    ⟨⟨0, 1, 0⟩, c, ⟨0, 0, 1⟩⟩]

/-- The two triangles of the fan over `squareVertices c`. -/
def squareFan (c e : Vec3 K) (material : BSDF) : List (Triangle K) :=
  [⟨⟨⟨0, 0, 0⟩, c, ⟨0, 0, 1⟩⟩, ⟨⟨1, 0, 0⟩, c, ⟨0, 0, 1⟩⟩, ⟨⟨1, 1, 0⟩, c, ⟨0, 0, 1⟩⟩, e, material⟩,
    ⟨⟨⟨0, 0, 0⟩, c, ⟨0, 0, 1⟩⟩, ⟨⟨1, 1, 0⟩, c, ⟨0, 0, 1⟩⟩, ⟨⟨0, 1, 0⟩, c, ⟨0, 0, 1⟩⟩, e, material⟩]

/-- A mesh file with three positions, no normal, and the face record `f 1 2 3`. -/
def bareFile : List (ObjRecord K) :=
  [ObjRecord.v ⟨0, 0, 0⟩, ObjRecord.v ⟨1, 0, 0⟩, ObjRecord.v ⟨0, 1, 0⟩,
    ObjRecord.f [⟨some 1, none⟩, ⟨some 2, none⟩, ⟨some 3, none⟩]]

/-- Three `readObj` calls on the same vectors: `squareFile` as a white lamp of emission
`(5,5,5)`, a file that cannot be opened, and `squareFile` again as a red mirror without
emission. -/
def squareCalls : List (ObjCall K) :=
  [⟨some squareFile, ⟨1, 1, 1⟩, ⟨5, 5, 5⟩, BSDF.simpleDiffuse⟩,
    ⟨none, ⟨1, 1, 1⟩, ⟨0, 0, 0⟩, BSDF.mirror⟩,
    ⟨some squareFile, ⟨1, 0, 0⟩, ⟨0, 0, 0⟩, BSDF.mirror⟩]

/-- The three vectors after `squareCalls`, started empty. -/
def squareScene : Scene K :=
  ⟨squareVertices ⟨1, 1, 1⟩ ++ squareVertices ⟨1, 0, 0⟩,
    squareFan ⟨1, 1, 1⟩ ⟨5, 5, 5⟩ BSDF.simpleDiffuse ++ squareFan ⟨1, 0, 0⟩ ⟨0, 0, 0⟩ BSDF.mirror,
    squareFan ⟨1, 1, 1⟩ ⟨5, 5, 5⟩ BSDF.simpleDiffuse⟩

end Loader

/-! ## image.cpp : the bitmap writer

Signed `int` overflow is the failure `none`; so is an array access outside its bounds. -/

section ImageOutput

variable {K : Type} [LinearOrderedField K] [FloorRing K]

/-- The value of an `int` expression: the mathematical value when it is representable in 32
bits, `none` on signed overflow (undefined behaviour). -/
def checkedInt (x : Int) : Option Int :=
  if -2 ^ 31 ≤ x ∧ x < 2 ^ 31 then some x else none

/-- The expression `(3 * width + 3) & (~3)` of `saveImageBMP` and `createBMPHeaders`, on
two's-complement integers of any width. -/
def rowSizeOf (width : Int) : Int := Int.land (3 * width + 3) (Int.lnot 3)

/-- The local `int rowSize` : the three `int` operations `3 * width`, `+ 3` and `& (~3)`, the
first two of which can overflow. -/
def rowSizeInt (width : Int) : Option Int :=
  match checkedInt (3 * width) with
  | none => none
  | some w3 =>
    match checkedInt (w3 + 3) with
    | none => none
    | some s => some (Int.land s (Int.lnot 3))

/-- The conversion of an `int` to `size_t` (64 bits) in `sizeof(...) + sizeof(...) + imageSize`. -/
def toSizeT (x : Int) : Int := x % 2 ^ 64

/-- The fields `createBMPHeaders` assigns.  The declarations of `BMPFileHeader` and
`BMPInfoHeader` (`bmp.h`) are not part of the sources: every field holds the value of the
expression assigned to it, before its conversion to the type of the field. -/
structure BMPHeaders where
  bfType : Int
  bfSize : Int
  bfReserved1 : Int
  bfReserved2 : Int
  bfOffBits : Int
  biSize : Int
  biWidth : Int
  biHeight : Int
  biPlanes : Int
  biBitCount : Int
  biCompression : Int
  biSizeImage : Int
  biXPelsPerMeter : Int
  biYPelsPerMeter : Int
  biClrUsed : Int
  biClrImportant : Int
deriving DecidableEq, Repr

/-- Source `createBMPHeaders`.  `sizeofFileHeader` and `sizeofInfoHeader` are
`sizeof(BMPFileHeader)` and `sizeof(BMPInfoHeader)`; `rowSize * height` is an `int`
product, the two sums are `size_t` sums. -/
def createBMPHeaders (sizeofFileHeader sizeofInfoHeader : Nat) (width height : Int) :
    Option BMPHeaders :=
  match rowSizeInt width with
  | none => none
  | some rowSize =>
    match checkedInt (rowSize * height) with
    | none => none
    | some imageSize =>
      some
        { bfType := 0x4D42
          bfSize := toSizeT (toSizeT ((sizeofFileHeader : Int) + sizeofInfoHeader) +
            toSizeT imageSize)
          bfReserved1 := 0
          bfReserved2 := 0
          bfOffBits := toSizeT ((sizeofFileHeader : Int) + sizeofInfoHeader)
          biSize := sizeofInfoHeader
          biWidth := width
          biHeight := height
          biPlanes := 1
          biBitCount := 24
          biCompression := 0
          biSizeImage := imageSize
          biXPelsPerMeter := 0
          biYPelsPerMeter := 0
          biClrUsed := 0
          biClrImportant := 0 }

/-- The class `Image`: `width`, `height` and the vector `pixels`. -/
structure Image (K : Type) where
  width : Int
  height : Int
  pixels : List (Vec3 K)

/-- Source `Image::toIndex`. -/
def Image.toIndex (img : Image K) (x y : Int) : Int := y * img.width + x

/-- Source `Image::getColor` : the unchecked `pixels[toIndex(x, y)]`, `none` outside the
vector. -/
def Image.getColor (img : Image K) (x y : Int) : Option (Vec3 K) :=
  vectorIdx img.pixels (img.toIndex x y)

/-- The function `std::clamp(v, lo, hi)`. -/
def clamp (v lo hi : K) : K := if v < lo then lo else if hi < v then hi else v

/-- The byte `static_cast<unsigned char>(std::clamp(ch, 0.0, 1.0) * 255.0f + 0.5f)`. -/
def toByte (ch : K) : Int := truncToInt (clamp ch 0 1 * 255 + 1 / 2)

/-- The array write `row[i] = b`; outside the array the behaviour is undefined (`none`). -/
def storeAt (row : List Int) (i : Int) (b : Int) : Option (List Int) :=
  if 0 ≤ i ∧ i < row.length then some (row.set i.toNat b) else none

/-- The loop `for (int x = 0; x < width; x++)` of `saveImageBMP` from column `x` on, with `k`
iterations left: the three bytes of pixel `(x, y)` go to `row[3x]`, `row[3x+1]`, `row[3x+2]`
in the order blue, green, red. -/
def pixelLoop (img : Image K) (y : Int) : Nat → Int → List Int → Option (List Int)
  | 0, _, row => some row
  | k + 1, x, row =>
    match img.getColor x y with
    | none => none
    | some c =>
      match storeAt row (x * 3 + 0) (toByte (c.get 2)) with
      | none => none
      | some r1 =>
        match storeAt r1 (x * 3 + 1) (toByte (c.get 1)) with
        | none => none
        | some r2 =>
          match storeAt r2 (x * 3 + 2) (toByte (c.get 0)) with
          | none => none
          | some r3 => pixelLoop img y k (x + 1) r3

/-- The loop `for (int i = 0; i < diff*3; i++) row[width*3 + i] = 0;` from index `i` on, with
`k` iterations left. -/
def paddingLoop (width : Int) : Nat → Int → List Int → Option (List Int)
  | 0, _, row => some row
  | k + 1, i, row =>
    match storeAt row (width * 3 + i) 0 with
    | none => none
    | some r1 => paddingLoop width k (i + 1) r1

/-- The loop `for (int y = 0; y < height; y++)` of `saveImageBMP` from row `y` on, with `k`
iterations left, on the state `(row, out)`: `out` is the list of the rows written so far by
`out.write((char*)row, rowSize)`. -/
def rowsLoop (img : Image K) (rowSize diff : Int) :
    Nat → Int → List Int → List (List Int) → Option (List (List Int))
  | 0, _, _, out => some out
  | k + 1, y, row, out =>
    match pixelLoop img y img.width.toNat 0 row with
    | none => none
    | some r1 =>
      match paddingLoop img.width (diff * 3).toNat 0 r1 with
      | none => none
      | some r2 => rowsLoop img rowSize diff k (y + 1) r2 (out ++ [r2.take rowSize.toNat])

/-- Source `Image::saveImageBMP` : the headers and the rows written after them.  The array
`unsigned char row[rowSize]` is not initialised: `prior i` is what its byte `i` holds before
the first write. -/
def Image.saveImageBMP (sizeofFileHeader sizeofInfoHeader : Nat) (img : Image K)
    (prior : Nat → Int) : Option (BMPHeaders × List (List Int)) :=
  match createBMPHeaders sizeofFileHeader sizeofInfoHeader img.width img.height with
  | none => none
  | some headers =>
    match rowSizeInt img.width with
    | none => none
    | some rowSize =>
      match checkedInt (img.width - rowSize) with
      | none => none
      | some diff =>
        let row := (List.range rowSize.toNat).map prior
        match rowsLoop img rowSize diff img.height.toNat 0 row [] with
        | none => none
        | some out => some (headers, out)

end ImageOutput

/-! ## render.cpp : the primary rays of `main` -/

section Driver

variable {K : Type} [LinearOrderedField K]

/-- The camera position `cameraOrigin(0,0,1.0)` of `main`. -/
def cameraOrigin : Vec3 K := ⟨0, 0, 1⟩

/-- The pixel-plane point `a` of `main` for pixel `(i, j)` and jitter `(du, dv)`:
`Point((i + 1.0*du - 0.5 - imageWidth/2.0) * (viewPortWidth / imageWidth),
(j + 1.0*dv - 0.5 - imageHeight/2.0) * (viewPortHeight / imageHeight), 0)`. -/
def pixelPlanePoint (imageWidth imageHeight : Int) (viewPortWidth viewPortHeight : K)
    (i j : Int) (du dv : K) : Vec3 K :=
  ⟨((i : K) + 1 * du - 1 / 2 - (imageWidth : K) / 2) * (viewPortWidth / (imageWidth : K)),
    ((j : K) + 1 * dv - 1 / 2 - (imageHeight : K) / 2) * (viewPortHeight / (imageHeight : K)),
    0⟩

/-- The primary ray `Ray(a - cameraOrigin, cameraOrigin)` of `main`; the direction is not
normalised. -/
def primaryRay (imageWidth imageHeight : Int) (viewPortWidth viewPortHeight : K)
    (i j : Int) (du dv : K) : Ray K :=
  ⟨Vec3.sub (pixelPlanePoint imageWidth imageHeight viewPortWidth viewPortHeight i j du dv)
    cameraOrigin, cameraOrigin⟩

end Driver

/-! ## Properties of `triangleIntersect` -/

section IntersectionProofs

variable {K : Type} [LinearOrderedField K]

theorem miss_ne_hit (t u v : K) : (miss : K × Vec3 K) ≠ (t, ⟨u, v, 1 - u - v⟩) := by
  intro h
  simp only [miss, Prod.mk.injEq, Vec3.mk.injEq] at h
  obtain ⟨_, hu, hv, hw⟩ := h
  rw [← hu, ← hv] at hw
  norm_num at hw

/-- The two nested tests of `triangleIntersect` as one conditional. -/
theorem triangleIntersect_eq_ite (tri : Triangle K) (r : Ray K) :
    triangleIntersect tri r =
      if EPS ≤ dot (cross r.dir (Vec3.sub tri.c.pt tri.a.pt)) (Vec3.sub tri.b.pt tri.a.pt) ∧
          0 ≤ 1 / dot (cross r.dir (Vec3.sub tri.c.pt tri.a.pt)) (Vec3.sub tri.b.pt tri.a.pt) *
            dot (Vec3.sub r.orig tri.a.pt) (cross r.dir (Vec3.sub tri.c.pt tri.a.pt)) ∧
          0 ≤ 1 / dot (cross r.dir (Vec3.sub tri.c.pt tri.a.pt)) (Vec3.sub tri.b.pt tri.a.pt) *
            dot r.dir (cross (Vec3.sub r.orig tri.a.pt) (Vec3.sub tri.b.pt tri.a.pt)) ∧
          1 / dot (cross r.dir (Vec3.sub tri.c.pt tri.a.pt)) (Vec3.sub tri.b.pt tri.a.pt) *
            dot (Vec3.sub r.orig tri.a.pt) (cross r.dir (Vec3.sub tri.c.pt tri.a.pt)) +
          1 / dot (cross r.dir (Vec3.sub tri.c.pt tri.a.pt)) (Vec3.sub tri.b.pt tri.a.pt) *
            dot r.dir (cross (Vec3.sub r.orig tri.a.pt) (Vec3.sub tri.b.pt tri.a.pt)) ≤ 1 ∧
          EPS < 1 / dot (cross r.dir (Vec3.sub tri.c.pt tri.a.pt)) (Vec3.sub tri.b.pt tri.a.pt) *
            dot (Vec3.sub tri.c.pt tri.a.pt)
              (cross (Vec3.sub r.orig tri.a.pt) (Vec3.sub tri.b.pt tri.a.pt))
      then
        (1 / dot (cross r.dir (Vec3.sub tri.c.pt tri.a.pt)) (Vec3.sub tri.b.pt tri.a.pt) *
            dot (Vec3.sub tri.c.pt tri.a.pt)
              (cross (Vec3.sub r.orig tri.a.pt) (Vec3.sub tri.b.pt tri.a.pt)),
          ⟨1 / dot (cross r.dir (Vec3.sub tri.c.pt tri.a.pt)) (Vec3.sub tri.b.pt tri.a.pt) *
              dot (Vec3.sub r.orig tri.a.pt) (cross r.dir (Vec3.sub tri.c.pt tri.a.pt)),
            1 / dot (cross r.dir (Vec3.sub tri.c.pt tri.a.pt)) (Vec3.sub tri.b.pt tri.a.pt) *
              dot r.dir (cross (Vec3.sub r.orig tri.a.pt) (Vec3.sub tri.b.pt tri.a.pt)),
            1 - 1 / dot (cross r.dir (Vec3.sub tri.c.pt tri.a.pt)) (Vec3.sub tri.b.pt tri.a.pt) *
                dot (Vec3.sub r.orig tri.a.pt) (cross r.dir (Vec3.sub tri.c.pt tri.a.pt)) -
              1 / dot (cross r.dir (Vec3.sub tri.c.pt tri.a.pt)) (Vec3.sub tri.b.pt tri.a.pt) *
                dot r.dir (cross (Vec3.sub r.orig tri.a.pt) (Vec3.sub tri.b.pt tri.a.pt))⟩)
      else miss := by
  unfold triangleIntersect
  simp only [Ray.direction, Ray.origin]
  by_cases ha : dot (cross r.dir (Vec3.sub tri.c.pt tri.a.pt)) (Vec3.sub tri.b.pt tri.a.pt) < EPS
  · rw [if_pos ha, if_neg (fun hc => not_le.mpr ha hc.1)]
  · rw [if_neg ha]
    split_ifs with h1 h2 h2
    · rfl
    · exact absurd ⟨not_lt.mp ha, h1.1.1, h1.1.2.1, h1.1.2.2, h1.2⟩ h2
    · exact absurd ⟨⟨h2.2.1, h2.2.2.1, h2.2.2.2.1⟩, h2.2.2.2.2⟩ h1
    · rfl

/-- C1.  With `e1 = b-a`, `e2 = c-a`, `h = D×e2`, `alpha = h·e1`, `f = 1/alpha`, `s = O-a`,
`u = f(s·h)`, `q = s×e1`, `v = f(D·q)`, `t = f(e2·q)`: `triangleIntersect` returns
`(t, <u, v, 1-u-v>)` exactly when `alpha >= 1e-5`, `u >= 0`, `v >= 0`, `u+v <= 1` and
`t > 1e-5`, it returns the miss sentinel `(-1, <0,0,0>)` in every other case, and so the
returned `t` is `-1` or greater than `1e-5`. -/
theorem triangleIntersect_accept_iff (tri : Triangle K) (r : Ray K) :
    let e1 := Vec3.sub tri.b.pt tri.a.pt
    let e2 := Vec3.sub tri.c.pt tri.a.pt
    let h := cross r.dir e2
    let alpha := dot h e1
    let f := 1 / alpha
    let s := Vec3.sub r.orig tri.a.pt
    let u := f * dot s h
    let q := cross s e1
    let v := f * dot r.dir q
    let t := f * dot e2 q
    (triangleIntersect tri r = (t, ⟨u, v, 1 - u - v⟩) ↔
        (1 / 100000 ≤ alpha ∧ 0 ≤ u ∧ 0 ≤ v ∧ u + v ≤ 1 ∧ 1 / 100000 < t)) ∧
    (triangleIntersect tri r =
        if 1 / 100000 ≤ alpha ∧ 0 ≤ u ∧ 0 ≤ v ∧ u + v ≤ 1 ∧ 1 / 100000 < t
        then (t, ⟨u, v, 1 - u - v⟩) else (-1, ⟨0, 0, 0⟩)) ∧
    ((triangleIntersect tri r).1 = -1 ∨ 1 / 100000 < (triangleIntersect tri r).1) := by
  intro e1 e2 h alpha f s u q v t
  have hdef : triangleIntersect tri r =
      if 1 / 100000 ≤ alpha ∧ 0 ≤ u ∧ 0 ≤ v ∧ u + v ≤ 1 ∧ 1 / 100000 < t
      then (t, ⟨u, v, 1 - u - v⟩) else (-1, ⟨0, 0, 0⟩) := triangleIntersect_eq_ite tri r
  refine ⟨?_, hdef, ?_⟩
  · rw [hdef]
    constructor
    · intro heq
      by_contra hc
      rw [if_neg hc] at heq
      exact miss_ne_hit t u v heq
    · intro hc
      rw [if_pos hc]
  · rw [hdef]
    split_ifs with hc
    · exact Or.inr hc.2.2.2.2
    · exact Or.inl rfl

/-- C2.  On the triangle `a = (-1,-1,0)`, `b = (3,-1,0)`, `c = (-1,3,0)` the ray from
`(0,0,1)` with direction `(0,0,-1)` is accepted with `t = 1` and the triple
`<1/4, 1/4, 1/2>`; the hit point `O + t·D` is `(0,0,0)`, whereas the triple taken in the
returned order gives `1/4·a + 1/4·b + 1/2·c = (0,1,0)`. -/
theorem triangleIntersect_triple_not_abc_order :
    triangleIntersect (viewTri ℚ ⟨1, 1, 1⟩ ⟨0, 0, 0⟩ BSDF.simpleDiffuse) (camRay ℚ)
        = (1, ⟨1 / 4, 1 / 4, 1 / 2⟩) ∧
    (camRay ℚ).pointAt 1 = ⟨0, 0, 0⟩ ∧
    Vec3.add (Vec3.add
        (Vec3.lscale (1 / 4) (viewTri ℚ ⟨1, 1, 1⟩ ⟨0, 0, 0⟩ BSDF.simpleDiffuse).a.pt)
        (Vec3.lscale (1 / 4) (viewTri ℚ ⟨1, 1, 1⟩ ⟨0, 0, 0⟩ BSDF.simpleDiffuse).b.pt))
        (Vec3.lscale (1 / 2) (viewTri ℚ ⟨1, 1, 1⟩ ⟨0, 0, 0⟩ BSDF.simpleDiffuse).c.pt)
      = ⟨0, 1, 0⟩ ∧
    (camRay ℚ).pointAt 1 ≠
      Vec3.add (Vec3.add
        (Vec3.lscale (1 / 4) (viewTri ℚ ⟨1, 1, 1⟩ ⟨0, 0, 0⟩ BSDF.simpleDiffuse).a.pt)
        (Vec3.lscale (1 / 4) (viewTri ℚ ⟨1, 1, 1⟩ ⟨0, 0, 0⟩ BSDF.simpleDiffuse).b.pt))
        (Vec3.lscale (1 / 2) (viewTri ℚ ⟨1, 1, 1⟩ ⟨0, 0, 0⟩ BSDF.simpleDiffuse).c.pt) := by
  refine ⟨?_, ?_, ?_, ?_⟩ <;>
    norm_num [triangleIntersect, viewTri, camRay, vtx, cross, dot, Vec3.sub, Vec3.add,
      Vec3.scale, Vec3.lscale, Ray.direction, Ray.origin, Ray.pointAt, EPS, miss]

/-- The camera ray meets `viewTri` at `t = 1` with the triple `<1/4, 1/4, 1/2>`. -/
theorem viewTri_camRay (col e : Vec3 K) (m : BSDF) :
    triangleIntersect (viewTri K col e m) (camRay K) = (1, ⟨1 / 4, 1 / 4, 1 / 2⟩) := by
  norm_num [triangleIntersect, viewTri, camRay, vtx, cross, dot, Vec3.sub,
    Ray.direction, Ray.origin, EPS, miss]

theorem EPS_pos : (0 : K) < EPS := by
  unfold EPS; norm_num

theorem triangleIntersect_miss_or_gt (tri : Triangle K) (r : Ray K) :
    triangleIntersect tri r = miss ∨ EPS < (triangleIntersect tri r).1 := by
  rw [triangleIntersect_eq_ite]
  split_ifs with hc
  · exact Or.inr hc.2.2.2.2
  · exact Or.inl rfl

/-- The test `t != -1.0` of the callers singles out the accepted hits. -/
theorem hit_iff_fst_ne (tri : Triangle K) (r : Ray K) :
    triangleIntersect tri r ≠ miss ↔ (triangleIntersect tri r).1 ≠ -1 := by
  constructor
  · intro h
    rcases triangleIntersect_miss_or_gt tri r with hm | hg
    · exact absurd hm h
    · intro h1
      rw [h1] at hg
      have := EPS_pos (K := K)
      linarith
  · intro h hm
    rw [hm] at h
    exact h rfl

/-! ## Properties of `sceneIntersection` -/

theorem sceneStep_snoc (r : Ray K) (max_t : K) (st : K × Intersection K) (l : List (Triangle K))
    (x : Triangle K) :
    List.foldl (sceneStep r max_t) st (l ++ [x]) =
      sceneStep r max_t (List.foldl (sceneStep r max_t) st l) x := by
  rw [List.foldl_append]; rfl

/-- Loop invariant of `sceneIntersection` after the triangles `l`: either nothing was
accepted below `max_t` and the state is the initial one, or the state is the record of the
first triangle of `l` whose `t` is least among the accepted ones below `max_t`. -/
theorem sceneLoop_invariant (r : Ray K) (max_t : K) (hmax : max_t ≤ DBL_MAX)
    (l : List (Triangle K)) :
    (List.foldl (sceneStep r max_t) (DBL_MAX, Intersection.empty) l = (DBL_MAX, Intersection.empty)
      ∧ ∀ tri ∈ l, (triangleIntersect tri r).1 ≠ -1 → ¬ (triangleIntersect tri r).1 < max_t) ∨
    (∃ pre tri post, l = pre ++ tri :: post ∧
        (triangleIntersect tri r).1 ≠ -1 ∧ (triangleIntersect tri r).1 < max_t ∧
        List.foldl (sceneStep r max_t) (DBL_MAX, Intersection.empty) l
          = ((triangleIntersect tri r).1, hitRecord r tri) ∧
        (∀ tri' ∈ l, (triangleIntersect tri' r).1 ≠ -1 → (triangleIntersect tri' r).1 < max_t →
          (triangleIntersect tri r).1 ≤ (triangleIntersect tri' r).1) ∧
        (∀ tri' ∈ pre, (triangleIntersect tri' r).1 ≠ -1 →
          (triangleIntersect tri' r).1 ≠ (triangleIntersect tri r).1)) := by
  induction l using List.reverseRecOn with
  | nil =>
    left
    refine ⟨rfl, ?_⟩
    intro tri htri
    simp at htri
  | append_singleton l x ih =>
    rw [sceneStep_snoc]
    generalize List.foldl (sceneStep r max_t) (DBL_MAX, Intersection.empty) l = st at ih ⊢
    by_cases hx : (triangleIntersect x r).1 ≠ -1 ∧ (triangleIntersect x r).1 < st.1 ∧
        (triangleIntersect x r).1 < max_t
    · -- the state is replaced by the hit on `x`
      have hstep : sceneStep r max_t st x = ((triangleIntersect x r).1, hitRecord r x) := by
        unfold sceneStep
        simp only [if_pos hx.1, if_pos hx.2]
      rw [hstep]
      right
      refine ⟨l, x, [], rfl, hx.1, hx.2.2, rfl, ?_, ?_⟩
      · intro tri' hmem hne hlt
        rcases List.mem_append.mp hmem with hl | hl
        · rcases ih with ⟨_, hnone⟩ | ⟨pre, tri, post, _, _, _, hst, hmin, _⟩
          · exact absurd hlt (hnone tri' hl hne)
          · have h1 := hmin tri' hl hne hlt
            have h2 := hx.2.1
            rw [hst] at h2
            exact le_of_lt (lt_of_lt_of_le h2 h1)
        · simp only [List.mem_singleton] at hl
          rw [hl]
      · intro tri' hl hne heq
        rcases ih with ⟨_, hnone⟩ | ⟨pre, tri, post, _, _, _, hst, hmin, _⟩
        · exact hnone tri' hl hne (heq ▸ hx.2.2)
        · have h1 := hmin tri' hl hne (heq ▸ hx.2.2)
          have h2 := hx.2.1
          rw [hst] at h2
          rw [heq] at h1
          exact absurd h2 (not_lt.mpr h1)
    · -- the state is kept
      have hstep : sceneStep r max_t st x = st := by
        unfold sceneStep
        by_cases h1 : (triangleIntersect x r).1 ≠ -1
        · have h2 : ¬ ((triangleIntersect x r).1 < st.1 ∧ (triangleIntersect x r).1 < max_t) :=
            fun h => hx ⟨h1, h⟩
          simp only [if_pos h1, if_neg h2]
        · simp only [if_neg h1]
      rw [hstep]
      rcases ih with ⟨hst, hnone⟩ | ⟨pre, tri, post, hl, hne, hlt, hst, hmin, hpre⟩
      · left
        refine ⟨hst, ?_⟩
        intro tri' hmem hne' hlt'
        rcases List.mem_append.mp hmem with hl | hl
        · exact hnone tri' hl hne' hlt'
        · simp only [List.mem_singleton] at hl
          subst hl
          apply hx
          refine ⟨hne', ?_, hlt'⟩
          rw [hst]
          exact lt_of_lt_of_le hlt' hmax
      · right
        refine ⟨pre, tri, post ++ [x], ?_, hne, hlt, hst, ?_, hpre⟩
        · rw [hl]; simp
        · intro tri' hmem hne' hlt'
          rcases List.mem_append.mp hmem with hl' | hl'
          · exact hmin tri' hl' hne' hlt'
          · simp only [List.mem_singleton] at hl'
            subst hl'
            by_contra hcon
            apply hx
            refine ⟨hne', ?_, hlt'⟩
            rw [hst]
            exact not_le.mp hcon

/-- C3.  For a bound `max_t` in the range of `double` (`max_t <= DBL_MAX`):
`sceneIntersection` returns `valid = true` exactly when some triangle of the list is accepted
by `triangleIntersect` with `t < max_t`; and then the list splits as `pre ++ tri :: post`
where `tri` is accepted with `t* < max_t`, `t*` is least among the accepted `t` below `max_t`,
no triangle of `pre` attains `t*`, the returned point is `r.pointAt(t*)` and `hitTri` is
`tri`. -/
theorem sceneIntersection_nearest (tris : List (Triangle K)) (r : Ray K) (max_t : K)
    (hmax : max_t ≤ DBL_MAX) :
    ((sceneIntersection tris r max_t).valid = true ↔
      ∃ tri ∈ tris, triangleIntersect tri r ≠ miss ∧ (triangleIntersect tri r).1 < max_t) ∧
    ((sceneIntersection tris r max_t).valid = true →
      ∃ pre tri post, tris = pre ++ tri :: post ∧
        triangleIntersect tri r ≠ miss ∧ (triangleIntersect tri r).1 < max_t ∧
        (∀ tri' ∈ tris, triangleIntersect tri' r ≠ miss → (triangleIntersect tri' r).1 < max_t →
          (triangleIntersect tri r).1 ≤ (triangleIntersect tri' r).1) ∧
        (∀ tri' ∈ pre, ¬ (triangleIntersect tri' r ≠ miss ∧
          (triangleIntersect tri' r).1 = (triangleIntersect tri r).1)) ∧
        (sceneIntersection tris r max_t).point = r.pointAt (triangleIntersect tri r).1 ∧
        (sceneIntersection tris r max_t).hitTri = some tri) := by
  unfold sceneIntersection
  rcases sceneLoop_invariant r max_t hmax tris with
    ⟨hst, hnone⟩ | ⟨pre, tri, post, hl, hne, hlt, hst, hmin, hpre⟩
  · rw [hst]
    refine ⟨⟨fun h => ?_, fun h => ?_⟩, fun h => ?_⟩
    · simp [Intersection.empty] at h
    · obtain ⟨tri, hmem, hhit, hlt⟩ := h
      exact absurd hlt (hnone tri hmem ((hit_iff_fst_ne tri r).mp hhit))
    · simp [Intersection.empty] at h
  · rw [hst]
    have hmem : tri ∈ tris := by rw [hl]; simp
    refine ⟨⟨fun _ => ⟨tri, hmem, (hit_iff_fst_ne tri r).mpr hne, hlt⟩, fun _ => rfl⟩, fun _ => ?_⟩
    refine ⟨pre, tri, post, hl, (hit_iff_fst_ne tri r).mpr hne, hlt, ?_, ?_, rfl, rfl⟩
    · intro tri' hmem' hhit' hlt'
      exact hmin tri' hmem' ((hit_iff_fst_ne tri' r).mp hhit') hlt'
    · rintro tri' hmem' ⟨hhit', heq⟩
      exact hpre tri' hmem' ((hit_iff_fst_ne tri' r).mp hhit') heq

/-- C3 on the one-triangle scene `[viewTri]` with the camera ray and the default bound
`99999999`. -/
theorem sceneIntersection_nearest_witness :
    (MAX_T : ℚ) ≤ DBL_MAX ∧
    ((sceneIntersection [viewTri ℚ ⟨1, 1, 1⟩ ⟨0, 0, 0⟩ BSDF.simpleDiffuse] (camRay ℚ) MAX_T).valid
        = true ↔
      ∃ tri ∈ [viewTri ℚ ⟨1, 1, 1⟩ ⟨0, 0, 0⟩ BSDF.simpleDiffuse],
        triangleIntersect tri (camRay ℚ) ≠ miss ∧ (triangleIntersect tri (camRay ℚ)).1 < MAX_T) ∧
    ((sceneIntersection [viewTri ℚ ⟨1, 1, 1⟩ ⟨0, 0, 0⟩ BSDF.simpleDiffuse] (camRay ℚ) MAX_T).valid
        = true →
      ∃ pre tri post, [viewTri ℚ ⟨1, 1, 1⟩ ⟨0, 0, 0⟩ BSDF.simpleDiffuse] = pre ++ tri :: post ∧
        triangleIntersect tri (camRay ℚ) ≠ miss ∧ (triangleIntersect tri (camRay ℚ)).1 < MAX_T ∧
        (∀ tri' ∈ [viewTri ℚ ⟨1, 1, 1⟩ ⟨0, 0, 0⟩ BSDF.simpleDiffuse],
          triangleIntersect tri' (camRay ℚ) ≠ miss → (triangleIntersect tri' (camRay ℚ)).1 < MAX_T →
          (triangleIntersect tri (camRay ℚ)).1 ≤ (triangleIntersect tri' (camRay ℚ)).1) ∧
        (∀ tri' ∈ pre, ¬ (triangleIntersect tri' (camRay ℚ) ≠ miss ∧
          (triangleIntersect tri' (camRay ℚ)).1 = (triangleIntersect tri (camRay ℚ)).1)) ∧
        (sceneIntersection [viewTri ℚ ⟨1, 1, 1⟩ ⟨0, 0, 0⟩ BSDF.simpleDiffuse] (camRay ℚ) MAX_T).point
          = (camRay ℚ).pointAt (triangleIntersect tri (camRay ℚ)).1 ∧
        (sceneIntersection [viewTri ℚ ⟨1, 1, 1⟩ ⟨0, 0, 0⟩ BSDF.simpleDiffuse] (camRay ℚ) MAX_T).hitTri
          = some tri) :=
  ⟨by norm_num [MAX_T, DBL_MAX],
    sceneIntersection_nearest [viewTri ℚ ⟨1, 1, 1⟩ ⟨0, 0, 0⟩ BSDF.simpleDiffuse] (camRay ℚ) MAX_T
      (by norm_num [MAX_T, DBL_MAX])⟩

end IntersectionProofs

/-! ## Arithmetic facts used below -/

section Basics

variable {K : Type} [LinearOrderedField K]

/-- The constant `PI` is positive. -/
theorem PI_pos : (0 : K) < PI := by
  unfold PI; norm_num

/-- The first test of `triangleIntersect`: `alpha < 0.00001` is a miss. -/
theorem triangleIntersect_of_alpha_lt (tri : Triangle K) (r : Ray K)
    (h : dot (cross r.dir (Vec3.sub tri.c.pt tri.a.pt)) (Vec3.sub tri.b.pt tri.a.pt) < EPS) :
    triangleIntersect tri r = miss := by
  unfold triangleIntersect
  simp only [Ray.direction]
  rw [if_pos h]

/-- The determinant `alpha = (D × e2)·e1 = -D·(e1 × e2)`. -/
theorem dot_cross_swap (d e1 e2 : Vec3 K) :
    dot (cross d e2) e1 = - dot d (cross e1 e2) := by
  simp only [dot, cross]; ring

/-- An exact `sqrt` inverts squaring on the non-negative numbers. -/
theorem sqrt_mul_self_eq (M : CMath K) (hM : M.IsSqrt) (y : K) (hy : 0 ≤ y) :
    M.sqrt (y * y) = y := by
  obtain ⟨h0, h1⟩ := hM (y * y) (mul_self_nonneg y)
  exact (mul_self_inj h0 hy).mp h1

theorem sqrt_one_eq (M : CMath K) (hM : M.IsSqrt) : M.sqrt 1 = 1 := by
  have := sqrt_mul_self_eq M hM 1 zero_le_one
  rwa [mul_one] at this

theorem sqrt_zero_eq (M : CMath K) (hM : M.IsSqrt) : M.sqrt 0 = 0 := by
  have := sqrt_mul_self_eq M hM 0 le_rfl
  rwa [mul_zero] at this

end Basics

/-! ## The shading frame -/

section FrameProofs

variable {K : Type} [LinearOrderedField K]

theorem lengthSquared_nonneg (v : Vec3 K) : 0 ≤ Vec3.lengthSquared v := by
  unfold Vec3.lengthSquared
  nlinarith [mul_self_nonneg v.x, mul_self_nonneg v.y, mul_self_nonneg v.z]

theorem length_mul_self (M : CMath K) (hM : M.IsSqrt) (v : Vec3 K) :
    Vec3.length M v * Vec3.length M v = Vec3.lengthSquared v :=
  (hM _ (lengthSquared_nonneg v)).2

theorem length_nonneg (M : CMath K) (hM : M.IsSqrt) (v : Vec3 K) : 0 ≤ Vec3.length M v :=
  (hM _ (lengthSquared_nonneg v)).1

theorem lengthSquared_of_length_one (M : CMath K) (hM : M.IsSqrt) (v : Vec3 K)
    (h : Vec3.length M v = 1) : Vec3.lengthSquared v = 1 := by
  have := length_mul_self M hM v
  rw [h] at this
  rw [← this]; norm_num

theorem dot_unit_self (M : CMath K) (hM : M.IsSqrt) (v : Vec3 K)
    (hv : Vec3.lengthSquared v ≠ 0) : dot (unit M v) (unit M v) = 1 := by
  have hs := length_mul_self M hM v
  have hne : Vec3.length M v ≠ 0 := by
    intro h0
    rw [h0] at hs
    exact hv (by rw [← hs]; ring)
  simp only [unit, Vec3.div, dot]
  field_simp
  rw [← sq, ← sq, ← sq, ← sq] 
  have : Vec3.length M v ^ 2 = Vec3.lengthSquared v := by rw [sq]; exact hs
  rw [this]
  unfold Vec3.lengthSquared
  ring

theorem dot_unit_right (M : CMath K) (u v : Vec3 K) :
    dot u (unit M v) = dot u v / Vec3.length M v := by
  simp only [unit, Vec3.div, dot]
  ring

/-- For a unit normal the tangent chosen by `toLocal` and `toWorld` is a unit vector
orthogonal to the normal (the vector handed to `unit` is not zero). -/
theorem frameTangent_spec (M : CMath K) (hM : M.IsSqrt) (N : Vec3 K)
    (hN : Vec3.lengthSquared N = 1) :
    dot (frameTangent M N) (frameTangent M N) = 1 ∧ dot N (frameTangent M N) = 0 := by
  unfold frameTangent
  split_ifs with hc
  · have hx : N.x ≠ 0 := by
      intro h0
      rw [h0, abs_zero] at hc
      exact absurd hc (not_lt.mpr (abs_nonneg _))
    have hx2 : 0 < N.x * N.x := mul_self_pos.mpr hx
    refine ⟨dot_unit_self M hM _ ?_, ?_⟩
    · simp only [Vec3.lengthSquared]
      nlinarith [mul_self_nonneg N.y]
    · rw [dot_unit_right]
      simp only [dot]
      have : N.x * -N.y + N.y * N.x + N.z * 0 = 0 := by ring
      rw [this, zero_div]
  · have hne : ¬ (N.y = 0 ∧ N.z = 0) := by
      rintro ⟨hy, hz⟩
      rw [hz, abs_zero, gt_iff_lt, not_lt] at hc
      have hx : N.x = 0 := abs_eq_zero.mp (le_antisymm hc (abs_nonneg _))
      simp only [Vec3.lengthSquared, hx, hy, hz] at hN
      norm_num at hN
    refine ⟨dot_unit_self M hM _ ?_, ?_⟩
    · simp only [Vec3.lengthSquared]
      intro h0
      apply hne
      constructor
      · nlinarith [mul_self_nonneg N.y, mul_self_nonneg N.z]
      · nlinarith [mul_self_nonneg N.y, mul_self_nonneg N.z]
    · rw [dot_unit_right]
      simp only [dot]
      have : N.x * 0 + N.y * -N.z + N.z * N.y = 0 := by ring
      rw [this, zero_div]

/-- An orthonormal pair `N`, `t` with `b = N × t` resolves every vector. -/
theorem frame_resolve (N t v : Vec3 K) (hN : dot N N = 1) (ht : dot t t = 1)
    (hNt : dot N t = 0) :
    Vec3.add (Vec3.add (Vec3.lscale (dot v t) t) (Vec3.lscale (dot v (cross N t)) (cross N t)))
      (Vec3.lscale (dot v N) N) = v := by
  obtain ⟨n1, n2, n3⟩ := N
  obtain ⟨t1, t2, t3⟩ := t
  obtain ⟨v1, v2, v3⟩ := v
  simp only [dot] at hN ht hNt
  simp only [Vec3.add, Vec3.lscale, Vec3.scale, dot, cross, Vec3.mk.injEq]
  refine ⟨?_, ?_, ?_⟩
  · linear_combination
      (v1 * (t2 * t2 + t3 * t3) - v2 * (t1 * t2) - v3 * (t1 * t3)) * hN +
      (v1 * (1 - n1 * n1) - v2 * (n1 * n2) - v3 * (n1 * n3)) * ht +
      (-v1 * (n1 * t1 + n2 * t2 + n3 * t3 - 2 * n1 * t1) + v2 * (n2 * t1 + n1 * t2)
        + v3 * (n3 * t1 + n1 * t3)) * hNt
  · linear_combination
      (v2 * (t1 * t1 + t3 * t3) - v1 * (t1 * t2) - v3 * (t2 * t3)) * hN +
      (v2 * (1 - n2 * n2) - v1 * (n1 * n2) - v3 * (n2 * n3)) * ht +
      (-v2 * (n1 * t1 + n2 * t2 + n3 * t3 - 2 * n2 * t2) + v1 * (n2 * t1 + n1 * t2)
        + v3 * (n3 * t2 + n2 * t3)) * hNt
  · linear_combination
      (v3 * (t1 * t1 + t2 * t2) - v1 * (t1 * t3) - v2 * (t2 * t3)) * hN +
      (v3 * (1 - n3 * n3) - v1 * (n1 * n3) - v2 * (n2 * n3)) * ht +
      (-v3 * (n1 * t1 + n2 * t2 + n3 * t3 - 2 * n3 * t3) + v1 * (n3 * t1 + n1 * t3)
        + v2 * (n3 * t2 + n2 * t3)) * hNt

/-- The coordinates of `x·t + y·b + z·N` in an orthonormal frame are `(x, y, z)`. -/
theorem frame_coords (N t v : Vec3 K) (hN : dot N N = 1) (ht : dot t t = 1)
    (hNt : dot N t = 0) :
    (⟨dot (Vec3.add (Vec3.add (Vec3.lscale v.x t) (Vec3.lscale v.y (cross N t)))
          (Vec3.lscale v.z N)) t,
      dot (Vec3.add (Vec3.add (Vec3.lscale v.x t) (Vec3.lscale v.y (cross N t)))
          (Vec3.lscale v.z N)) (cross N t),
      dot (Vec3.add (Vec3.add (Vec3.lscale v.x t) (Vec3.lscale v.y (cross N t)))
          (Vec3.lscale v.z N)) N⟩ : Vec3 K) = v := by
  obtain ⟨n1, n2, n3⟩ := N
  obtain ⟨t1, t2, t3⟩ := t
  obtain ⟨v1, v2, v3⟩ := v
  simp only [dot] at hN ht hNt
  simp only [Vec3.add, Vec3.lscale, Vec3.scale, dot, cross, Vec3.mk.injEq]
  refine ⟨?_, ?_, ?_⟩
  · linear_combination v1 * ht + v3 * hNt
  · linear_combination
      v2 * ((t1 * t1 + t2 * t2 + t3 * t3) * hN + ht - (n1 * t1 + n2 * t2 + n3 * t3) * hNt)
  · linear_combination v3 * hN + v1 * hNt

/-- C4.  For every unit normal `N` and every `v`, `toWorld(N, toLocal(v, N)) = v` and
`toLocal(toWorld(N, v), N) = v`, `sqrt` being the exact square root. -/
theorem toWorld_toLocal_inverse (M : CMath K) (hM : M.IsSqrt) (N v : Vec3 K)
    (hN : Vec3.length M N = 1) :
    toWorld M N (toLocal M v N) = v ∧ toLocal M (toWorld M N v) N = v := by
  have hN2 : Vec3.lengthSquared N = 1 := lengthSquared_of_length_one M hM N hN
  have hNN : dot N N = 1 := hN2
  obtain ⟨ht, hNt⟩ := frameTangent_spec M hM N hN2
  exact ⟨frame_resolve N (frameTangent M N) v hNN ht hNt,
    frame_coords N (frameTangent M N) v hNN ht hNt⟩

/-- The real square root satisfies `CMath.IsSqrt`. -/
theorem real_isSqrt :
    (⟨Real.sqrt, Real.sin, Real.cos, Real.arccos, fun x y => x ^ y⟩ : CMath ℝ).IsSqrt :=
  fun x hx => ⟨Real.sqrt_nonneg x, Real.mul_self_sqrt hx⟩

/-- C4 over the reals at `N = (0,0,1)`, `v = (1,2,3)`. -/
theorem toWorld_toLocal_inverse_witness :
    (⟨Real.sqrt, Real.sin, Real.cos, Real.arccos, fun x y => x ^ y⟩ : CMath ℝ).IsSqrt ∧
    Vec3.length (⟨Real.sqrt, Real.sin, Real.cos, Real.arccos, fun x y => x ^ y⟩ : CMath ℝ)
      ⟨0, 0, 1⟩ = 1 ∧
    toWorld (⟨Real.sqrt, Real.sin, Real.cos, Real.arccos, fun x y => x ^ y⟩ : CMath ℝ) ⟨0, 0, 1⟩
      (toLocal ⟨Real.sqrt, Real.sin, Real.cos, Real.arccos, fun x y => x ^ y⟩ ⟨1, 2, 3⟩ ⟨0, 0, 1⟩)
      = ⟨1, 2, 3⟩ ∧
    toLocal (⟨Real.sqrt, Real.sin, Real.cos, Real.arccos, fun x y => x ^ y⟩ : CMath ℝ)
      (toWorld ⟨Real.sqrt, Real.sin, Real.cos, Real.arccos, fun x y => x ^ y⟩ ⟨0, 0, 1⟩ ⟨1, 2, 3⟩)
      ⟨0, 0, 1⟩ = ⟨1, 2, 3⟩ :=
  ⟨real_isSqrt, by simp [Vec3.length, Vec3.lengthSquared],
    toWorld_toLocal_inverse _ real_isSqrt ⟨0, 0, 1⟩ ⟨1, 2, 3⟩
      (by simp [Vec3.length, Vec3.lengthSquared])⟩
end FrameProofs

/-! ## The MIS weights -/

section WeightProofs

variable {K : Type} [LinearOrderedField K]

/-- C5.  For every `light_pdf` and every `bsdf_pdf > 0` the denominator
`light_pdf² + bsdf_pdf²` is positive, `neeWeight` and `bsdfWeight` lie in `[0,1]`, their sum
is at most 1, and for `light_pdf = 0` the BSDF weight is 1 and the NEE weight is 0. -/
theorem mis_weights_bounds (light_pdf pdf_val : K) (hpdf : 0 < pdf_val) :
    0 < light_pdf * light_pdf + pdf_val * pdf_val ∧
    (0 ≤ neeWeight light_pdf pdf_val ∧ neeWeight light_pdf pdf_val ≤ 1) ∧
    (0 ≤ bsdfWeight light_pdf pdf_val ∧ bsdfWeight light_pdf pdf_val ≤ 1) ∧
    neeWeight light_pdf pdf_val + bsdfWeight light_pdf pdf_val ≤ 1 ∧
    (light_pdf = 0 → bsdfWeight light_pdf pdf_val = 1 ∧ neeWeight light_pdf pdf_val = 0) := by
  have hl : 0 ≤ light_pdf * light_pdf := mul_self_nonneg light_pdf
  have hp : 0 < pdf_val * pdf_val := mul_pos hpdf hpdf
  have hd : 0 < light_pdf * light_pdf + pdf_val * pdf_val := by linarith
  refine ⟨hd, ⟨?_, ?_⟩, ⟨?_, ?_⟩, ?_, ?_⟩
  · exact div_nonneg hl hd.le
  · unfold neeWeight; rw [div_le_one hd]; linarith
  · exact div_nonneg hp.le hd.le
  · unfold bsdfWeight; rw [div_le_one hd]; linarith
  · unfold neeWeight bsdfWeight; rw [← add_div, div_self hd.ne']
  · intro h0
    subst h0
    unfold neeWeight bsdfWeight
    simp only [mul_zero, zero_add, zero_div, and_true]
    exact div_self hp.ne'

/-- C5 at `light_pdf = 3`, `bsdf_pdf = 4`: the weights are `9/25` and `16/25`. -/
theorem mis_weights_bounds_witness :
    (0 : ℚ) < 4 ∧
    (0 : ℚ) < 3 * 3 + 4 * 4 ∧
    (0 ≤ neeWeight (3 : ℚ) 4 ∧ neeWeight (3 : ℚ) 4 ≤ 1) ∧
    (0 ≤ bsdfWeight (3 : ℚ) 4 ∧ bsdfWeight (3 : ℚ) 4 ≤ 1) ∧
    neeWeight (3 : ℚ) 4 + bsdfWeight (3 : ℚ) 4 ≤ 1 ∧
    ((3 : ℚ) = 0 → bsdfWeight (3 : ℚ) 4 = 1 ∧ neeWeight (3 : ℚ) 4 = 0) :=
  ⟨by norm_num, mis_weights_bounds 3 4 (by norm_num)⟩

end WeightProofs

/-! ## Next-event estimation -/

section NeeProofs

variable {K : Type} [LinearOrderedField K]

/-- The ray `sideRay` meets the wall at `t = 2`. -/
theorem wall_sideRay (col : Vec3 K) (m : BSDF) :
    triangleIntersect (wallTri K col m) (sideRay K) = (2, ⟨1 / 4, 1 / 4, 1 / 2⟩) := by
  norm_num [triangleIntersect, wallTri, sideRay, vtx, cross, dot, Vec3.sub,
    Ray.direction, Ray.origin, EPS, miss]

/-- The ray `sideRay` sees the lamp from behind: it is culled. -/
theorem lamp_sideRay (nl col e : Vec3 K) (m : BSDF) :
    triangleIntersect (lampTri K nl col e m) (sideRay K) = miss := by
  norm_num [triangleIntersect, lampTri, sideRay, vtx, cross, dot, Vec3.sub,
    Ray.direction, Ray.origin, EPS, miss]

/-- The intersection record of `sideRay` in the wall-and-lamp scene. -/
theorem side_scene (nl col e : Vec3 K) (m : BSDF) :
    sceneIntersection [wallTri K col m, lampTri K nl col e m] (sideRay K) MAX_T =
      ⟨⟨-1, 0, -1⟩, ⟨1, 0, 0⟩, col, sideRay K, some (wallTri K col m), true, false⟩ := by
  obtain ⟨c1, c2, c3⟩ := col
  simp only [sceneIntersection, List.foldl, sceneStep, hitRecord, wall_sideRay, lamp_sideRay, miss]
  norm_num [DBL_MAX, MAX_T, Ray.pointAt, sideRay, Vec3.add, Vec3.scale, wallTri, vtx, Vec3.get]
  refine ⟨?_, ?_, ?_⟩ <;> ring

/-- The shading frame of the normal `(1,0,0)`: `t = (0,1,0)`, `b = (0,0,1)`. -/
theorem toLocal_x_axis (M : CMath K) (hM : M.IsSqrt) (v : Vec3 K) :
    toLocal M v (unit M ⟨1, 0, 0⟩) = ⟨v.y, v.z, v.x⟩ := by
  have h1 := sqrt_one_eq M hM
  have hu : unit M (⟨1, 0, 0⟩ : Vec3 K) = ⟨1, 0, 0⟩ := by
    simp [unit, Vec3.length, Vec3.lengthSquared, Vec3.div, h1]
  rw [hu]
  simp [toLocal, frameTangent, unit, Vec3.length, Vec3.lengthSquared, Vec3.div, h1, dot, cross]

variable [FloorRing K]

/-- The function `nextEventEstimation` when the shadow ray misses the light or is occluded: the `if` of
line 184 is not entered. -/
theorem nee_blocked (M : CMath K) (wo : Vec3 K) (objects lights : List (Triangle K))
    (sample : SimpleSampler K) (reflector : BSDF) (intersect : Intersection K) (light_pdf : K)
    (l hitTri : Triangle K)
    (hl : vectorAt lights (truncToInt (sample.stream sample.pos * (lights.length : K))) = some l)
    (hh : intersect.hitTri = some hitTri)
    (hb : ¬ ((sceneIntersection objects
          (shadowRay M intersect hitTri
            (lightSamplePoint M l (sample.stream (sample.pos + 1)) (sample.stream (sample.pos + 2))))
          ((triangleIntersect l (shadowRay M intersect hitTri
            (lightSamplePoint M l (sample.stream (sample.pos + 1))
              (sample.stream (sample.pos + 2))))).1 * (99999 / 100000))).valid = false ∧
        (triangleIntersect l (shadowRay M intersect hitTri
            (lightSamplePoint M l (sample.stream (sample.pos + 1))
              (sample.stream (sample.pos + 2))))).1 ≠ -1)) :
    nextEventEstimation M wo objects lights sample reflector intersect light_pdf =
      some (⟨0, 0, 0⟩, light_pdf, ⟨sample.stream, sample.pos + 3⟩) := by
  simp only [nextEventEstimation, SimpleSampler.get1D]
  rw [hl]
  simp only [hh]
  rw [if_neg hb]

/-- The function `nextEventEstimation` when the light is reached and unoccluded: the values computed in
lines 186-197. -/
theorem nee_direct (M : CMath K) (wo : Vec3 K) (objects lights : List (Triangle K))
    (sample : SimpleSampler K) (reflector : BSDF) (intersect : Intersection K) (light_pdf : K)
    (l hitTri : Triangle K) (p : Vec3 K) (r : Ray K)
    (hl : vectorAt lights (truncToInt (sample.stream sample.pos * (lights.length : K))) = some l)
    (hh : intersect.hitTri = some hitTri)
    (hp : lightSamplePoint M l (sample.stream (sample.pos + 1)) (sample.stream (sample.pos + 2))
      = p)
    (hr : shadowRay M intersect hitTri p = r)
    (hv : (sceneIntersection objects r
          ((triangleIntersect l r).1 * (99999 / 100000))).valid = false)
    (ht : (triangleIntersect l r).1 ≠ -1) :
    nextEventEstimation M wo objects lights sample reflector intersect light_pdf =
      some (Vec3.div (Vec3.scale (Vec3.mul (reflector.f r.dir wo intersect.baseColor) l.emission)
          (dot l.a.n (Vec3.neg r.dir) * dot hitTri.a.n r.dir /
            Vec3.lengthSquared (Vec3.sub p intersect.point)))
          (Vec3.lengthSquared (Vec3.sub p intersect.point) /
            ((lights.length : K) * dot l.a.n (Vec3.neg r.dir) *
              (1 / 2 * Vec3.length M (cross (Vec3.sub l.b.pt l.a.pt) (Vec3.sub l.c.pt l.a.pt))))),
        Vec3.lengthSquared (Vec3.sub p intersect.point) /
            ((lights.length : K) * dot l.a.n (Vec3.neg r.dir) *
              (1 / 2 * Vec3.length M (cross (Vec3.sub l.b.pt l.a.pt) (Vec3.sub l.c.pt l.a.pt)))),
        ⟨sample.stream, sample.pos + 3⟩) := by
  simp only [nextEventEstimation, SimpleSampler.get1D]
  rw [hl]
  simp only [hh, hp, hr]
  rw [if_pos ⟨hv, ht⟩]

/-- The function `nextEventEstimation` at the wall point `(-1,0,-1)` with the lamp as only light and the
draws of `lampSampler`: the light point is `(0,0,-1)`, the direction to it `(1,0,0)`, the
lamp is reached (`t = 0.9999`) and unoccluded. -/
theorem nee_wall_lamp (M : CMath K) (hM : M.IsSqrt) (nl col e wo : Vec3 K) (m : BSDF) :
    nextEventEstimation M wo [wallTri K col m, lampTri K nl col e m] [lampTri K nl col e m]
      (lampSampler K) m
      ⟨⟨-1, 0, -1⟩, ⟨1, 0, 0⟩, col, sideRay K, some (wallTri K col m), true, false⟩ 0 =
    some (Vec3.div (Vec3.scale (Vec3.mul (m.f ⟨1, 0, 0⟩ wo col) e) (-nl.x)) (1 / (-nl.x * 8)),
      1 / (-nl.x * 8), ⟨(lampSampler K).stream, 3⟩) := by
  have h14 : M.sqrt (1 / 4) = 1 / 2 := by
    have := sqrt_mul_self_eq M hM (1 / 2) (by norm_num)
    norm_num at this
    simpa using this
  have h256 : M.sqrt 256 = 16 := by
    have := sqrt_mul_self_eq M hM 16 (by norm_num)
    norm_num at this
    exact this
  have h1 := sqrt_one_eq M hM
  have hidx : vectorAt [lampTri K nl col e m]
      (truncToInt ((lampSampler K).stream (lampSampler K).pos *
        (([lampTri K nl col e m] : List (Triangle K)).length : K)))
      = some (lampTri K nl col e m) := by
    simp [lampSampler, truncToInt, vectorAt]
  have hp : lightSamplePoint M (lampTri K nl col e m)
      ((lampSampler K).stream ((lampSampler K).pos + 1))
      ((lampSampler K).stream ((lampSampler K).pos + 2)) = ⟨0, 0, -1⟩ := by
    simp only [lampSampler, lightSamplePoint]
    norm_num [h14, lampTri, vtx, Vec3.add, Vec3.lscale, Vec3.scale]
  have hr : shadowRay M
      ⟨⟨-1, 0, -1⟩, ⟨1, 0, 0⟩, col, sideRay K, some (wallTri K col m), true, false⟩
      (wallTri K col m) ⟨0, 0, -1⟩ = ⟨⟨1, 0, 0⟩, ⟨-9999 / 10000, 0, -1⟩⟩ := by
    simp only [shadowRay]
    norm_num [wallTri, vtx, Vec3.add, Vec3.scale, Vec3.sub, unit, Vec3.length,
      Vec3.lengthSquared, Vec3.div, h1]
  have hlamp : triangleIntersect (lampTri K nl col e m) ⟨⟨1, 0, 0⟩, ⟨-9999 / 10000, 0, -1⟩⟩
      = (9999 / 10000, ⟨1 / 4, 1 / 4, 1 / 2⟩) := by
    norm_num [triangleIntersect, lampTri, vtx, cross, dot, Vec3.sub,
      Ray.direction, Ray.origin, EPS, miss]
  have hwall : triangleIntersect (wallTri K col m) ⟨⟨1, 0, 0⟩, ⟨-9999 / 10000, 0, -1⟩⟩ = miss := by
    norm_num [triangleIntersect, wallTri, vtx, cross, dot, Vec3.sub,
      Ray.direction, Ray.origin, EPS, miss]
  have hocc : (sceneIntersection [wallTri K col m, lampTri K nl col e m]
      ⟨⟨1, 0, 0⟩, ⟨-9999 / 10000, 0, -1⟩⟩
      ((triangleIntersect (lampTri K nl col e m) ⟨⟨1, 0, 0⟩, ⟨-9999 / 10000, 0, -1⟩⟩).1 *
        (99999 / 100000))).valid = false := by
    simp only [sceneIntersection, List.foldl, sceneStep, hlamp, hwall, miss]
    norm_num [Intersection.empty]
  have hcross : Vec3.length M (cross
      (Vec3.sub (lampTri K nl col e m).b.pt (lampTri K nl col e m).a.pt)
      (Vec3.sub (lampTri K nl col e m).c.pt (lampTri K nl col e m).a.pt)) = 16 := by
    norm_num [lampTri, vtx, cross, Vec3.sub, Vec3.length, Vec3.lengthSquared, h256]
  rw [nee_direct M wo _ _ _ m _ 0 _ _ _ _ hidx rfl hp hr hocc (by rw [hlamp]; norm_num)]
  rw [hcross]
  norm_num [Vec3.lengthSquared, Vec3.sub, dot, Vec3.neg, lampTri, wallTri, vtx, lampSampler]

/-- C6.  Phong wall at `x = -1` (normal `(1,0,0)`, exponent 1), lamp at `x = 0` facing it,
primary ray `sideRay`: the hit is `(-1,0,-1)` and `wo_local = (0,1,1/2)`; the sampled light
point is `(0,0,-1)`, reached and unoccluded, with `w = (1,0,0)`, `G = 1`, `light_pdf = 1/8`.
`nextEventEstimation` returns the zero contribution, because it evaluates the BSDF with the
world-space `w`, whose `z` is 0; with `w_local = toLocal(w, N_hit) = (0,0,1)` the
contribution `f(w_local, wo_local, baseColor)·Le·G/light_pdf` is `3/PI` per channel. -/
theorem nee_phong_uses_world_direction :
    sceneIntersection
        [wallTri ℝ ⟨1, 1, 1⟩ (BSDF.phong 1), lampTri ℝ ⟨-1, 0, 0⟩ ⟨1, 1, 1⟩ ⟨1, 1, 1⟩ (BSDF.phong 1)]
        (sideRay ℝ) MAX_T
      = ⟨⟨-1, 0, -1⟩, ⟨1, 0, 0⟩, ⟨1, 1, 1⟩, sideRay ℝ,
          some (wallTri ℝ ⟨1, 1, 1⟩ (BSDF.phong 1)), true, false⟩ ∧
    toLocal ⟨Real.sqrt, Real.sin, Real.cos, Real.arccos, fun x y => x ^ y⟩
        (Vec3.neg (sideRay ℝ).direction)
        (unit ⟨Real.sqrt, Real.sin, Real.cos, Real.arccos, fun x y => x ^ y⟩ ⟨1, 0, 0⟩)
      = ⟨0, 1, 1 / 2⟩ ∧
    nextEventEstimation ⟨Real.sqrt, Real.sin, Real.cos, Real.arccos, fun x y => x ^ y⟩
        ⟨0, 1, 1 / 2⟩
        [wallTri ℝ ⟨1, 1, 1⟩ (BSDF.phong 1), lampTri ℝ ⟨-1, 0, 0⟩ ⟨1, 1, 1⟩ ⟨1, 1, 1⟩ (BSDF.phong 1)]
        [lampTri ℝ ⟨-1, 0, 0⟩ ⟨1, 1, 1⟩ ⟨1, 1, 1⟩ (BSDF.phong 1)]
        (lampSampler ℝ) (BSDF.phong 1)
        ⟨⟨-1, 0, -1⟩, ⟨1, 0, 0⟩, ⟨1, 1, 1⟩, sideRay ℝ,
          some (wallTri ℝ ⟨1, 1, 1⟩ (BSDF.phong 1)), true, false⟩ 0
      = some (⟨0, 0, 0⟩, 1 / 8, ⟨(lampSampler ℝ).stream, 3⟩) ∧
    toLocal ⟨Real.sqrt, Real.sin, Real.cos, Real.arccos, fun x y => x ^ y⟩ ⟨1, 0, 0⟩
        (unit ⟨Real.sqrt, Real.sin, Real.cos, Real.arccos, fun x y => x ^ y⟩ ⟨1, 0, 0⟩)
      = ⟨0, 0, 1⟩ ∧
    Vec3.div (Vec3.scale (Vec3.mul
        (BSDF.f (BSDF.phong 1) ⟨0, 0, 1⟩ ⟨0, 1, 1 / 2⟩ (⟨1, 1, 1⟩ : Vec3 ℝ)) ⟨1, 1, 1⟩) 1) (1 / 8)
      = ⟨3 / PI, 3 / PI, 3 / PI⟩ ∧
    (3 / PI : ℝ) ≠ 0 := by
  refine ⟨side_scene _ _ _ _, ?_, ?_, ?_, ?_, ?_⟩
  · rw [toLocal_x_axis _ real_isSqrt]
    norm_num [sideRay, Ray.direction, Vec3.neg]
  · rw [nee_wall_lamp _ real_isSqrt]
    norm_num [BSDF.f, phongBSDF.f, Vec3.get, Vec3.zero, Vec3.mul, Vec3.scale, Vec3.div]
  · rw [toLocal_x_axis _ real_isSqrt]
  · have hpi : (PI : ℝ) ≠ 0 := (PI_pos).ne'
    norm_num [BSDF.f, phongBSDF.f, Vec3.get, Vec3.zero, Vec3.mul, Vec3.scale, Vec3.div, reflectZ,
      dot, Vec3.sub]
    field_simp
    ring
  · have hpi : (0 : ℝ) < PI := PI_pos
    positivity

end NeeProofs

/-! ## The empty emissive list -/

section EmptyLights

variable {K : Type} [LinearOrderedField K] [FloorRing K]

theorem truncToInt_zero : truncToInt (0 : K) = 0 := by
  simp [truncToInt]

/-- The lookup `lights.at(index)` on the empty list: `nextEventEstimation` has no result. -/
theorem nee_nil (M : CMath K) (wo : Vec3 K) (objects : List (Triangle K))
    (sample : SimpleSampler K) (reflector : BSDF) (intersect : Intersection K) (light_pdf : K) :
    nextEventEstimation M wo objects [] sample reflector intersect light_pdf = none := by
  simp [nextEventEstimation, truncToInt_zero, vectorAt]

/-- C8.  With an empty emissive list `nextEventEstimation` does not return: the index is
`static_cast<int>(u * 0) = 0` and `lights.at(0)` throws `std::out_of_range`, for every hit,
sampler state, BSDF and incoming `light_pdf`. -/
theorem nextEventEstimation_empty_lights_throws (M : CMath K) (wo : Vec3 K)
    (objects : List (Triangle K)) (sample : SimpleSampler K) (reflector : BSDF)
    (intersect : Intersection K) (light_pdf : K) :
    nextEventEstimation M wo objects [] sample reflector intersect light_pdf = none :=
  nee_nil M wo objects sample reflector intersect light_pdf

/-- C9.  In a scene without emissive triangles, for every `maxDepth >= 1` and every sampler
state, `MISIntegrator::Li` does not return `(0,0,0)` for a primary ray that hits a triangle:
the first call of `nextEventEstimation` throws. -/
theorem Li_without_lights_throws_on_hit (M : CMath K) (maxDepth : Int)
    (objects : List (Triangle K)) (r : Ray K) (sample : SimpleSampler K) (hd : 1 ≤ maxDepth)
    (hhit : (sceneIntersection objects r MAX_T).valid = true) :
    MISIntegrator.Li M maxDepth objects [] r sample = none := by
  obtain ⟨n, hn⟩ : ∃ n : Nat, maxDepth.toNat = n + 1 := by
    refine ⟨maxDepth.toNat - 1, ?_⟩
    have : 1 ≤ maxDepth.toNat := by omega
    omega
  unfold MISIntegrator.Li
  rw [hn]
  unfold LiLoop
  simp only [hhit, Bool.true_eq_false, if_false]
  cases (sceneIntersection objects r MAX_T).hitTri with
  | none => rfl
  | some hitTri => simp only [nee_nil]

/-- C9 on the black diffuse triangle that fills the view, with `maxDepth = 6` and the
primary ray through the centre of the viewport. -/
theorem Li_without_lights_throws_on_hit_witness :
    (1 : Int) ≤ 6 ∧
    (sceneIntersection [viewTri ℝ ⟨0, 0, 0⟩ ⟨0, 0, 0⟩ BSDF.simpleDiffuse] (camRay ℝ) MAX_T).valid
      = true ∧
    MISIntegrator.Li ⟨Real.sqrt, Real.sin, Real.cos, Real.arccos, fun x y => x ^ y⟩ 6
      [viewTri ℝ ⟨0, 0, 0⟩ ⟨0, 0, 0⟩ BSDF.simpleDiffuse] [] (camRay ℝ) ⟨fun _ => 0, 0⟩ = none :=
  have h : (sceneIntersection [viewTri ℝ ⟨0, 0, 0⟩ ⟨0, 0, 0⟩ BSDF.simpleDiffuse] (camRay ℝ)
      MAX_T).valid = true := by
    norm_num [sceneIntersection, sceneStep, hitRecord, viewTri_camRay, DBL_MAX, MAX_T]
  ⟨by decide, h, Li_without_lights_throws_on_hit _ 6 _ _ _ (by decide) h⟩

end EmptyLights

/-! ## One emissive triangle -/

section SingleLight

variable {K : Type} [LinearOrderedField K]

/-- What an accepted hit returns: `alpha >= 0.00001` and `t = f * dot(e2, q)`. -/
theorem hit_spec (tri : Triangle K) (r : Ray K) (h : triangleIntersect tri r ≠ miss) :
    EPS ≤ dot (cross r.dir (Vec3.sub tri.c.pt tri.a.pt)) (Vec3.sub tri.b.pt tri.a.pt) ∧
    (triangleIntersect tri r).1 =
      1 / dot (cross r.dir (Vec3.sub tri.c.pt tri.a.pt)) (Vec3.sub tri.b.pt tri.a.pt) *
        dot (Vec3.sub tri.c.pt tri.a.pt)
          (cross (Vec3.sub r.orig tri.a.pt) (Vec3.sub tri.b.pt tri.a.pt)) := by
  rw [triangleIntersect_eq_ite] at h ⊢
  split_ifs at h ⊢ with hc
  · exact ⟨hc.1, rfl⟩
  · exact absurd rfl h

/-- The hit point `O + t·D` lies in the plane of the triangle. -/
theorem hit_point_in_plane (tri : Triangle K) (r : Ray K) (h : triangleIntersect tri r ≠ miss) :
    dot (Vec3.sub (r.pointAt (triangleIntersect tri r).1) tri.a.pt)
      (cross (Vec3.sub tri.b.pt tri.a.pt) (Vec3.sub tri.c.pt tri.a.pt)) = 0 := by
  obtain ⟨ha, ht⟩ := hit_spec tri r h
  have hne : dot (cross r.dir (Vec3.sub tri.c.pt tri.a.pt)) (Vec3.sub tri.b.pt tri.a.pt) ≠ 0 :=
    (lt_of_lt_of_le EPS_pos ha).ne'
  rw [ht]
  obtain ⟨⟨dx, dy, dz⟩, ⟨ox, oy, oz⟩⟩ := r
  obtain ⟨⟨⟨ax, ay, az⟩, _, _⟩, ⟨⟨bx, b_y, bz⟩, _, _⟩, ⟨⟨cx, cy, cz⟩, _, _⟩, _, _⟩ := tri
  simp only [dot, cross, Vec3.sub, Ray.pointAt, Vec3.add, Vec3.scale] at hne ⊢
  field_simp
  ring

/-- The point sampled on a light lies in the plane of the light. -/
theorem lightSamplePoint_in_plane (M : CMath K) (l : Triangle K) (d1 d2 : K) :
    dot (Vec3.sub (lightSamplePoint M l d1 d2) l.a.pt)
      (cross (Vec3.sub l.b.pt l.a.pt) (Vec3.sub l.c.pt l.a.pt)) = 0 := by
  simp only [lightSamplePoint, dot, cross, Vec3.sub, Vec3.add, Vec3.lscale, Vec3.scale]
  ring

/-- The default bound `99999999` is below `DBL_MAX`. -/
theorem MAX_T_lt_DBL_MAX : (MAX_T : K) < DBL_MAX := by
  unfold MAX_T DBL_MAX; norm_num

/-- A one-triangle scene whose triangle is hit below the default bound. -/
theorem scene_single_hit (tri : Triangle K) (r : Ray K) (h : triangleIntersect tri r ≠ miss)
    (ht : (triangleIntersect tri r).1 < MAX_T) :
    sceneIntersection [tri] r MAX_T = hitRecord r tri := by
  have h1 : (triangleIntersect tri r).1 ≠ -1 := (hit_iff_fst_ne tri r).mp h
  have h2 : (triangleIntersect tri r).1 < DBL_MAX := lt_trans ht MAX_T_lt_DBL_MAX
  simp only [sceneIntersection, List.foldl, sceneStep]
  rw [if_pos h1, if_pos ⟨h2, ht⟩]

/-- A one-triangle scene whose triangle is missed. -/
theorem scene_single_miss (tri : Triangle K) (r : Ray K) (max_t : K)
    (h : triangleIntersect tri r = miss) :
    sceneIntersection [tri] r max_t = Intersection.empty := by
  simp only [sceneIntersection, List.foldl, sceneStep, h, miss]
  simp

/-- Identity `unit(v)·u = (v·u) / |v|`. -/
theorem dot_unit_left (M : CMath K) (u v : Vec3 K) :
    dot (unit M v) u = dot v u / Vec3.length M v := by
  simp only [unit, Vec3.div, dot]
  ring

/-- The function `unit` leaves a unit vector unchanged. -/
theorem unit_of_lengthSquared_one (M : CMath K) (hM : M.IsSqrt) (v : Vec3 K)
    (h : Vec3.lengthSquared v = 1) : unit M v = v := by
  obtain ⟨x, y, z⟩ := v
  simp only [unit, Vec3.length, h, sqrt_one_eq M hM, Vec3.div, div_one]

/-- The normal component of `toWorld(N, v)` is `v.z`. -/
theorem dot_toWorld_normal (M : CMath K) (hM : M.IsSqrt) (N v : Vec3 K)
    (hN : Vec3.lengthSquared N = 1) : dot (toWorld M N v) N = v.z := by
  obtain ⟨ht, hNt⟩ := frameTangent_spec M hM N hN
  exact congrArg Vec3.z (frame_coords N (frameTangent M N) v hN ht hNt)

/-- Identity `(p - q)·w = (p - a)·w - (q - a)·w`. -/
theorem dot_sub_left (p q a w : Vec3 K) :
    dot (Vec3.sub p q) w = dot (Vec3.sub p a) w - dot (Vec3.sub q a) w := by
  simp only [dot, Vec3.sub]; ring

/-- The square root of a number in `(0, 1]` lies in `(0, 1]`. -/
theorem sqrt_pos_le_one (M : CMath K) (hM : M.IsSqrt) (x : K) (h0 : 0 < x) (h1 : x ≤ 1) :
    0 < M.sqrt x ∧ M.sqrt x ≤ 1 := by
  obtain ⟨hs0, hs1⟩ := hM x h0.le
  constructor
  · rcases hs0.lt_or_eq with h | h
    · exact h
    · rw [← h] at hs1
      rw [← hs1] at h0
      simp at h0
  · by_contra hc
    have hc' : 1 < M.sqrt x := not_le.mp hc
    have : 1 * 1 < M.sqrt x * M.sqrt x := mul_lt_mul'' hc' hc' zero_le_one zero_le_one
    rw [hs1] at this
    linarith

/-- The function `simpleDiffuseBSDF::sample_f` for a first draw `u1` in `(0, 1]`: `wo.z = sqrt(u1)` and
`pdf = sqrt(u1) / PI`. -/
theorem diffuse_sample_f (M : CMath K) (hM : M.IsSqrt) (hC : M.IsCosAcos) (wi color : Vec3 K)
    (sample : SimpleSampler K)
    (hu1 : 0 < sample.stream sample.pos ∧ sample.stream sample.pos ≤ 1) :
    (simpleDiffuseBSDF.sample_f M wi color sample).1 = Vec3.div color PI ∧
    (simpleDiffuseBSDF.sample_f M wi color sample).2.1.z = M.sqrt (sample.stream sample.pos) ∧
    (simpleDiffuseBSDF.sample_f M wi color sample).2.2.1 = M.sqrt (sample.stream sample.pos) / PI ∧
    (simpleDiffuseBSDF.sample_f M wi color sample).2.2.2 = ⟨sample.stream, sample.pos + 2⟩ := by
  obtain ⟨hz0, hz1⟩ := sqrt_pos_le_one M hM _ hu1.1 hu1.2
  have hz : M.cos (M.acos (M.sqrt (sample.stream sample.pos))) = M.sqrt (sample.stream sample.pos) :=
    hC _ hz0.le hz1
  refine ⟨rfl, ?_, ?_, rfl⟩
  · simp only [simpleDiffuseBSDF.sample_f, SimpleSampler.get2D, hz]
  · simp only [simpleDiffuseBSDF.sample_f, SimpleSampler.get2D, simpleDiffuseBSDF.pdf, hz]
    rw [if_neg (not_le.mpr hz0)]

/-- A ray leaving the hit toward the upper hemisphere of a normal that agrees with the
winding has `alpha < 0` on the triangle: it is culled. -/
theorem bounce_misses (M : CMath K) (hM : M.IsSqrt) (tri : Triangle K) (r : Ray K)
    (wo_local orig : Vec3 K)
    (hn : tri.a.n = unit M (cross (Vec3.sub tri.b.pt tri.a.pt) (Vec3.sub tri.c.pt tri.a.pt)))
    (hhit : triangleIntersect tri r ≠ miss) (hz : 0 < wo_local.z) :
    triangleIntersect tri ⟨toWorld M (unit M (hitRecord r tri).normal) wo_local, orig⟩ = miss := by
  obtain ⟨ha, _⟩ := hit_spec tri r hhit
  rw [dot_cross_swap] at ha
  have hnz : Vec3.lengthSquared (cross (Vec3.sub tri.b.pt tri.a.pt) (Vec3.sub tri.c.pt tri.a.pt))
      ≠ 0 := by
    intro h0
    have hx := lengthSquared_nonneg (cross (Vec3.sub tri.b.pt tri.a.pt) (Vec3.sub tri.c.pt tri.a.pt))
    simp only [Vec3.lengthSquared] at h0
    have h1 : (cross (Vec3.sub tri.b.pt tri.a.pt) (Vec3.sub tri.c.pt tri.a.pt)).x = 0 := by
      nlinarith [mul_self_nonneg (cross (Vec3.sub tri.b.pt tri.a.pt) (Vec3.sub tri.c.pt tri.a.pt)).x,
        mul_self_nonneg (cross (Vec3.sub tri.b.pt tri.a.pt) (Vec3.sub tri.c.pt tri.a.pt)).y,
        mul_self_nonneg (cross (Vec3.sub tri.b.pt tri.a.pt) (Vec3.sub tri.c.pt tri.a.pt)).z]
    have h2 : (cross (Vec3.sub tri.b.pt tri.a.pt) (Vec3.sub tri.c.pt tri.a.pt)).y = 0 := by
      nlinarith [mul_self_nonneg (cross (Vec3.sub tri.b.pt tri.a.pt) (Vec3.sub tri.c.pt tri.a.pt)).x,
        mul_self_nonneg (cross (Vec3.sub tri.b.pt tri.a.pt) (Vec3.sub tri.c.pt tri.a.pt)).y,
        mul_self_nonneg (cross (Vec3.sub tri.b.pt tri.a.pt) (Vec3.sub tri.c.pt tri.a.pt)).z]
    have h3 : (cross (Vec3.sub tri.b.pt tri.a.pt) (Vec3.sub tri.c.pt tri.a.pt)).z = 0 := by
      nlinarith [mul_self_nonneg (cross (Vec3.sub tri.b.pt tri.a.pt) (Vec3.sub tri.c.pt tri.a.pt)).x,
        mul_self_nonneg (cross (Vec3.sub tri.b.pt tri.a.pt) (Vec3.sub tri.c.pt tri.a.pt)).y,
        mul_self_nonneg (cross (Vec3.sub tri.b.pt tri.a.pt) (Vec3.sub tri.c.pt tri.a.pt)).z]
    have hd : dot r.dir (cross (Vec3.sub tri.b.pt tri.a.pt) (Vec3.sub tri.c.pt tri.a.pt)) = 0 := by
      simp only [dot, h1, h2, h3]; ring
    rw [hd] at ha
    have := EPS_pos (K := K)
    linarith
  have hN1 : Vec3.lengthSquared tri.a.n = 1 := by
    rw [hn]; exact dot_unit_self M hM _ hnz
  have hnorm : (hitRecord r tri).normal = tri.a.n := rfl
  rw [hnorm, unit_of_lengthSquared_one M hM _ hN1]
  apply triangleIntersect_of_alpha_lt
  rw [dot_cross_swap]
  have hlen_pos : 0 < Vec3.length M (cross (Vec3.sub tri.b.pt tri.a.pt) (Vec3.sub tri.c.pt tri.a.pt)) := by
    rcases (length_nonneg M hM (cross (Vec3.sub tri.b.pt tri.a.pt)
      (Vec3.sub tri.c.pt tri.a.pt))).lt_or_eq with h | h
    · exact h
    · exfalso
      apply hnz
      rw [← length_mul_self M hM, ← h]; ring
  have hdz := dot_toWorld_normal M hM tri.a.n wo_local hN1
  have hrel : dot (toWorld M tri.a.n wo_local)
        (cross (Vec3.sub tri.b.pt tri.a.pt) (Vec3.sub tri.c.pt tri.a.pt)) =
      Vec3.length M (cross (Vec3.sub tri.b.pt tri.a.pt) (Vec3.sub tri.c.pt tri.a.pt)) *
        wo_local.z := by
    rw [← hdz]
    conv_rhs => rw [hn, dot_unit_right]
    rw [← hn]
    field_simp
  simp only []
  rw [hrel]
  have := mul_pos hlen_pos hz
  have := EPS_pos (K := K)
  linarith

/-- The real `cos` and `arccos` satisfy `CMath.IsCosAcos`. -/
theorem real_isCosAcos :
    (⟨Real.sqrt, Real.sin, Real.cos, Real.arccos, fun x y => x ^ y⟩ : CMath ℝ).IsCosAcos :=
  fun _ h0 h1 => Real.cos_arccos (by linarith) h1

/-- The triple returned with a hit sums to one. -/
theorem hit_triple_sum (tri : Triangle K) (r : Ray K) (h : triangleIntersect tri r ≠ miss) :
    (triangleIntersect tri r).2.x + (triangleIntersect tri r).2.y + (triangleIntersect tri r).2.z
      = 1 := by
  rw [triangleIntersect_eq_ite] at h ⊢
  split_ifs at h ⊢ with hc
  · simp only []
    ring
  · exact absurd rfl h

/-- With white vertex colours the blended base colour is white. -/
theorem hitRecord_baseColor_white (tri : Triangle K) (r : Ray K)
    (h : triangleIntersect tri r ≠ miss)
    (ha : tri.a.c = ⟨1, 1, 1⟩) (hb : tri.b.c = ⟨1, 1, 1⟩) (hc : tri.c.c = ⟨1, 1, 1⟩) :
    (hitRecord r tri).baseColor = ⟨1, 1, 1⟩ := by
  have hs := hit_triple_sum tri r h
  simp only [hitRecord, ha, hb, hc, Vec3.add, Vec3.scale, Vec3.get, one_mul, Vec3.mk.injEq]
  exact ⟨hs, hs, hs⟩


/-- The vertex normal `(0,0,1)` of `viewTri` is the unit vector along `(b-a)×(c-a)`. -/
theorem viewTri_normal (M : CMath K) (hM : M.IsSqrt) (col e : Vec3 K) (m : BSDF) :
    (viewTri K col e m).a.n = unit M (cross
      (Vec3.sub (viewTri K col e m).b.pt (viewTri K col e m).a.pt)
      (Vec3.sub (viewTri K col e m).c.pt (viewTri K col e m).a.pt)) := by
  have h256 : M.sqrt 256 = 16 := by
    have := sqrt_mul_self_eq M hM 16 (by norm_num)
    norm_num at this
    exact this
  norm_num [viewTri, vtx, unit, cross, Vec3.sub, Vec3.length, Vec3.lengthSquared, Vec3.div, h256]


variable [FloorRing K]

/-- With one light every draw in `[0,1)` selects index 0. -/
theorem vectorAt_single (tri : Triangle K) (u : K) (h0 : 0 ≤ u) (h1 : u < 1) :
    vectorAt [tri] (truncToInt (u * (([tri] : List (Triangle K)).length : K))) = some tri := by
  have hf : ⌊u⌋ = 0 := Int.floor_eq_zero_iff.mpr ⟨h0, h1⟩
  simp [truncToInt, vectorAt, h0, hf]

/-- The function `nextEventEstimation` when the only light is the triangle that was hit: the shadow ray
runs inside the plane of the light, `alpha = 0`, so the light is not reached. -/
theorem nee_same_triangle (M : CMath K) (wo : Vec3 K) (tri : Triangle K) (r : Ray K)
    (sample : SimpleSampler K) (reflector : BSDF) (light_pdf : K)
    (hhit : triangleIntersect tri r ≠ miss)
    (hs0 : 0 ≤ sample.stream sample.pos ∧ sample.stream sample.pos < 1) :
    nextEventEstimation M wo [tri] [tri] sample reflector (hitRecord r tri) light_pdf =
      some (⟨0, 0, 0⟩, light_pdf, ⟨sample.stream, sample.pos + 3⟩) := by
  apply nee_blocked M wo [tri] [tri] sample reflector (hitRecord r tri) light_pdf tri tri
    (vectorAt_single tri _ hs0.1 hs0.2) rfl
  rintro ⟨_, ht⟩
  apply ht
  rw [triangleIntersect_of_alpha_lt]
  · rfl
  · rw [dot_cross_swap]
    simp only [shadowRay]
    rw [dot_unit_left, dot_sub_left _ _ tri.a.pt, lightSamplePoint_in_plane]
    have hP : (hitRecord r tri).point = r.pointAt (triangleIntersect tri r).1 := rfl
    rw [hP, hit_point_in_plane tri r hhit]
    simp only [sub_zero, zero_div, neg_zero]
    exact EPS_pos


/-- The loop of `Li` stops when `sample_f` reports `pdf <= 0` (line 233): the weights are
computed only for `pdf_val > 0`. -/
theorem LiLoop_break_of_pdf_nonpos (M : CMath K) (objects lights : List (Triangle K)) (n : Nat)
    (Li beta : Vec3 K) (r : Ray K) (sample s1 : SimpleSampler K) (hitTri : Triangle K)
    (nee : Vec3 K) (light_pdf : K)
    (hv : (sceneIntersection objects r MAX_T).valid = true)
    (hh : (sceneIntersection objects r MAX_T).hitTri = some hitTri)
    (hnee : nextEventEstimation M
        (toLocal M (Vec3.neg r.direction) (unit M (sceneIntersection objects r MAX_T).normal))
        objects lights sample hitTri.material (sceneIntersection objects r MAX_T) 0
      = some (nee, light_pdf, s1))
    (hpdf : (hitTri.material.sample_f M
        (toLocal M (Vec3.neg r.direction) (unit M (sceneIntersection objects r MAX_T).normal))
        (sceneIntersection objects r MAX_T).baseColor s1).2.2.1 ≤ 0) :
    LiLoop M objects lights (n + 1) Li beta r sample =
      some (Li, (hitTri.material.sample_f M
        (toLocal M (Vec3.neg r.direction) (unit M (sceneIntersection objects r MAX_T).normal))
        (sceneIntersection objects r MAX_T).baseColor s1).2.2.2) := by
  unfold LiLoop
  simp only [hv, hh, Bool.true_eq_false, if_false, hnee]
  rw [if_pos hpdf]

/-- The loop of `Li` stops at a ray that hits nothing. -/
theorem LiLoop_miss (M : CMath K) (objects lights : List (Triangle K)) (n : Nat)
    (Li beta : Vec3 K) (r : Ray K) (sample : SimpleSampler K)
    (h : (sceneIntersection objects r MAX_T).valid = false) :
    LiLoop M objects lights n Li beta r sample = some (Li, sample) := by
  cases n with
  | zero => rfl
  | succ n =>
    unfold LiLoop
    simp only [h, if_true]

/-- The function `Li` in the scene made of one emissive Lambertian triangle: one bounce, after which the
ray leaves the scene; the result is `baseColor ⊙ emission`. -/
theorem Li_single_emissive (M : CMath K) (hM : M.IsSqrt) (hC : M.IsCosAcos) (tri : Triangle K)
    (r : Ray K) (sample : SimpleSampler K) (maxDepth : Int)
    (hmat : tri.material = BSDF.simpleDiffuse)
    (hn : tri.a.n = unit M (cross (Vec3.sub tri.b.pt tri.a.pt) (Vec3.sub tri.c.pt tri.a.pt)))
    (hhit : triangleIntersect tri r ≠ miss) (ht : (triangleIntersect tri r).1 < MAX_T)
    (hd : 1 ≤ maxDepth)
    (hs0 : 0 ≤ sample.stream sample.pos ∧ sample.stream sample.pos < 1)
    (hu1 : 0 < sample.stream (sample.pos + 3) ∧ sample.stream (sample.pos + 3) ≤ 1) :
    MISIntegrator.Li M maxDepth [tri] [tri] r sample =
      some (Vec3.mul (hitRecord r tri).baseColor tri.emission,
        ⟨sample.stream, sample.pos + 5⟩) := by
  obtain ⟨n, hn'⟩ : ∃ n : Nat, maxDepth.toNat = n + 1 := by
    refine ⟨maxDepth.toNat - 1, ?_⟩
    have : 1 ≤ maxDepth.toNat := by omega
    omega
  have hsc := scene_single_hit tri r hhit ht
  have hvalid : (hitRecord r tri).valid = true := rfl
  have hht : (hitRecord r tri).hitTri = some tri := rfl
  obtain ⟨hf, hz, hpdf, hs5⟩ := diffuse_sample_f M hM hC
    (toLocal M (Vec3.neg r.direction) (unit M (hitRecord r tri).normal))
    (hitRecord r tri).baseColor ⟨sample.stream, sample.pos + 3⟩ hu1
  obtain ⟨hz0, hz1⟩ := sqrt_pos_le_one M hM _ hu1.1 hu1.2
  have hpi : (0 : K) < PI := PI_pos
  have hpdf_pos : 0 < M.sqrt (sample.stream (sample.pos + 3)) / PI := div_pos hz0 hpi
  unfold MISIntegrator.Li
  rw [hn']
  unfold LiLoop
  simp only [hsc, hvalid, hht, Bool.true_eq_false, if_false, hmat]
  rw [nee_same_triangle M _ tri r sample _ 0 hhit hs0]
  simp only [BSDF.sample_f]
  simp only [hf, hpdf, hs5]
  rw [if_neg (not_le.mpr hpdf_pos)]
  rw [LiLoop_miss]
  · congr 1
    rw [hz]
    have hw0 : neeWeight 0 (M.sqrt (sample.stream (sample.pos + 3)) / PI) = 0 := by
      simp [neeWeight]
    have hw1 : bsdfWeight 0 (M.sqrt (sample.stream (sample.pos + 3)) / PI) = 1 := by
      unfold bsdfWeight
      rw [mul_zero, zero_add]
      exact div_self (mul_pos hpdf_pos hpdf_pos).ne'
    rw [hw0, hw1, abs_of_pos hz0]
    generalize (hitRecord r tri).baseColor = col
    obtain ⟨c1, c2, c3⟩ := col
    have hs : M.sqrt (sample.stream (sample.pos + 3)) ≠ 0 := hz0.ne'
    simp only [Vec3.add, Vec3.scale, Vec3.mul, Vec3.div, Vec3.zero, Prod.mk.injEq, Vec3.mk.injEq]
    refine ⟨⟨?_, ?_, ?_⟩, trivial⟩ <;> field_simp
  · rw [scene_single_miss]
    · rfl
    · apply bounce_misses M hM tri r _ _ hn hhit
      rw [hz]
      exact hz0

/-- C10, as amended.  Scene and emissive list both `[tri]`, `tri` Lambertian with first vertex
normal the unit vector along `(b-a)×(c-a)`; primary ray accepted by `triangleIntersect` with
`t < 99999999`; `maxDepth >= 1`; light-index draw in `[0,1)` and first BSDF draw `u1` in
`(0,1]`.  Then `MISIntegrator::Li` returns `baseColor ⊙ emission`, where
`baseColor = a.c·P[0] + b.c·P[1] + c.c·P[2]` is the colour `sceneIntersection` blends at the
hit; it is the emission when the three vertex colours are `(1,1,1)`. -/
theorem Li_single_emissive_triangle (M : CMath K) (hM : M.IsSqrt) (hC : M.IsCosAcos)
    (tri : Triangle K) (r : Ray K) (sample : SimpleSampler K) (maxDepth : Int)
    (hmat : tri.material = BSDF.simpleDiffuse)
    (hn : tri.a.n = unit M (cross (Vec3.sub tri.b.pt tri.a.pt) (Vec3.sub tri.c.pt tri.a.pt)))
    (hhit : triangleIntersect tri r ≠ miss) (ht : (triangleIntersect tri r).1 < 99999999)
    (hd : 1 ≤ maxDepth)
    (hs0 : 0 ≤ sample.stream sample.pos ∧ sample.stream sample.pos < 1)
    (hu1 : 0 < sample.stream (sample.pos + 3) ∧ sample.stream (sample.pos + 3) ≤ 1) :
    MISIntegrator.Li M maxDepth [tri] [tri] r sample =
      some (Vec3.mul
          (Vec3.add (Vec3.add (Vec3.scale tri.a.c (triangleIntersect tri r).2.x)
            (Vec3.scale tri.b.c (triangleIntersect tri r).2.y))
            (Vec3.scale tri.c.c (triangleIntersect tri r).2.z))
          tri.emission,
        ⟨sample.stream, sample.pos + 5⟩) ∧
    (tri.a.c = ⟨1, 1, 1⟩ → tri.b.c = ⟨1, 1, 1⟩ → tri.c.c = ⟨1, 1, 1⟩ →
      MISIntegrator.Li M maxDepth [tri] [tri] r sample =
        some (tri.emission, ⟨sample.stream, sample.pos + 5⟩)) := by
  have h := Li_single_emissive M hM hC tri r sample maxDepth hmat hn hhit ht hd hs0 hu1
  refine ⟨h, fun ha hb hc => ?_⟩
  rw [h, hitRecord_baseColor_white tri r hhit ha hb hc]
  obtain ⟨e1, e2, e3⟩ := tri.emission
  simp [Vec3.mul]

/-- C10 fails as stated.  The view-filling emissive Lambertian triangle with vertex colour
`(1, 1, 0.6)` and emission `(300, 300, 180)` (the values of `smalllight.obj` in `main`),
the primary ray through the centre of the viewport, `maxDepth = 6` and the sampler stream
constantly `1/4`: `Li` returns `(300, 300, 108)`, not the emission. -/
theorem Li_single_emissive_not_emission :
    MISIntegrator.Li ⟨Real.sqrt, Real.sin, Real.cos, Real.arccos, fun x y => x ^ y⟩ 6
        [viewTri ℝ ⟨1, 1, 3 / 5⟩ ⟨300, 300, 180⟩ BSDF.simpleDiffuse]
        [viewTri ℝ ⟨1, 1, 3 / 5⟩ ⟨300, 300, 180⟩ BSDF.simpleDiffuse]
        (camRay ℝ) ⟨fun _ => 1 / 4, 0⟩
      = some (⟨300, 300, 108⟩, ⟨fun _ => 1 / 4, 5⟩) ∧
    (⟨300, 300, 108⟩ : Vec3 ℝ) ≠
      (viewTri ℝ ⟨1, 1, 3 / 5⟩ ⟨300, 300, 180⟩ BSDF.simpleDiffuse).emission := by
  constructor
  · rw [Li_single_emissive _ real_isSqrt real_isCosAcos _ _ _ 6 rfl
      (viewTri_normal _ real_isSqrt _ _ _) (by rw [viewTri_camRay]; simp [miss])
      (by rw [viewTri_camRay]; norm_num [MAX_T]) (by decide) (by norm_num) (by norm_num)]
    simp only [hitRecord, viewTri_camRay]
    norm_num [viewTri, vtx, Vec3.mul, Vec3.add, Vec3.scale, Vec3.get]
  · norm_num [viewTri]

/-- C10, as amended, on the white view-filling emissive triangle with `maxDepth = 1`. -/
theorem Li_single_emissive_triangle_witness :
    (⟨Real.sqrt, Real.sin, Real.cos, Real.arccos, fun x y => x ^ y⟩ : CMath ℝ).IsSqrt ∧
    (⟨Real.sqrt, Real.sin, Real.cos, Real.arccos, fun x y => x ^ y⟩ : CMath ℝ).IsCosAcos ∧
    (viewTri ℝ ⟨1, 1, 1⟩ ⟨300, 300, 180⟩ BSDF.simpleDiffuse).material = BSDF.simpleDiffuse ∧
    (viewTri ℝ ⟨1, 1, 1⟩ ⟨300, 300, 180⟩ BSDF.simpleDiffuse).a.n =
      unit ⟨Real.sqrt, Real.sin, Real.cos, Real.arccos, fun x y => x ^ y⟩ (cross
        (Vec3.sub (viewTri ℝ ⟨1, 1, 1⟩ ⟨300, 300, 180⟩ BSDF.simpleDiffuse).b.pt
          (viewTri ℝ ⟨1, 1, 1⟩ ⟨300, 300, 180⟩ BSDF.simpleDiffuse).a.pt)
        (Vec3.sub (viewTri ℝ ⟨1, 1, 1⟩ ⟨300, 300, 180⟩ BSDF.simpleDiffuse).c.pt
          (viewTri ℝ ⟨1, 1, 1⟩ ⟨300, 300, 180⟩ BSDF.simpleDiffuse).a.pt)) ∧
    triangleIntersect (viewTri ℝ ⟨1, 1, 1⟩ ⟨300, 300, 180⟩ BSDF.simpleDiffuse) (camRay ℝ) ≠ miss ∧
    (triangleIntersect (viewTri ℝ ⟨1, 1, 1⟩ ⟨300, 300, 180⟩ BSDF.simpleDiffuse) (camRay ℝ)).1
      < 99999999 ∧
    (1 : Int) ≤ 1 ∧
    ((0 : ℝ) ≤ 1 / 4 ∧ (1 / 4 : ℝ) < 1) ∧ ((0 : ℝ) < 1 / 4 ∧ (1 / 4 : ℝ) ≤ 1) ∧
    (MISIntegrator.Li ⟨Real.sqrt, Real.sin, Real.cos, Real.arccos, fun x y => x ^ y⟩ 1
        [viewTri ℝ ⟨1, 1, 1⟩ ⟨300, 300, 180⟩ BSDF.simpleDiffuse]
        [viewTri ℝ ⟨1, 1, 1⟩ ⟨300, 300, 180⟩ BSDF.simpleDiffuse]
        (camRay ℝ) ⟨fun _ => 1 / 4, 0⟩
      = some (⟨300, 300, 180⟩, ⟨fun _ => 1 / 4, 5⟩)) :=
  have hn := viewTri_normal (⟨Real.sqrt, Real.sin, Real.cos, Real.arccos, fun x y => x ^ y⟩ : CMath ℝ)
    real_isSqrt ⟨1, 1, 1⟩ ⟨300, 300, 180⟩ BSDF.simpleDiffuse
  have hhit : triangleIntersect (viewTri ℝ ⟨1, 1, 1⟩ ⟨300, 300, 180⟩ BSDF.simpleDiffuse) (camRay ℝ)
      ≠ miss := by rw [viewTri_camRay]; simp [miss]
  have ht : (triangleIntersect (viewTri ℝ ⟨1, 1, 1⟩ ⟨300, 300, 180⟩ BSDF.simpleDiffuse)
      (camRay ℝ)).1 < 99999999 := by rw [viewTri_camRay]; norm_num
  ⟨real_isSqrt, real_isCosAcos, rfl, hn, hhit, ht, le_refl 1, by norm_num, by norm_num,
    (Li_single_emissive_triangle _ real_isSqrt real_isCosAcos
      (viewTri ℝ ⟨1, 1, 1⟩ ⟨300, 300, 180⟩ BSDF.simpleDiffuse) (camRay ℝ) ⟨fun _ => 1 / 4, 0⟩ 1
      rfl hn hhit ht (le_refl 1) (by norm_num) (by norm_num)).2 rfl rfl rfl⟩

end SingleLight

/-! ## The three BSDFs -/

section BsdfProofs

variable {K : Type} [LinearOrderedField K]

/-- Both tests of `phongBSDF`: zero in the lower hemisphere. -/
theorem phong_lower_zero (M : CMath K) (n : Int) (wi wo color : Vec3 K)
    (h : wi.z ≤ 0 ∨ wo.z ≤ 0) :
    phongBSDF.f n wi wo color = ⟨0, 0, 0⟩ ∧ phongBSDF.pdf M n wi wo = 0 := by
  constructor
  · unfold phongBSDF.f
    rw [if_pos (by simpa [Vec3.get] using h)]
    rfl
  · unfold phongBSDF.pdf
    rw [if_pos h]

/-- C11, as amended.  For `wi.z <= 0` or `wo.z <= 0`: `phongBSDF::f` is the zero colour and
`phongBSDF::pdf` is 0; `simpleDiffuseBSDF::pdf` is 0 when `wo.z <= 0` (it does not look at
`wi`), and `simpleDiffuseBSDF::f` is `colour / PI` whatever the directions. -/
theorem bsdf_lower_hemisphere (M : CMath K) (n : Int) (wi wo color : Vec3 K)
    (h : wi.z ≤ 0 ∨ wo.z ≤ 0) :
    phongBSDF.f n wi wo color = ⟨0, 0, 0⟩ ∧ phongBSDF.pdf M n wi wo = 0 ∧
    (wo.z ≤ 0 → simpleDiffuseBSDF.pdf wi wo = 0) ∧
    simpleDiffuseBSDF.f wi wo color = Vec3.div color PI := by
  refine ⟨(phong_lower_zero M n wi wo color h).1, (phong_lower_zero M n wi wo color h).2, ?_, rfl⟩
  intro hz
  unfold simpleDiffuseBSDF.pdf
  rw [if_pos hz]

/-- C11, as amended, at `wi = (0,0,-1)`, `wo = (0,0,1)`. -/
theorem bsdf_lower_hemisphere_witness :
    ((-1 : ℝ) ≤ 0 ∨ (1 : ℝ) ≤ 0) ∧
    phongBSDF.f 1 (⟨0, 0, -1⟩ : Vec3 ℝ) ⟨0, 0, 1⟩ ⟨1, 1, 1⟩ = ⟨0, 0, 0⟩ ∧
    phongBSDF.pdf ⟨Real.sqrt, Real.sin, Real.cos, Real.arccos, fun x y => x ^ y⟩ 1
      (⟨0, 0, -1⟩ : Vec3 ℝ) ⟨0, 0, 1⟩ = 0 ∧
    ((1 : ℝ) ≤ 0 → simpleDiffuseBSDF.pdf (⟨0, 0, -1⟩ : Vec3 ℝ) ⟨0, 0, 1⟩ = 0) ∧
    simpleDiffuseBSDF.f (⟨0, 0, -1⟩ : Vec3 ℝ) ⟨0, 0, 1⟩ ⟨1, 1, 1⟩ = Vec3.div ⟨1, 1, 1⟩ PI :=
  ⟨Or.inl (by norm_num),
    bsdf_lower_hemisphere _ 1 (⟨0, 0, -1⟩ : Vec3 ℝ) ⟨0, 0, 1⟩ ⟨1, 1, 1⟩ (Or.inl (by norm_num))⟩

/-- C11 fails as stated.  For `wi = (0,0,-1)` (lower hemisphere), `wo = (0,0,1)` and the
colour `(1,1,1)`, the Lambertian `f` is `1/PI` per channel and the Lambertian `pdf` is
`1/PI`. -/
theorem diffuse_lower_hemisphere_nonzero :
    ((⟨0, 0, -1⟩ : Vec3 ℚ).z ≤ 0 ∨ (⟨0, 0, 1⟩ : Vec3 ℚ).z ≤ 0) ∧
    simpleDiffuseBSDF.f (⟨0, 0, -1⟩ : Vec3 ℚ) ⟨0, 0, 1⟩ ⟨1, 1, 1⟩ = ⟨1 / PI, 1 / PI, 1 / PI⟩ ∧
    simpleDiffuseBSDF.pdf (⟨0, 0, -1⟩ : Vec3 ℚ) ⟨0, 0, 1⟩ = 1 / PI ∧
    (1 / PI : ℚ) ≠ 0 := by
  refine ⟨Or.inl (by norm_num), ?_, ?_, ?_⟩
  · simp [simpleDiffuseBSDF.f, Vec3.div]
  · simp [simpleDiffuseBSDF.pdf]
  · have : (0 : ℚ) < PI := PI_pos
    positivity

/-- Reflection about the local `z` axis keeps the length. -/
theorem lengthSquared_reflectZ (wi : Vec3 K) :
    Vec3.lengthSquared (reflectZ wi) = Vec3.lengthSquared wi := by
  simp only [reflectZ, Vec3.lengthSquared, Vec3.sub, Vec3.scale, dot]
  ring

/-- The reflected direction of `(x, y, z)` is `(-x, -y, z)`. -/
theorem reflectZ_eq (wi : Vec3 K) : reflectZ wi = ⟨-wi.x, -wi.y, wi.z⟩ := by
  simp only [reflectZ, Vec3.sub, Vec3.scale, dot, Vec3.mk.injEq]
  refine ⟨by ring, by ring, by ring⟩

/-- What `phongBSDF::pdf` computes for `wi.z > 0` and `wo.z > 0`:
`((n+2)/(2 PI)) · max(0, wo·unit(wr))^n` with the NORMALISED reflected direction
`unit(wr)`, `wr = 2(wi·Z)Z - wi`.  Only when `wi` is a unit vector is this
`((n+2)/(2 PI)) · max(0, wo·wr)^n`, the value `phongBSDF::f` is built from. -/
theorem phong_pdf_formula (M : CMath K) (hM : M.IsSqrt) (n : Int) (wi wo color : Vec3 K)
    (hwi : 0 < wi.z) (hwo : 0 < wo.z) :
    phongBSDF.pdf M n wi wo =
      (((n + 2 : Int) : K) / (2 * PI)) * (max 0 (dot wo (unit M (reflectZ wi)))) ^ n ∧
    (Vec3.length M wi = 1 →
      phongBSDF.pdf M n wi wo =
        (((n + 2 : Int) : K) / (2 * PI)) * (max 0 (dot wo (reflectZ wi))) ^ n ∧
      phongBSDF.f n wi wo color =
        Vec3.scale (Vec3.scale color (phongBSDF.pdf M n wi wo)) wo.z) := by
  have hpdf : phongBSDF.pdf M n wi wo =
      (((n + 2 : Int) : K) / (2 * PI)) * (max 0 (dot wo (unit M (reflectZ wi)))) ^ n := by
    unfold phongBSDF.pdf
    rw [if_neg (by rintro (h | h) <;> linarith)]
  refine ⟨hpdf, fun hlen => ?_⟩
  have hls : Vec3.lengthSquared (reflectZ wi) = 1 := by
    rw [lengthSquared_reflectZ]
    exact lengthSquared_of_length_one M hM wi hlen
  have hu : unit M (reflectZ wi) = reflectZ wi := unit_of_lengthSquared_one M hM _ hls
  rw [hu] at hpdf
  refine ⟨hpdf, ?_⟩
  rw [hpdf]
  unfold phongBSDF.f
  rw [if_neg (by simp only [Vec3.get]; rintro (h | h) <;> linarith)]
  simp only [Vec3.scale, Vec3.mk.injEq]
  refine ⟨by ring, by ring, by ring⟩

/-- C12 at exponent 1, `wi = (0,0,2)` (not unit, as for a primary ray), `wo = (0,0,1)`, colour
`(1,1,1)`: `wr = (0,0,2)`; `phongBSDF::pdf`, which normalises `wr`, is `3/(2 PI)` while the
formula with the `wr` that `phongBSDF::f` uses gives `3/PI`; `f` is `3/PI` per channel
while `c · pdf · wo.z` is `3/(2 PI)`. -/
theorem phong_pdf_not_unnormalised :
    (0 : ℝ) < (⟨0, 0, 2⟩ : Vec3 ℝ).z ∧ (0 : ℝ) < (⟨0, 0, 1⟩ : Vec3 ℝ).z ∧
    reflectZ (⟨0, 0, 2⟩ : Vec3 ℝ) = ⟨0, 0, 2⟩ ∧
    phongBSDF.pdf ⟨Real.sqrt, Real.sin, Real.cos, Real.arccos, fun x y => x ^ y⟩ 1
      (⟨0, 0, 2⟩ : Vec3 ℝ) ⟨0, 0, 1⟩ = 3 / (2 * PI) ∧
    (((1 + 2 : Int) : ℝ) / (2 * PI)) *
      (max 0 (dot (⟨0, 0, 1⟩ : Vec3 ℝ) (reflectZ ⟨0, 0, 2⟩))) ^ (1 : Int) = 3 / PI ∧
    phongBSDF.f 1 (⟨0, 0, 2⟩ : Vec3 ℝ) ⟨0, 0, 1⟩ ⟨1, 1, 1⟩ = ⟨3 / PI, 3 / PI, 3 / PI⟩ ∧
    Vec3.scale (Vec3.scale (⟨1, 1, 1⟩ : Vec3 ℝ) (3 / (2 * PI))) 1
      = ⟨3 / (2 * PI), 3 / (2 * PI), 3 / (2 * PI)⟩ ∧
    (3 / (2 * PI) : ℝ) ≠ 3 / PI := by
  have hpi : (0 : ℝ) < PI := PI_pos
  have h4 : Real.sqrt 4 = 2 := by
    rw [show (4 : ℝ) = 2 * 2 by norm_num]
    exact Real.sqrt_mul_self (by norm_num)
  have hr : reflectZ (⟨0, 0, 2⟩ : Vec3 ℝ) = ⟨0, 0, 2⟩ := by
    rw [reflectZ_eq]; norm_num
  refine ⟨by norm_num, by norm_num, hr, ?_, ?_, ?_, ?_, ?_⟩
  · simp only [phongBSDF.pdf, hr]
    norm_num [unit, Vec3.length, Vec3.lengthSquared, Vec3.div, dot, h4]
  · rw [hr]
    norm_num [dot]
    field_simp
    ring
  · simp only [phongBSDF.f, hr]
    norm_num [Vec3.get, dot, Vec3.scale]
    field_simp
    ring
  · norm_num [Vec3.scale]
  · intro h
    field_simp at h

/-- The two Phong formulas at exponent 1 and the unit vectors `wi = wo = (0,0,1)`, where
they agree. -/
theorem phong_pdf_formula_witness :
    (⟨Real.sqrt, Real.sin, Real.cos, Real.arccos, fun x y => x ^ y⟩ : CMath ℝ).IsSqrt ∧
    (0 : ℝ) < (⟨0, 0, 1⟩ : Vec3 ℝ).z ∧ (0 : ℝ) < (⟨0, 0, 1⟩ : Vec3 ℝ).z ∧
    phongBSDF.pdf ⟨Real.sqrt, Real.sin, Real.cos, Real.arccos, fun x y => x ^ y⟩ 1
        (⟨0, 0, 1⟩ : Vec3 ℝ) ⟨0, 0, 1⟩ =
      (((1 + 2 : Int) : ℝ) / (2 * PI)) *
        (max 0 (dot (⟨0, 0, 1⟩ : Vec3 ℝ)
          (unit ⟨Real.sqrt, Real.sin, Real.cos, Real.arccos, fun x y => x ^ y⟩
            (reflectZ ⟨0, 0, 1⟩)))) ^ (1 : Int) ∧
    (Vec3.length ⟨Real.sqrt, Real.sin, Real.cos, Real.arccos, fun x y => x ^ y⟩
        (⟨0, 0, 1⟩ : Vec3 ℝ) = 1 →
      phongBSDF.pdf ⟨Real.sqrt, Real.sin, Real.cos, Real.arccos, fun x y => x ^ y⟩ 1
          (⟨0, 0, 1⟩ : Vec3 ℝ) ⟨0, 0, 1⟩ =
        (((1 + 2 : Int) : ℝ) / (2 * PI)) *
          (max 0 (dot (⟨0, 0, 1⟩ : Vec3 ℝ) (reflectZ ⟨0, 0, 1⟩))) ^ (1 : Int) ∧
      phongBSDF.f 1 (⟨0, 0, 1⟩ : Vec3 ℝ) ⟨0, 0, 1⟩ ⟨1, 1, 1⟩ =
        Vec3.scale (Vec3.scale ⟨1, 1, 1⟩
          (phongBSDF.pdf ⟨Real.sqrt, Real.sin, Real.cos, Real.arccos, fun x y => x ^ y⟩ 1
            (⟨0, 0, 1⟩ : Vec3 ℝ) ⟨0, 0, 1⟩)) (⟨0, 0, 1⟩ : Vec3 ℝ).z) :=
  ⟨real_isSqrt, by norm_num, by norm_num,
    phong_pdf_formula _ real_isSqrt 1 (⟨0, 0, 1⟩ : Vec3 ℝ) ⟨0, 0, 1⟩ ⟨1, 1, 1⟩
      (by norm_num) (by norm_num)⟩

/-- C15.  For `wi = (x,y,z)`: `mirrorBSDF::sample_f` sets `wo = 2(wi·Z)Z - wi = (-x,-y,z)`,
`pdf = 1`, returns the colour and leaves the sampler as it was; `wo` has the length and the
`z` of `wi`, and reflecting twice gives `wi` back. -/
theorem mirror_sample_f (M : CMath K) (wi color : Vec3 K) (sample : SimpleSampler K) :
    reflectZ wi = ⟨-wi.x, -wi.y, wi.z⟩ ∧
    mirrorBSDF.sample_f wi color sample = (color, ⟨-wi.x, -wi.y, wi.z⟩, 1, sample) ∧
    BSDF.mirror.sample_f M wi color sample = (color, ⟨-wi.x, -wi.y, wi.z⟩, 1, sample) ∧
    Vec3.length M (reflectZ wi) = Vec3.length M wi ∧
    (reflectZ wi).z = wi.z ∧
    reflectZ (reflectZ wi) = wi := by
  have hr := reflectZ_eq wi
  refine ⟨hr, ?_, ?_, ?_, ?_, ?_⟩
  · simp only [mirrorBSDF.sample_f, mirrorBSDF.f, mirrorBSDF.pdf, hr]
  · simp only [BSDF.sample_f, mirrorBSDF.sample_f, mirrorBSDF.f, mirrorBSDF.pdf, hr]
  · simp only [Vec3.length, lengthSquared_reflectZ]
  · rw [hr]
  · rw [reflectZ_eq, hr]
    simp

end BsdfProofs

/-! ## Normalisation of the Lambertian pdf -/

section LambertIntegral

end LambertIntegral

/-! ## Fields of the intersection record, occlusion, rays that miss -/

section SceneProofs

variable {K : Type} [LinearOrderedField K]

/-- The loop state of `sceneIntersection` is the initial one or the record of a triangle of
the list that was hit (no assumption on `max_t`). -/
theorem sceneLoop_state (r : Ray K) (max_t : K) (l : List (Triangle K)) :
    List.foldl (sceneStep r max_t) (DBL_MAX, Intersection.empty) l = (DBL_MAX, Intersection.empty) ∨
    ∃ tri ∈ l, (triangleIntersect tri r).1 ≠ -1 ∧
      List.foldl (sceneStep r max_t) (DBL_MAX, Intersection.empty) l
        = ((triangleIntersect tri r).1, hitRecord r tri) := by
  induction l using List.reverseRecOn with
  | nil => exact Or.inl rfl
  | append_singleton l x ih =>
    rw [sceneStep_snoc]
    generalize List.foldl (sceneStep r max_t) (DBL_MAX, Intersection.empty) l = st at ih ⊢
    simp only [sceneStep]
    split_ifs with h1 h2
    · exact Or.inr ⟨x, by simp, h1, rfl⟩
    · rcases ih with h | ⟨tri, hm, hne, h⟩
      · exact Or.inl h
      · exact Or.inr ⟨tri, List.mem_append_left _ hm, hne, h⟩
    · rcases ih with h | ⟨tri, hm, hne, h⟩
      · exact Or.inl h
      · exact Or.inr ⟨tri, List.mem_append_left _ hm, hne, h⟩

/-- C16.  Whenever `sceneIntersection` is valid with hit triangle `X`, `X` is a triangle of
the list accepted by `triangleIntersect`, and with `(t, P) = triangleIntersect(X, r)` the
fields are `point = O + t·D`, `normal = X.a.n`, `baseColor = X.a.c·P[0] + X.b.c·P[1] +
X.c.c·P[2]`, `ray = r`, `hitTri = X`, `valid = true`, `backface = false`. -/
theorem sceneIntersection_fields (tris : List (Triangle K)) (r : Ray K) (max_t : K)
    (X : Triangle K) (hv : (sceneIntersection tris r max_t).valid = true)
    (hX : (sceneIntersection tris r max_t).hitTri = some X) :
    X ∈ tris ∧ triangleIntersect X r ≠ miss ∧
    (sceneIntersection tris r max_t).point =
      Vec3.add r.orig (Vec3.scale r.dir (triangleIntersect X r).1) ∧
    (sceneIntersection tris r max_t).normal = X.a.n ∧
    (sceneIntersection tris r max_t).baseColor =
      Vec3.add (Vec3.add (Vec3.scale X.a.c (triangleIntersect X r).2.x)
        (Vec3.scale X.b.c (triangleIntersect X r).2.y))
        (Vec3.scale X.c.c (triangleIntersect X r).2.z) ∧
    (sceneIntersection tris r max_t).ray = r ∧
    (sceneIntersection tris r max_t).hitTri = some X ∧
    (sceneIntersection tris r max_t).valid = true ∧
    (sceneIntersection tris r max_t).backface = false := by
  unfold sceneIntersection at hv hX ⊢
  rcases sceneLoop_state r max_t tris with h | ⟨tri, hm, hne, h⟩
  · rw [h] at hv
    simp [Intersection.empty] at hv
  · rw [h] at hX ⊢
    have hX' : tri = X := by
      simpa [hitRecord] using hX
    subst hX'
    exact ⟨hm, (hit_iff_fst_ne tri r).mpr hne, rfl, rfl, rfl, rfl, rfl, rfl, rfl⟩

/-- C16 on the one-triangle scene `[viewTri]` with the camera ray. -/
theorem sceneIntersection_fields_witness :
    (sceneIntersection [viewTri ℚ ⟨1, 1, 1⟩ ⟨0, 0, 0⟩ BSDF.simpleDiffuse] (camRay ℚ) MAX_T).valid
      = true ∧
    (sceneIntersection [viewTri ℚ ⟨1, 1, 1⟩ ⟨0, 0, 0⟩ BSDF.simpleDiffuse] (camRay ℚ) MAX_T).hitTri
      = some (viewTri ℚ ⟨1, 1, 1⟩ ⟨0, 0, 0⟩ BSDF.simpleDiffuse) ∧
    (sceneIntersection [viewTri ℚ ⟨1, 1, 1⟩ ⟨0, 0, 0⟩ BSDF.simpleDiffuse] (camRay ℚ) MAX_T).point
      = Vec3.add (camRay ℚ).orig (Vec3.scale (camRay ℚ).dir
          (triangleIntersect (viewTri ℚ ⟨1, 1, 1⟩ ⟨0, 0, 0⟩ BSDF.simpleDiffuse) (camRay ℚ)).1) ∧
    (sceneIntersection [viewTri ℚ ⟨1, 1, 1⟩ ⟨0, 0, 0⟩ BSDF.simpleDiffuse] (camRay ℚ) MAX_T).normal
      = (viewTri ℚ ⟨1, 1, 1⟩ ⟨0, 0, 0⟩ BSDF.simpleDiffuse).a.n ∧
    (sceneIntersection [viewTri ℚ ⟨1, 1, 1⟩ ⟨0, 0, 0⟩ BSDF.simpleDiffuse] (camRay ℚ) MAX_T).backface
      = false :=
  have hs : sceneIntersection [viewTri ℚ ⟨1, 1, 1⟩ ⟨0, 0, 0⟩ BSDF.simpleDiffuse] (camRay ℚ) MAX_T
      = hitRecord (camRay ℚ) (viewTri ℚ ⟨1, 1, 1⟩ ⟨0, 0, 0⟩ BSDF.simpleDiffuse) :=
    scene_single_hit _ _ (by rw [viewTri_camRay]; simp [miss])
      (by rw [viewTri_camRay]; norm_num [MAX_T])
  have hv : (sceneIntersection [viewTri ℚ ⟨1, 1, 1⟩ ⟨0, 0, 0⟩ BSDF.simpleDiffuse] (camRay ℚ)
      MAX_T).valid = true := by rw [hs]; rfl
  have hX : (sceneIntersection [viewTri ℚ ⟨1, 1, 1⟩ ⟨0, 0, 0⟩ BSDF.simpleDiffuse] (camRay ℚ)
      MAX_T).hitTri = some (viewTri ℚ ⟨1, 1, 1⟩ ⟨0, 0, 0⟩ BSDF.simpleDiffuse) := by rw [hs]; rfl
  have h := sceneIntersection_fields [viewTri ℚ ⟨1, 1, 1⟩ ⟨0, 0, 0⟩ BSDF.simpleDiffuse] (camRay ℚ)
    MAX_T (viewTri ℚ ⟨1, 1, 1⟩ ⟨0, 0, 0⟩ BSDF.simpleDiffuse) hv hX
  ⟨hv, hX, h.2.2.1, h.2.2.2.1, h.2.2.2.2.2.2.2.2⟩

/-- A ray that every triangle rejects gives the default (invalid) intersection. -/
theorem scene_all_miss (tris : List (Triangle K)) (r : Ray K) (max_t : K)
    (h : ∀ tri ∈ tris, triangleIntersect tri r = miss) :
    sceneIntersection tris r max_t = Intersection.empty := by
  unfold sceneIntersection
  rcases sceneLoop_state r max_t tris with h0 | ⟨tri, hm, hne, _⟩
  · rw [h0]
  · exact absurd (h tri hm) ((hit_iff_fst_ne tri r).mpr hne)

/-- An accepted hit below a bound in the range of `double` makes the result valid. -/
theorem scene_valid_of_hit (tris : List (Triangle K)) (r : Ray K) (max_t : K)
    (hmax : max_t ≤ DBL_MAX) (tri : Triangle K) (hm : tri ∈ tris)
    (hhit : triangleIntersect tri r ≠ miss) (hlt : (triangleIntersect tri r).1 < max_t) :
    (sceneIntersection tris r max_t).valid = true := by
  unfold sceneIntersection
  rcases sceneLoop_invariant r max_t hmax tris with ⟨_, hnone⟩ | ⟨_, _, _, _, _, _, hst, _, _⟩
  · exact absurd hlt (hnone tri hm ((hit_iff_fst_ne tri r).mp hhit))
  · rw [hst]; rfl

/-- The draws `1/4`, `1/2` of `lampSampler` select the lamp point `(0,0,-1)`. -/
theorem lamp_sample_point (M : CMath K) (hM : M.IsSqrt) (nl col e : Vec3 K) (m : BSDF) :
    lightSamplePoint M (lampTri K nl col e m) ((lampSampler K).stream ((lampSampler K).pos + 1))
      ((lampSampler K).stream ((lampSampler K).pos + 2)) = ⟨0, 0, -1⟩ := by
  have h14 : M.sqrt (1 / 4) = 1 / 2 := by
    have := sqrt_mul_self_eq M hM (1 / 2) (by norm_num)
    norm_num at this
    simpa using this
  simp only [lampSampler, lightSamplePoint]
  norm_num [h14, lampTri, vtx, Vec3.add, Vec3.lscale, Vec3.scale]

/-- The shadow ray from the wall point `(-1,0,-1)` to the lamp point `(0,0,-1)`. -/
theorem wall_shadow_ray (M : CMath K) (hM : M.IsSqrt) (col : Vec3 K) (m : BSDF) :
    shadowRay M (hitRecord (sideRay K) (wallTri K col m)) (wallTri K col m) ⟨0, 0, -1⟩
      = ⟨⟨1, 0, 0⟩, ⟨-9999 / 10000, 0, -1⟩⟩ := by
  have h1 := sqrt_one_eq M hM
  simp only [shadowRay, hitRecord, wall_sideRay]
  norm_num [wallTri, sideRay, Ray.pointAt, vtx, Vec3.add, Vec3.scale, Vec3.sub, unit, Vec3.length,
    Vec3.lengthSquared, Vec3.div, h1]

/-- That shadow ray reaches the lamp at `t = 0.9999`. -/
theorem lamp_shadow_hit (nl col e : Vec3 K) (m : BSDF) :
    triangleIntersect (lampTri K nl col e m) ⟨⟨1, 0, 0⟩, ⟨-9999 / 10000, 0, -1⟩⟩
      = (9999 / 10000, ⟨1 / 4, 1 / 4, 1 / 2⟩) := by
  norm_num [triangleIntersect, lampTri, vtx, cross, dot, Vec3.sub,
    Ray.direction, Ray.origin, EPS, miss]

/-- That shadow ray meets the screen at `t = 0.4999`. -/
theorem screen_shadow_hit (col : Vec3 K) (m : BSDF) :
    triangleIntersect (screenTri K col m) ⟨⟨1, 0, 0⟩, ⟨-9999 / 10000, 0, -1⟩⟩
      = (4999 / 10000, ⟨1 / 4, 1 / 4, 1 / 2⟩) := by
  norm_num [triangleIntersect, screenTri, vtx, cross, dot, Vec3.sub,
    Ray.direction, Ray.origin, EPS, miss]


variable [FloorRing K]


/-- C17.  With `r` the shadow ray and `t_light` its parameter on the chosen light `l`
(`0.99999·t_light` in the range of `double`): if some scene triangle is hit by `r` at a
parameter below `0.99999·t_light`, or `t_light = -1`, then `nextEventEstimation` returns the
zero colour and leaves `light_pdf` at the value passed in. -/
theorem nee_occluded_or_missed (M : CMath K) (wo : Vec3 K) (objects lights : List (Triangle K))
    (sample : SimpleSampler K) (reflector : BSDF) (intersect : Intersection K) (light_pdf : K)
    (l hitTri : Triangle K) (p : Vec3 K) (r : Ray K)
    (hl : vectorAt lights (truncToInt (sample.stream sample.pos * (lights.length : K))) = some l)
    (hh : intersect.hitTri = some hitTri)
    (hp : lightSamplePoint M l (sample.stream (sample.pos + 1)) (sample.stream (sample.pos + 2))
      = p)
    (hr : shadowRay M intersect hitTri p = r)
    (hmax : (triangleIntersect l r).1 * (99999 / 100000) ≤ DBL_MAX)
    (hocc : (∃ tri ∈ objects, triangleIntersect tri r ≠ miss ∧
        (triangleIntersect tri r).1 < (triangleIntersect l r).1 * (99999 / 100000)) ∨
      (triangleIntersect l r).1 = -1) :
    nextEventEstimation M wo objects lights sample reflector intersect light_pdf =
      some (⟨0, 0, 0⟩, light_pdf, ⟨sample.stream, sample.pos + 3⟩) := by
  apply nee_blocked M wo objects lights sample reflector intersect light_pdf l hitTri hl hh
  rw [hp, hr]
  rintro ⟨hv, ht⟩
  rcases hocc with ⟨tri, hm, hhit, hlt⟩ | hmiss
  · rw [scene_valid_of_hit objects r _ hmax tri hm hhit hlt] at hv
    exact Bool.noConfusion hv
  · exact ht hmiss

/-- C17 at the wall point `(-1,0,-1)` with the screen between wall and lamp. -/
theorem nee_occluded_or_missed_witness :
    vectorAt [lampTri ℝ ⟨-1, 0, 0⟩ ⟨1, 1, 1⟩ ⟨1, 1, 1⟩ BSDF.simpleDiffuse]
      (truncToInt ((lampSampler ℝ).stream (lampSampler ℝ).pos *
        (([lampTri ℝ ⟨-1, 0, 0⟩ ⟨1, 1, 1⟩ ⟨1, 1, 1⟩ BSDF.simpleDiffuse] :
          List (Triangle ℝ)).length : ℝ)))
      = some (lampTri ℝ ⟨-1, 0, 0⟩ ⟨1, 1, 1⟩ ⟨1, 1, 1⟩ BSDF.simpleDiffuse) ∧
    (hitRecord (sideRay ℝ) (wallTri ℝ ⟨1, 1, 1⟩ BSDF.simpleDiffuse)).hitTri
      = some (wallTri ℝ ⟨1, 1, 1⟩ BSDF.simpleDiffuse) ∧
    lightSamplePoint ⟨Real.sqrt, Real.sin, Real.cos, Real.arccos, fun x y => x ^ y⟩
      (lampTri ℝ ⟨-1, 0, 0⟩ ⟨1, 1, 1⟩ ⟨1, 1, 1⟩ BSDF.simpleDiffuse)
      ((lampSampler ℝ).stream ((lampSampler ℝ).pos + 1))
      ((lampSampler ℝ).stream ((lampSampler ℝ).pos + 2)) = ⟨0, 0, -1⟩ ∧
    shadowRay ⟨Real.sqrt, Real.sin, Real.cos, Real.arccos, fun x y => x ^ y⟩
      (hitRecord (sideRay ℝ) (wallTri ℝ ⟨1, 1, 1⟩ BSDF.simpleDiffuse))
      (wallTri ℝ ⟨1, 1, 1⟩ BSDF.simpleDiffuse) ⟨0, 0, -1⟩
      = ⟨⟨1, 0, 0⟩, ⟨-9999 / 10000, 0, -1⟩⟩ ∧
    (triangleIntersect (lampTri ℝ ⟨-1, 0, 0⟩ ⟨1, 1, 1⟩ ⟨1, 1, 1⟩ BSDF.simpleDiffuse)
      ⟨⟨1, 0, 0⟩, ⟨-9999 / 10000, 0, -1⟩⟩).1 * (99999 / 100000) ≤ DBL_MAX ∧
    (screenTri ℝ ⟨1, 1, 1⟩ BSDF.simpleDiffuse ∈
        [wallTri ℝ ⟨1, 1, 1⟩ BSDF.simpleDiffuse, screenTri ℝ ⟨1, 1, 1⟩ BSDF.simpleDiffuse,
          lampTri ℝ ⟨-1, 0, 0⟩ ⟨1, 1, 1⟩ ⟨1, 1, 1⟩ BSDF.simpleDiffuse] ∧
      triangleIntersect (screenTri ℝ ⟨1, 1, 1⟩ BSDF.simpleDiffuse)
        ⟨⟨1, 0, 0⟩, ⟨-9999 / 10000, 0, -1⟩⟩ ≠ miss ∧
      (triangleIntersect (screenTri ℝ ⟨1, 1, 1⟩ BSDF.simpleDiffuse)
        ⟨⟨1, 0, 0⟩, ⟨-9999 / 10000, 0, -1⟩⟩).1 <
      (triangleIntersect (lampTri ℝ ⟨-1, 0, 0⟩ ⟨1, 1, 1⟩ ⟨1, 1, 1⟩ BSDF.simpleDiffuse)
        ⟨⟨1, 0, 0⟩, ⟨-9999 / 10000, 0, -1⟩⟩).1 * (99999 / 100000)) ∧
    nextEventEstimation ⟨Real.sqrt, Real.sin, Real.cos, Real.arccos, fun x y => x ^ y⟩
      ⟨0, 1, 1 / 2⟩
      [wallTri ℝ ⟨1, 1, 1⟩ BSDF.simpleDiffuse, screenTri ℝ ⟨1, 1, 1⟩ BSDF.simpleDiffuse,
        lampTri ℝ ⟨-1, 0, 0⟩ ⟨1, 1, 1⟩ ⟨1, 1, 1⟩ BSDF.simpleDiffuse]
      [lampTri ℝ ⟨-1, 0, 0⟩ ⟨1, 1, 1⟩ ⟨1, 1, 1⟩ BSDF.simpleDiffuse]
      (lampSampler ℝ) BSDF.simpleDiffuse
      (hitRecord (sideRay ℝ) (wallTri ℝ ⟨1, 1, 1⟩ BSDF.simpleDiffuse)) 0
      = some (⟨0, 0, 0⟩, 0, ⟨(lampSampler ℝ).stream, (lampSampler ℝ).pos + 3⟩) :=
  have hl : vectorAt [lampTri ℝ ⟨-1, 0, 0⟩ ⟨1, 1, 1⟩ ⟨1, 1, 1⟩ BSDF.simpleDiffuse]
      (truncToInt ((lampSampler ℝ).stream (lampSampler ℝ).pos *
        (([lampTri ℝ ⟨-1, 0, 0⟩ ⟨1, 1, 1⟩ ⟨1, 1, 1⟩ BSDF.simpleDiffuse] :
          List (Triangle ℝ)).length : ℝ)))
      = some (lampTri ℝ ⟨-1, 0, 0⟩ ⟨1, 1, 1⟩ ⟨1, 1, 1⟩ BSDF.simpleDiffuse) := by
    simp [lampSampler, truncToInt, vectorAt]
  have hp := lamp_sample_point (⟨Real.sqrt, Real.sin, Real.cos, Real.arccos, fun x y => x ^ y⟩ :
    CMath ℝ) real_isSqrt ⟨-1, 0, 0⟩ ⟨1, 1, 1⟩ ⟨1, 1, 1⟩ BSDF.simpleDiffuse
  have hr := wall_shadow_ray (⟨Real.sqrt, Real.sin, Real.cos, Real.arccos, fun x y => x ^ y⟩ :
    CMath ℝ) real_isSqrt ⟨1, 1, 1⟩ BSDF.simpleDiffuse
  have hmax : (triangleIntersect (lampTri ℝ ⟨-1, 0, 0⟩ ⟨1, 1, 1⟩ ⟨1, 1, 1⟩ BSDF.simpleDiffuse)
      ⟨⟨1, 0, 0⟩, ⟨-9999 / 10000, 0, -1⟩⟩).1 * (99999 / 100000) ≤ DBL_MAX := by
    rw [lamp_shadow_hit]; norm_num [DBL_MAX]
  have hocc : screenTri ℝ ⟨1, 1, 1⟩ BSDF.simpleDiffuse ∈
        [wallTri ℝ ⟨1, 1, 1⟩ BSDF.simpleDiffuse, screenTri ℝ ⟨1, 1, 1⟩ BSDF.simpleDiffuse,
          lampTri ℝ ⟨-1, 0, 0⟩ ⟨1, 1, 1⟩ ⟨1, 1, 1⟩ BSDF.simpleDiffuse] ∧
      triangleIntersect (screenTri ℝ ⟨1, 1, 1⟩ BSDF.simpleDiffuse)
        ⟨⟨1, 0, 0⟩, ⟨-9999 / 10000, 0, -1⟩⟩ ≠ miss ∧
      (triangleIntersect (screenTri ℝ ⟨1, 1, 1⟩ BSDF.simpleDiffuse)
        ⟨⟨1, 0, 0⟩, ⟨-9999 / 10000, 0, -1⟩⟩).1 <
      (triangleIntersect (lampTri ℝ ⟨-1, 0, 0⟩ ⟨1, 1, 1⟩ ⟨1, 1, 1⟩ BSDF.simpleDiffuse)
        ⟨⟨1, 0, 0⟩, ⟨-9999 / 10000, 0, -1⟩⟩).1 * (99999 / 100000) := by
    rw [lamp_shadow_hit, screen_shadow_hit]
    refine ⟨by simp, by simp [miss], by norm_num⟩
  ⟨hl, rfl, hp, hr, hmax, hocc,
    nee_occluded_or_missed _ _ _ _ _ _ _ 0 _ _ _ _ hl rfl hp hr hmax
      (Or.inl ⟨_, hocc.1, hocc.2.1, hocc.2.2⟩)⟩

/-- A primary ray that every triangle rejects: `Li` returns `(0,0,0)` and draws nothing. -/
theorem Li_no_hit_aux (M : CMath K) (maxDepth : Int) (objects lights : List (Triangle K))
    (r : Ray K) (sample : SimpleSampler K)
    (h : ∀ tri ∈ objects, triangleIntersect tri r = miss) :
    MISIntegrator.Li M maxDepth objects lights r sample = some (⟨0, 0, 0⟩, sample) := by
  unfold MISIntegrator.Li
  rw [LiLoop_miss]
  · rfl
  · rw [scene_all_miss objects r MAX_T h]
    rfl

/-- C18.  If every triangle of the scene rejects the primary ray, `MISIntegrator::Li` returns
`(0,0,0)` (and leaves the sampler untouched) for every sampler state, emissive list and
`maxDepth`; in particular for the scene without triangles. -/
theorem Li_no_hit (M : CMath K) (maxDepth : Int) (objects lights : List (Triangle K))
    (r : Ray K) (sample : SimpleSampler K)
    (h : ∀ tri ∈ objects, triangleIntersect tri r = miss) :
    MISIntegrator.Li M maxDepth objects lights r sample = some (⟨0, 0, 0⟩, sample) ∧
    MISIntegrator.Li M maxDepth [] lights r sample = some (⟨0, 0, 0⟩, sample) :=
  ⟨Li_no_hit_aux M maxDepth objects lights r sample h,
    Li_no_hit_aux M maxDepth [] lights r sample (fun _ hm => absurd hm (List.not_mem_nil _))⟩

/-- C18 on the scene made of the lamp alone, which the primary ray `sideRay` sees from
behind, with `maxDepth = 6`. -/
theorem Li_no_hit_witness :
    (∀ tri ∈ [lampTri ℝ ⟨-1, 0, 0⟩ ⟨1, 1, 1⟩ ⟨1, 1, 1⟩ BSDF.simpleDiffuse],
      triangleIntersect tri (sideRay ℝ) = miss) ∧
    MISIntegrator.Li ⟨Real.sqrt, Real.sin, Real.cos, Real.arccos, fun x y => x ^ y⟩ 6
      [lampTri ℝ ⟨-1, 0, 0⟩ ⟨1, 1, 1⟩ ⟨1, 1, 1⟩ BSDF.simpleDiffuse]
      [lampTri ℝ ⟨-1, 0, 0⟩ ⟨1, 1, 1⟩ ⟨1, 1, 1⟩ BSDF.simpleDiffuse]
      (sideRay ℝ) ⟨fun _ => 1 / 4, 0⟩ = some (⟨0, 0, 0⟩, ⟨fun _ => 1 / 4, 0⟩) ∧
    MISIntegrator.Li ⟨Real.sqrt, Real.sin, Real.cos, Real.arccos, fun x y => x ^ y⟩ 6
      []
      [lampTri ℝ ⟨-1, 0, 0⟩ ⟨1, 1, 1⟩ ⟨1, 1, 1⟩ BSDF.simpleDiffuse]
      (sideRay ℝ) ⟨fun _ => 1 / 4, 0⟩ = some (⟨0, 0, 0⟩, ⟨fun _ => 1 / 4, 0⟩) :=
  have h : ∀ tri ∈ [lampTri ℝ ⟨-1, 0, 0⟩ ⟨1, 1, 1⟩ ⟨1, 1, 1⟩ BSDF.simpleDiffuse],
      triangleIntersect tri (sideRay ℝ) = miss := by
    intro tri hm
    rw [List.mem_singleton] at hm
    rw [hm]
    exact lamp_sideRay _ _ _ _
  ⟨h, Li_no_hit _ 6 _ _ _ _ h⟩

end SceneProofs

/-! ## The mesh loader: fan triangulation and the emissive list -/

section LoaderProofs

variable {K : Type} [LinearOrderedField K]

omit [LinearOrderedField K] in
/-- Dropping the first entry of both index lists shifts `faceVertex` by one. -/
theorem faceVertex_cons (points normals : List (Vec3 K)) (a b : Int) (L1 L2 : List Int)
    (c : Vec3 K) (i : Nat) :
    faceVertex points normals (a :: L1) (b :: L2) c (i + 1) = faceVertex points normals L1 L2 c i := by
  simp [faceVertex]

omit [LinearOrderedField K] in
/-- For a face whose tokens all carry valid position and normal indices, the code's index
lists have one entry per token and `faceVertex` builds exactly the vertices of
`faceVerticesSpec`. -/
theorem faceVertex_spec (points normals : List (Vec3 K)) (c : Vec3 K) :
    ∀ (tokens : List FaceToken) (vs : List (Vertex K)),
      faceVerticesSpec points normals c tokens = some vs →
      (vertexIndicesOf tokens).length = vs.length ∧
      ∀ i, faceVertex points normals (vertexIndicesOf tokens) (normalIndicesOf tokens) c i
        = vs.get? i := by
  intro tokens
  induction tokens with
  | nil =>
    intro vs h
    simp only [faceVerticesSpec, Option.some.injEq] at h
    subst h
    exact ⟨rfl, fun i => by simp [faceVertex, vertexIndicesOf, normalIndicesOf]⟩
  | cons tok rest ih =>
    intro vs h
    obtain ⟨pos, normal⟩ := tok
    cases pos with
    | none => simp [faceVerticesSpec] at h
    | some p =>
      cases normal with
      | none => simp [faceVerticesSpec] at h
      | some q =>
        simp only [faceVerticesSpec] at h
        cases hp : vectorIdx points (p - 1) with
        | none => simp [hp] at h
        | some pt =>
          cases hq : vectorIdx normals (q - 1) with
          | none => simp [hp, hq] at h
          | some nn =>
            cases hr : faceVerticesSpec points normals c rest with
            | none => simp [hp, hq, hr] at h
            | some vs' =>
              simp only [hp, hq, hr, Option.some.injEq] at h
              subst h
              obtain ⟨hlen, hget⟩ := ih vs' hr
              have h1 : vertexIndicesOf (⟨some p, some q⟩ :: rest) = (p - 1) :: vertexIndicesOf rest := by
                simp [vertexIndicesOf]
              have h2 : normalIndicesOf (⟨some p, some q⟩ :: rest) = (q - 1) :: normalIndicesOf rest := by
                simp [normalIndicesOf]
              rw [h1, h2]
              refine ⟨by simp [hlen], fun i => ?_⟩
              cases i with
              | zero => simp [faceVertex, hp, hq]
              | succ i => rw [faceVertex_cons, hget i]; simp

omit [LinearOrderedField K] in
/-- When every vertex construction succeeds, the first loop of the branch `n > 4` has
collected the first `k` vertices after `k` iterations. -/
theorem buildPoly_take (mk : Nat → Option (Vertex K)) (vs : List (Vertex K))
    (h : ∀ i, mk i = vs.get? i) :
    ∀ k, k ≤ vs.length → buildPoly mk k = some (vs.take k) := by
  intro k
  induction k with
  | zero => intro _; simp [buildPoly]
  | succ k ih =>
    intro hk
    have hk' : k < vs.length := hk
    simp only [buildPoly, ih (Nat.le_of_lt hk'), h k]
    rw [List.take_succ]
    simp [List.getElem?_eq_getElem hk']

/-- The second loop of the branch `n > 4`, started at index `j + 1`, appends the first `k`
triangles of the fan over the remaining vertices. -/
theorem fanLoop_suffix (v0 : Vertex K) (rest : List (Vertex K)) (e : Vec3 K) (material : BSDF) :
    ∀ (k : Nat) (suf : List (Vertex K)) (j : Nat) (ml : List (Triangle K) × List (Triangle K)),
      rest.drop j = suf → k + 1 ≤ suf.length →
      fanLoop (v0 :: rest) e material (j + 1) k ml =
        some (ml.1 ++ (List.zipWith (fun a b => (⟨v0, a, b, e, material⟩ : Triangle K))
            suf suf.tail).take k,
          if 0 < Vec3.lengthSquared e then
            ml.2 ++ (List.zipWith (fun a b => (⟨v0, a, b, e, material⟩ : Triangle K))
              suf suf.tail).take k
          else ml.2) := by
  intro k
  induction k with
  | zero =>
    intro suf j ml _ _
    simp [fanLoop]
  | succ k ih =>
    intro suf j ml hsuf hlen
    match suf, hsuf, hlen with
    | a :: b :: tl, hsuf, hlen =>
      have ha : rest[j]? = some a := by
        have := List.getElem?_drop rest j 0
        rw [hsuf] at this
        simpa using this.symm
      have hb : rest[j + 1]? = some b := by
        have := List.getElem?_drop rest j 1
        rw [hsuf] at this
        simpa using this.symm
      have hsuf' : rest.drop (j + 1) = b :: tl := by
        rw [← List.tail_drop, hsuf]; rfl
      have hlen' : k + 1 ≤ (b :: tl).length := by
        simp only [List.length_cons] at hlen ⊢
        omega
      simp only [fanLoop, List.get?_eq_getElem?, List.getElem?_cons_zero, List.getElem?_cons_succ,
        ha, hb]
      rw [ih (b :: tl) (j + 1) _ hsuf' hlen']
      simp only [pushTriangle, List.tail_cons, List.zipWith_cons_cons, List.take_succ_cons,
        List.append_assoc, List.singleton_append]
      split_ifs <;> simp
    | [_], _, hlen => simp at hlen
    | [], _, hlen => simp at hlen

/-- The test `e.lengthSquared() > 0` holds exactly for a non-zero vector. -/
theorem lengthSquared_pos_iff (v : Vec3 K) : 0 < Vec3.lengthSquared v ↔ v ≠ ⟨0, 0, 0⟩ := by
  obtain ⟨x, y, z⟩ := v
  simp only [Vec3.lengthSquared, ne_eq, Vec3.mk.injEq]
  constructor
  · rintro h ⟨hx, hy, hz⟩
    subst hx hy hz
    simp at h
  · intro h
    by_contra hc
    have h0 : x * x + y * y + z * z = 0 :=
      le_antisymm (not_lt.mp hc) (by nlinarith [mul_self_nonneg x, mul_self_nonneg y, mul_self_nonneg z])
    apply h
    refine ⟨?_, ?_, ?_⟩ <;>
      nlinarith [mul_self_nonneg x, mul_self_nonneg y, mul_self_nonneg z]

omit [LinearOrderedField K] in
/-- A fan over `n` vertices has `n - 2` triangles (none for `n < 3`). -/
theorem fanSpec_length (vs : List (Vertex K)) (e : Vec3 K) (material : BSDF) :
    (fanSpec vs e material).length = vs.length - 2 := by
  cases vs with
  | nil => rfl
  | cons v0 rest =>
    simp only [fanSpec, List.length_zipWith, List.length_tail, List.length_cons]
    omega

/-- A face record with valid indices: `readFace` appends the fan over its vertices to `mesh`,
the same fan to `lights` exactly when `e.lengthSquared() > 0`, and the vertices themselves
to `vertices` (nothing at all for fewer than three vertices). -/
theorem readFace_fan (points normals : List (Vec3 K)) (c e : Vec3 K) (material : BSDF)
    (tokens : List FaceToken) (sc : Scene K) (vs : List (Vertex K))
    (h : faceVerticesSpec points normals c tokens = some vs) :
    readFace points normals c e material tokens sc =
      some ⟨sc.vertices ++ (if 3 ≤ vs.length then vs else []),
        sc.mesh ++ fanSpec vs e material,
        if 0 < Vec3.lengthSquared e then sc.lights ++ fanSpec vs e material else sc.lights⟩ := by
  obtain ⟨hlen, hget⟩ := faceVertex_spec points normals c tokens vs h
  unfold readFace
  simp only [hlen, hget]
  match vs, hlen, hget with
  | [], _, _ => simp [fanSpec]
  | [_], _, _ => simp [fanSpec]
  | [_, _], _, _ => simp [fanSpec]
  | [v1, v2, v3], _, _ =>
    simp [fanSpec, pushTriangle]
  | [v1, v2, v3, v4], _, _ =>
    simp [fanSpec, pushTriangle]
    split_ifs <;> simp
  | v1 :: v2 :: v3 :: v4 :: v5 :: tl, hlen, hget =>
    have hn : (v1 :: v2 :: v3 :: v4 :: v5 :: tl).length = tl.length + 5 := by simp
    have h3 : ¬ (tl.length + 5 = 3) := by omega
    have h4 : ¬ (tl.length + 5 = 4) := by omega
    have h5 : 4 < tl.length + 5 := by omega
    have h6 : 3 ≤ tl.length + 5 := by omega
    rw [hn]
    simp only [h3, h4, h5, h6, if_true, if_false]
    have hb := buildPoly_take
      (faceVertex points normals (vertexIndicesOf tokens) (normalIndicesOf tokens) c)
      (v1 :: v2 :: v3 :: v4 :: v5 :: tl) hget (tl.length + 5) (by simp)
    have hb' : buildPoly (faceVertex points normals (vertexIndicesOf tokens)
        (normalIndicesOf tokens) c) (tl.length + 5)
        = some (v1 :: v2 :: v3 :: v4 :: v5 :: tl) := by
      rw [hb]
      simp
    have hf := fanLoop_suffix v1 (v2 :: v3 :: v4 :: v5 :: tl) e material (tl.length + 3)
      (v2 :: v3 :: v4 :: v5 :: tl) 0 (sc.mesh, sc.lights) rfl (by simp)
    have htake : (List.zipWith (fun a b => (⟨v1, a, b, e, material⟩ : Triangle K))
        (v2 :: v3 :: v4 :: v5 :: tl) (v2 :: v3 :: v4 :: v5 :: tl).tail).take (tl.length + 3)
        = fanSpec (v1 :: v2 :: v3 :: v4 :: v5 :: tl) e material := by
      apply List.take_of_length_le
      simp [List.length_zipWith]
    rw [htake] at hf
    have hk : tl.length + 5 - 2 = tl.length + 3 := by omega
    simp only [hb', hk]
    simp only [Nat.zero_add] at hf
    rw [hf]

/-- One `push_back` pair keeps the shape "old list followed by new triangles of emission
`e`" of `mesh` and `lights`. -/
theorem pushTriangle_appends (e : Vec3 K) (material : BSDF) (v1 v2 v3 : Vertex K)
    (m0 l0 : List (Triangle K)) (ml : List (Triangle K) × List (Triangle K))
    (h : ∃ new : List (Triangle K), ml.1 = m0 ++ new ∧
      ml.2 = (if 0 < Vec3.lengthSquared e then l0 ++ new else l0) ∧ ∀ t ∈ new, t.emission = e) :
    ∃ new : List (Triangle K), (pushTriangle e material v1 v2 v3 ml).1 = m0 ++ new ∧
      (pushTriangle e material v1 v2 v3 ml).2 =
        (if 0 < Vec3.lengthSquared e then l0 ++ new else l0) ∧ ∀ t ∈ new, t.emission = e := by
  obtain ⟨new, h1, h2, h3⟩ := h
  refine ⟨new ++ [⟨v1, v2, v3, e, material⟩], ?_, ?_, ?_⟩
  · simp [pushTriangle, h1]
  · simp only [pushTriangle, h2]
    split_ifs <;> simp
  · intro t ht
    rcases List.mem_append.mp ht with ht | ht
    · exact h3 t ht
    · simp only [List.mem_singleton] at ht
      rw [ht]

/-- The fan loop keeps that shape, whatever its bounds. -/
theorem fanLoop_appends (poly : List (Vertex K)) (e : Vec3 K) (material : BSDF)
    (m0 l0 : List (Triangle K)) :
    ∀ (k i : Nat) (ml ml1 : List (Triangle K) × List (Triangle K)),
      (∃ new : List (Triangle K), ml.1 = m0 ++ new ∧
        ml.2 = (if 0 < Vec3.lengthSquared e then l0 ++ new else l0) ∧ ∀ t ∈ new, t.emission = e) →
      fanLoop poly e material i k ml = some ml1 →
      ∃ new : List (Triangle K), ml1.1 = m0 ++ new ∧
        ml1.2 = (if 0 < Vec3.lengthSquared e then l0 ++ new else l0) ∧ ∀ t ∈ new, t.emission = e := by
  intro k
  induction k with
  | zero =>
    intro i ml ml1 h hrun
    simp only [fanLoop, Option.some.injEq] at hrun
    rw [← hrun]
    exact h
  | succ k ih =>
    intro i ml ml1 h hrun
    simp only [fanLoop] at hrun
    split at hrun
    · exact ih _ _ _ (pushTriangle_appends e material _ _ _ m0 l0 ml h) hrun
    · exact absurd hrun (by simp)

/-- Whatever the tokens, a face record that is processed without failure appends some
triangles of emission `e` to `mesh`, and the same ones to `lights` exactly when
`e.lengthSquared() > 0`. -/
theorem readFace_appends (points normals : List (Vec3 K)) (c e : Vec3 K) (material : BSDF)
    (tokens : List FaceToken) (sc sc1 : Scene K)
    (h : readFace points normals c e material tokens sc = some sc1) :
    ∃ new : List (Triangle K), sc1.mesh = sc.mesh ++ new ∧
      sc1.lights = (if 0 < Vec3.lengthSquared e then sc.lights ++ new else sc.lights) ∧
      ∀ t ∈ new, t.emission = e := by
  have h0 : ∃ new : List (Triangle K), (sc.mesh, sc.lights).1 = sc.mesh ++ new ∧
      (sc.mesh, sc.lights).2 = (if 0 < Vec3.lengthSquared e then sc.lights ++ new else sc.lights) ∧
      ∀ t ∈ new, t.emission = e := ⟨[], by simp, by simp, by simp⟩
  simp only [readFace] at h
  split_ifs at h with h3 h4 h5
  · split at h
    · simp only [Option.some.injEq] at h
      rw [← h]
      exact pushTriangle_appends e material _ _ _ sc.mesh sc.lights _ h0
    · exact absurd h (by simp)
  · split at h
    · simp only [Option.some.injEq] at h
      rw [← h]
      exact pushTriangle_appends e material _ _ _ sc.mesh sc.lights _
        (pushTriangle_appends e material _ _ _ sc.mesh sc.lights _ h0)
    · exact absurd h (by simp)
  · split at h
    · exact absurd h (by simp)
    · split at h
      · exact absurd h (by simp)
      · rename_i ml hml
        simp only [Option.some.injEq] at h
        rw [← h]
        exact fanLoop_appends _ e material sc.mesh sc.lights _ _ _ _ h0 hml
  · simp only [Option.some.injEq] at h
    rw [← h]
    exact ⟨[], by simp, by simp, by simp⟩

/-- Appending triangles of emission `e` to `mesh`, and to `lights` when
`e.lengthSquared() > 0`, preserves the invariant. -/
theorem invariant_append (e : Vec3 K) (mesh lights new : List (Triangle K))
    (vs vs1 : List (Vertex K))
    (hinv : Scene.EmissiveInvariant (⟨vs, mesh, lights⟩ : Scene K))
    (hnew : ∀ t ∈ new, t.emission = e) :
    Scene.EmissiveInvariant (⟨vs1, mesh ++ new,
      if 0 < Vec3.lengthSquared e then lights ++ new else lights⟩ : Scene K) := by
  obtain ⟨hl, hm⟩ := hinv
  simp only at hl hm
  constructor
  · intro t ht
    simp only at ht ⊢
    split_ifs at ht with he
    · rcases List.mem_append.mp ht with ht | ht
      · exact ⟨(hl t ht).1, List.mem_append_left _ (hl t ht).2⟩
      · refine ⟨?_, List.mem_append_right _ ht⟩
        rw [hnew t ht]
        exact (lengthSquared_pos_iff e).mp he
    · exact ⟨(hl t ht).1, List.mem_append_left _ (hl t ht).2⟩
  · intro t ht hne
    simp only at ht ⊢
    rcases List.mem_append.mp ht with ht | ht
    · have := hm t ht hne
      split_ifs
      · exact List.mem_append_left _ this
      · exact this
    · have he : 0 < Vec3.lengthSquared e := by
        rw [lengthSquared_pos_iff, ← hnew t ht]
        exact hne
      rw [if_pos he]
      exact List.mem_append_right _ ht

/-- A face record preserves the invariant. -/
theorem readFace_invariant (points normals : List (Vec3 K)) (c e : Vec3 K) (material : BSDF)
    (tokens : List FaceToken) (sc sc1 : Scene K)
    (h : readFace points normals c e material tokens sc = some sc1)
    (hinv : Scene.EmissiveInvariant sc) : Scene.EmissiveInvariant sc1 := by
  obtain ⟨new, h1, h2, h3⟩ := readFace_appends points normals c e material tokens sc sc1 h
  have := invariant_append e sc.mesh sc.lights new sc.vertices sc1.vertices hinv h3
  rw [← h1, ← h2] at this
  exact this

/-- The line loop of `readObj` preserves the invariant. -/
theorem readLines_invariant (c e : Vec3 K) (material : BSDF) :
    ∀ (records : List (ObjRecord K)) (points normals : List (Vec3 K)) (sc sc1 : Scene K),
      readLines c e material records points normals sc = some sc1 →
      Scene.EmissiveInvariant sc → Scene.EmissiveInvariant sc1 := by
  intro records
  induction records with
  | nil =>
    intro points normals sc sc1 h hinv
    simp only [readLines, Option.some.injEq] at h
    rw [← h]
    exact hinv
  | cons rec rest ih =>
    intro points normals sc sc1 h hinv
    cases rec with
    | v p => exact ih _ _ _ _ (by simpa only [readLines] using h) hinv
    | vt => exact ih _ _ _ _ (by simpa only [readLines] using h) hinv
    | vn n => exact ih _ _ _ _ (by simpa only [readLines] using h) hinv
    | skip => exact ih _ _ _ _ (by simpa only [readLines] using h) hinv
    | f tokens =>
      simp only [readLines] at h
      split at h
      · exact absurd h (by simp)
      · rename_i sc2 hsc2
        exact ih _ _ _ _ h (readFace_invariant points normals c e material tokens sc sc2 hsc2 hinv)

/-- A `readObj` call preserves the invariant. -/
theorem readObj_invariant (file : Option (List (ObjRecord K))) (c e : Vec3 K) (material : BSDF)
    (sc sc1 : Scene K) (h : readObj file sc c e material = some sc1)
    (hinv : Scene.EmissiveInvariant sc) : Scene.EmissiveInvariant sc1 := by
  cases file with
  | none =>
    simp only [readObj, Option.some.injEq] at h
    rw [← h]
    exact hinv
  | some records => exact readLines_invariant c e material records [] [] sc sc1 h hinv

/-- A sequence of `readObj` calls preserves the invariant. -/
theorem readObjs_invariant :
    ∀ (calls : List (ObjCall K)) (sc sc1 : Scene K),
      readObjs calls sc = some sc1 →
      Scene.EmissiveInvariant sc → Scene.EmissiveInvariant sc1 := by
  intro calls
  induction calls with
  | nil =>
    intro sc sc1 h hinv
    simp only [readObjs, Option.some.injEq] at h
    rw [← h]
    exact hinv
  | cons call rest ih =>
    intro sc sc1 h hinv
    simp only [readObjs] at h
    split at h
    · exact absurd h (by simp)
    · rename_i sc2 hsc2
      exact ih _ _ h (readObj_invariant call.file call.c call.e call.material sc sc2 hsc2 hinv)

/-- Empty vectors satisfy the invariant. -/
theorem empty_invariant : Scene.EmissiveInvariant (⟨[], [], []⟩ : Scene K) := by
  constructor <;> intro t ht <;> simp at ht

omit [LinearOrderedField K] in
/-- The `i`-th triangle of the fan is `(p0, p_{i+1}, p_{i+2})` with the given emission and
material, counting `i` from 0. -/
theorem fanSpec_get (vs : List (Vertex K)) (e : Vec3 K) (material : BSDF) (i : Nat) :
    (fanSpec vs e material).get? i =
      match vs.get? 0, vs.get? (i + 1), vs.get? (i + 2) with
      | some p0, some pi, some pj => some ⟨p0, pi, pj, e, material⟩
      | _, _, _ => none := by
  cases vs with
  | nil => simp [fanSpec]
  | cons v0 rest =>
    simp only [fanSpec, List.get?_eq_getElem?, List.getElem?_cons_zero, List.getElem?_cons_succ,
      List.getElem?_zipWith, List.getElem?_tail]
    cases h1 : rest[i]? <;> cases h2 : rest[i + 1]? <;> simp

/-- C19.  A face record whose tokens all carry valid position and normal indices (vertices
`vs`, `n = vs.length`) makes the line loop of `readObj` continue with `mesh` extended by the
fan over `vs`, with `lights` extended by the same fan exactly when `e.lengthSquared() > 0`,
and with `vertices` extended by `vs` when `n ≥ 3`; the fan has `n - 2` triangles (none for
`n < 3`), the `i`-th being `(p0, p_{i+1}, p_{i+2})` with emission `e` and the caller's
material.  Starting from empty vectors, after any sequence of `readObj` calls that runs to
the end, every triangle of `lights` has non-zero emission and occurs in `mesh`, and every
triangle of `mesh` with non-zero emission occurs in `lights`. -/
theorem readObj_fan_and_emissive_lists (points normals : List (Vec3 K)) (c e : Vec3 K)
    (material : BSDF) (tokens : List FaceToken) (rest : List (ObjRecord K)) (sc : Scene K)
    (vs : List (Vertex K)) (calls : List (ObjCall K)) (final : Scene K)
    (hface : faceVerticesSpec points normals c tokens = some vs)
    (hrun : readObjs calls ⟨[], [], []⟩ = some final) :
    readLines c e material (ObjRecord.f tokens :: rest) points normals sc =
        readLines c e material rest points normals
          ⟨sc.vertices ++ (if 3 ≤ vs.length then vs else []),
            sc.mesh ++ fanSpec vs e material,
            if 0 < Vec3.lengthSquared e then sc.lights ++ fanSpec vs e material else sc.lights⟩ ∧
      (fanSpec vs e material).length = vs.length - 2 ∧
      (∀ i : Nat, (fanSpec vs e material).get? i =
        match vs.get? 0, vs.get? (i + 1), vs.get? (i + 2) with
        | some p0, some pi, some pj => some ⟨p0, pi, pj, e, material⟩
        | _, _, _ => none) ∧
      (∀ t ∈ final.lights, t.emission ≠ ⟨0, 0, 0⟩ ∧ t ∈ final.mesh) ∧
      (∀ t ∈ final.mesh, t.emission ≠ ⟨0, 0, 0⟩ → t ∈ final.lights) := by
  refine ⟨?_, fanSpec_length vs e material, fanSpec_get vs e material, ?_⟩
  · simp only [readLines, readFace_fan points normals c e material tokens sc vs hface]
  · exact readObjs_invariant calls ⟨[], [], []⟩ final hrun empty_invariant

/-- The quad face of `squareFile` has valid indices; its vertices are `squareVertices`. -/
theorem square_face : faceVerticesSpec (squarePoints : List (Vec3 ℚ)) [⟨0, 0, 1⟩] ⟨1, 1, 1⟩ squareFace
    = some (squareVertices ⟨1, 1, 1⟩) := by
  simp [faceVerticesSpec, squarePoints, squareFace, squareVertices, vectorIdx]

/-- The three calls `squareCalls` on empty vectors give `squareScene`. -/
theorem square_run : readObjs (squareCalls : List (ObjCall ℚ)) ⟨[], [], []⟩ = some squareScene := by
  have h5 : (0 : ℚ) < 5 * 5 + 5 * 5 + 5 * 5 := by norm_num
  simp [squareCalls, squareScene, readObjs, readObj, squareFile, readLines, readFace, squareFace,
    vertexIndicesOf, normalIndicesOf, faceVertex, vectorIdx, pushTriangle, Vec3.lengthSquared,
    squareVertices, squareFan, h5]

/-- C19 on the quad of `squareFile`: read as a lamp of emission `(5,5,5)` it yields the two
triangles `squareFan` in both lists, and after the three calls `squareCalls` the lamp's two
triangles are the emissive list while the mirror copy is in `mesh` only. -/
theorem readObj_fan_and_emissive_lists_witness :
    faceVerticesSpec (squarePoints : List (Vec3 ℚ)) [⟨0, 0, 1⟩] ⟨1, 1, 1⟩ squareFace
        = some (squareVertices ⟨1, 1, 1⟩) ∧
      readObjs (squareCalls : List (ObjCall ℚ)) ⟨[], [], []⟩ = some squareScene ∧
      readLines (⟨1, 1, 1⟩ : Vec3 ℚ) ⟨5, 5, 5⟩ BSDF.simpleDiffuse [ObjRecord.f squareFace]
          squarePoints [⟨0, 0, 1⟩] ⟨[], [], []⟩ =
        some ⟨squareVertices ⟨1, 1, 1⟩, squareFan ⟨1, 1, 1⟩ ⟨5, 5, 5⟩ BSDF.simpleDiffuse,
          squareFan ⟨1, 1, 1⟩ ⟨5, 5, 5⟩ BSDF.simpleDiffuse⟩ ∧
      (fanSpec (squareVertices (⟨1, 1, 1⟩ : Vec3 ℚ)) ⟨5, 5, 5⟩ BSDF.simpleDiffuse).length = 2 ∧
      (∀ t ∈ (squareScene : Scene ℚ).lights,
        t.emission ≠ ⟨0, 0, 0⟩ ∧ t ∈ (squareScene : Scene ℚ).mesh) ∧
      (∀ t ∈ (squareScene : Scene ℚ).mesh,
        t.emission ≠ ⟨0, 0, 0⟩ → t ∈ (squareScene : Scene ℚ).lights) :=
  have h := readObj_fan_and_emissive_lists (squarePoints : List (Vec3 ℚ)) [⟨0, 0, 1⟩] ⟨1, 1, 1⟩
    ⟨5, 5, 5⟩ BSDF.simpleDiffuse squareFace [] ⟨[], [], []⟩ (squareVertices ⟨1, 1, 1⟩)
    squareCalls squareScene square_face square_run
  ⟨square_face, square_run,
    by
      rw [h.1]
      have h5 : (0 : ℚ) < 5 * 5 + 5 * 5 + 5 * 5 := by norm_num
      simp [readLines, squareVertices, squareFan, fanSpec, Vec3.lengthSquared, h5],
    h.2.1, h.2.2.2.1, h.2.2.2.2⟩

/-- C20.  For a face record `f p1 p2 p3` (or `f p1// p2// p3//`), whose tokens have a
position index and no normal index, `vertexIndices` has three entries and `normalIndices`
is empty, so the branch `n == 3` evaluates `normalIndices[0]` outside the vector: the line
loop of `readObj` fails on that record whatever positions and normals were read before, and
no triangle is emitted; `readObj` on the file `bareFile` fails in this way. -/
theorem readObj_face_without_normals_fails (points normals : List (Vec3 K)) (c e : Vec3 K)
    (material : BSDF) (p1 p2 p3 : Int) (rest : List (ObjRecord K)) (sc : Scene K) :
    vertexIndicesOf [⟨some p1, none⟩, ⟨some p2, none⟩, ⟨some p3, none⟩] = [p1 - 1, p2 - 1, p3 - 1] ∧
      normalIndicesOf [⟨some p1, none⟩, ⟨some p2, none⟩, ⟨some p3, none⟩] = [] ∧
      readLines c e material
        (ObjRecord.f [⟨some p1, none⟩, ⟨some p2, none⟩, ⟨some p3, none⟩] :: rest)
        points normals sc = none ∧
      readObj (some bareFile) sc c e material = none := by
  refine ⟨rfl, rfl, ?_, ?_⟩
  · simp [readLines, readFace, vertexIndicesOf, normalIndicesOf, faceVertex]
  · simp [readObj, bareFile, readLines, readFace, vertexIndicesOf, normalIndicesOf, faceVertex]

end LoaderProofs

/-! ## The bitmap writer, the primary rays, and further properties of the integrator -/

section ImageProofs

/-- Clearing the two low bits of a natural number: `m & ~3 = m - m % 4`. -/
theorem ldiff_three (m : Nat) : Nat.ldiff m 3 = m - m % 4 := by
  apply Nat.eq_of_testBit_eq
  intro i
  rw [Nat.testBit_ldiff]
  have h3 : (3 : Nat) = 2 ^ 2 - 1 := by norm_num
  have hm : m - m % 4 = 2 ^ 2 * (m / 4) := by omega
  rw [h3, Nat.testBit_two_pow_sub_one, hm, Nat.testBit_mul_pow_two]
  by_cases h : i < 2
  · simp [h]
  · have h2 : 2 ≤ i := by omega
    simp only [h, h2, decide_True, decide_False, Bool.not_false, Bool.and_true, Bool.true_and]
    have : m / 4 = m >>> 2 := by simp [Nat.shiftRight_eq_div_pow]
    rw [this, Nat.testBit_shiftRight]
    congr 1
    omega

/-- The same on a non-negative `int`. -/
theorem land_not_three (x : Int) (hx : 0 ≤ x) : Int.land x (Int.lnot 3) = x - x % 4 := by
  obtain ⟨m, rfl⟩ := Int.eq_ofNat_of_zero_le hx
  have : Int.lnot 3 = Int.negSucc 3 := rfl
  rw [this]
  show ((Nat.ldiff m 3 : Nat) : Int) = _
  rw [ldiff_three]
  omega

/-- The row stride for a non-negative width. -/
theorem rowSizeOf_eq (w : Int) (hw : 0 ≤ w) : rowSizeOf w = 3 * w + 3 - (3 * w + 3) % 4 := by
  unfold rowSizeOf
  exact land_not_three _ (by omega)

/-- With `3 * width + 3` representable the `int` computation of `rowSize` does not overflow. -/
theorem rowSizeInt_eq (w : Int) (hw : 0 ≤ w) (h3 : 3 * w + 3 < 2 ^ 31) :
    rowSizeInt w = some (rowSizeOf w) := by
  have h1 : checkedInt (3 * w) = some (3 * w) := by
    unfold checkedInt
    rw [if_pos (by constructor <;> omega)]
  have h2 : checkedInt (3 * w + 3) = some (3 * w + 3) := by
    unfold checkedInt
    rw [if_pos (by constructor <;> omega)]
  simp only [rowSizeInt, h1, h2, rowSizeOf]

/-- C21, as amended.  For a width `w >= 0` with `3w + 3` representable as a 32-bit `int`, the
stride `rowSize = (3w + 3) & ~3` is computed without overflow, is a multiple of 4, satisfies
`0 <= rowSize - 3w <= 3` and is the least multiple of 4 that is `>= 3w`; and for a height
`h >= 0` for which `rowSize · h` is representable as well (header sizes below `2^32`),
`createBMPHeaders` sets `biSizeImage = rowSize · h` and `bfSize = bfOffBits + rowSize · h`. -/
theorem rowSize_and_header_sizes (sizeofFileHeader sizeofInfoHeader : Nat) (w h : Int)
    (hw : 0 ≤ w) (h3 : 3 * w + 3 < 2 ^ 31) (hh : 0 ≤ h) (hwh : rowSizeOf w * h < 2 ^ 31)
    (hs : sizeofFileHeader + sizeofInfoHeader < 2 ^ 32) :
    rowSizeInt w = some (rowSizeOf w) ∧
    rowSizeOf w % 4 = 0 ∧ 3 * w ≤ rowSizeOf w ∧ rowSizeOf w - 3 * w ≤ 3 ∧
    (∀ m : Int, m % 4 = 0 → 3 * w ≤ m → rowSizeOf w ≤ m) ∧
    ∃ hdr : BMPHeaders,
      createBMPHeaders sizeofFileHeader sizeofInfoHeader w h = some hdr ∧
      hdr.bfOffBits = (sizeofFileHeader : Int) + sizeofInfoHeader ∧
      hdr.biSizeImage = rowSizeOf w * h ∧
      hdr.bfSize = hdr.bfOffBits + rowSizeOf w * h := by
  have hr := rowSizeOf_eq w hw
  have hri := rowSizeInt_eq w hw h3
  have hr0 : 0 ≤ rowSizeOf w := by omega
  have hp0 : 0 ≤ rowSizeOf w * h := mul_nonneg hr0 hh
  refine ⟨hri, by omega, by omega, by omega, fun m hm hle => by omega, ?_⟩
  have hc : checkedInt (rowSizeOf w * h) = some (rowSizeOf w * h) := by
    unfold checkedInt
    rw [if_pos (by constructor <;> omega)]
  have hsz : toSizeT ((sizeofFileHeader : Int) + sizeofInfoHeader)
      = (sizeofFileHeader : Int) + sizeofInfoHeader := by
    unfold toSizeT
    omega
  have hsi : toSizeT (rowSizeOf w * h) = rowSizeOf w * h := by
    unfold toSizeT
    omega
  have hsum : toSizeT ((sizeofFileHeader : Int) + sizeofInfoHeader + rowSizeOf w * h)
      = (sizeofFileHeader : Int) + sizeofInfoHeader + rowSizeOf w * h := by
    unfold toSizeT
    omega
  simp only [createBMPHeaders, hri, hc, hsz, hsi, hsum]
  exact ⟨_, rfl, rfl, rfl, rfl⟩

/-- The stride of a row of 5 pixels is 16 bytes. -/
theorem rowSizeOf_five : rowSizeOf 5 = 16 := by
  rw [rowSizeOf_eq 5 (by norm_num)]
  norm_num

/-- The stride of a row of 1 pixel is 4 bytes. -/
theorem rowSizeOf_one : rowSizeOf 1 = 4 := by
  rw [rowSizeOf_eq 1 (by norm_num)]
  norm_num

/-- C21, as amended, on a 5 x 7 image with headers of 14 and 40 bytes: stride 16,
`biSizeImage = 112`, `bfOffBits = 54`, `bfSize = 166`. -/
theorem rowSize_and_header_sizes_witness :
    (0 : Int) ≤ 5 ∧ (3 * 5 + 3 : Int) < 2 ^ 31 ∧ (0 : Int) ≤ 7 ∧ rowSizeOf 5 * 7 < 2 ^ 31 ∧
    14 + 40 < 2 ^ 32 ∧ rowSizeOf 5 = 16 ∧
    createBMPHeaders 14 40 5 7 = some
      { bfType := 0x4D42, bfSize := 166, bfReserved1 := 0, bfReserved2 := 0, bfOffBits := 54,
        biSize := 40, biWidth := 5, biHeight := 7, biPlanes := 1, biBitCount := 24,
        biCompression := 0, biSizeImage := 112, biXPelsPerMeter := 0, biYPelsPerMeter := 0,
        biClrUsed := 0, biClrImportant := 0 } ∧
    (rowSizeInt 5 = some (rowSizeOf 5) ∧
      rowSizeOf 5 % 4 = 0 ∧ 3 * 5 ≤ rowSizeOf 5 ∧ rowSizeOf 5 - 3 * 5 ≤ 3 ∧
      (∀ m : Int, m % 4 = 0 → 3 * 5 ≤ m → rowSizeOf 5 ≤ m) ∧
      ∃ hdr : BMPHeaders,
        createBMPHeaders 14 40 5 7 = some hdr ∧
        hdr.bfOffBits = ((14 : Nat) : Int) + (40 : Nat) ∧
        hdr.biSizeImage = rowSizeOf 5 * 7 ∧
        hdr.bfSize = hdr.bfOffBits + rowSizeOf 5 * 7) :=
  have h5 : rowSizeOf 5 * 7 < 2 ^ 31 := by rw [rowSizeOf_five]; norm_num
  ⟨by norm_num, by norm_num, by norm_num, h5, by norm_num, rowSizeOf_five,
    by
      rw [createBMPHeaders, rowSizeInt_eq 5 (by norm_num) (by norm_num), rowSizeOf_five]
      simp [checkedInt, toSizeT],
    rowSize_and_header_sizes 14 40 5 7 (by norm_num) (by norm_num) (by norm_num) h5
      (by norm_num)⟩

/-- C21 fails as stated.  Width 1 (stride 4, `3w + 3 = 6`) and height `2^30`: the `int`
product `rowSize * height` is `2^32`, which no 32-bit `int` holds, so no header field can
be `rowSize · height`. -/
theorem header_sizes_overflow :
    (0 : Int) ≤ 1 ∧ (3 * 1 + 3 : Int) < 2 ^ 31 ∧ rowSizeInt 1 = some 4 ∧
    (4 : Int) * 2 ^ 30 = 2 ^ 32 ∧ checkedInt (4 * 2 ^ 30) = none ∧
    createBMPHeaders 14 40 1 (2 ^ 30) = none := by
  have h1 : rowSizeInt 1 = some 4 := by
    rw [rowSizeInt_eq 1 (by norm_num) (by norm_num), rowSizeOf_one]
  have hc : checkedInt (4 * 2 ^ 30) = none := by
    unfold checkedInt
    rw [if_neg (by norm_num)]
  refine ⟨by norm_num, by norm_num, h1, by norm_num, hc, ?_⟩
  simp only [createBMPHeaders, h1, hc]

end ImageProofs

section ImageRowProofs

variable {K : Type} [LinearOrderedField K] [FloorRing K]

/-- The byte of the channel value `0` is `0`. -/
theorem toByte_zero : toByte (0 : K) = 0 := by
  have h : clamp (0 : K) 0 1 = 0 := by simp [clamp]
  have h2 : (0 : K) ≤ 0 * 255 + 1 / 2 := by norm_num
  rw [toByte, h, truncToInt, if_pos h2, Int.floor_eq_iff]
  constructor <;> norm_num

/-- For a non-negative width `diff * 3 <= 0`: the padding loop makes no iteration. -/
theorem padding_bound (w : Nat) : (((w : Int) - rowSizeOf w) * 3).toNat = 0 := by
  have hr := rowSizeOf_eq (w : Int) (by omega)
  have : ((w : Int) - rowSizeOf w) * 3 ≤ 0 := by omega
  omega

/-- C26 on the 1 x 1 image whose pixel is `(0,0,0)`: the row written is `00 00 00` followed
by the byte the row buffer held at index 3 before (`CC` when the buffer was filled with
`0xCC`), not `00 00 00 00`.  The cause, for every width `w >= 0`: `diff = width - rowSize`
is not positive, so the loop `for (i = 0; i < diff*3; i++) row[width*3 + i] = 0` makes no
iteration and leaves the row as it is. -/
theorem saveImageBMP_padding_not_zeroed (sizeofFileHeader sizeofInfoHeader : Nat)
    (prior : Nat → Int) :
    (Image.saveImageBMP sizeofFileHeader sizeofInfoHeader
      (⟨1, 1, [⟨0, 0, 0⟩]⟩ : Image K) prior).map Prod.snd = some [[0, 0, 0, prior 3]] ∧
    (Image.saveImageBMP sizeofFileHeader sizeofInfoHeader
      (⟨1, 1, [⟨0, 0, 0⟩]⟩ : Image K) (fun _ => 204)).map Prod.snd = some [[0, 0, 0, 204]] ∧
    ∀ (w : Nat) (row : List Int),
      paddingLoop (w : Int) (((w : Int) - rowSizeOf w) * 3).toNat 0 row = some row := by
  have h1 : rowSizeInt 1 = some 4 := by
    rw [rowSizeInt_eq 1 (by norm_num) (by norm_num), rowSizeOf_one]
  have hc : checkedInt (4 * 1) = some 4 := by
    unfold checkedInt
    rw [if_pos (by norm_num)]
    norm_num
  have hd : checkedInt (1 - 4) = some (-3) := by
    unfold checkedInt
    rw [if_pos (by norm_num)]
    norm_num
  have hrun : ∀ prior : Nat → Int,
      (Image.saveImageBMP sizeofFileHeader sizeofInfoHeader
        (⟨1, 1, [⟨0, 0, 0⟩]⟩ : Image K) prior).map Prod.snd = some [[0, 0, 0, prior 3]] := by
    intro prior
    simp only [Image.saveImageBMP, createBMPHeaders, h1, hc, hd]
    simp [rowsLoop, pixelLoop, paddingLoop, Image.getColor, Image.toIndex, vectorIdx, storeAt,
      Vec3.get, toByte_zero, List.range_succ]
  refine ⟨hrun prior, hrun _, ?_⟩
  intro w row
  rw [padding_bound]
  rfl

end ImageRowProofs

section CullingProofs

variable {K : Type} [LinearOrderedField K]

/-- Exchanging the two edges changes the sign of the determinant `a` of `triangleIntersect`. -/
theorem alpha_swap (d e1 e2 : Vec3 K) : dot (cross d e1) e2 = - dot (cross d e2) e1 := by
  simp only [dot, cross]
  ring

/-- C23.  For every ray `(O, D)` and triangle `(a, b, c)`: `triangleIntersect` reports a miss
unless `D · ((b-a) × (c-a)) <= -1e-5`, and it reports a miss on the triangle or on its
reversed-winding twin `(a, c, b)` (whatever the twin's emission and material): never a hit
on both. -/
theorem triangleIntersect_culls_back_faces (tri : Triangle K) (r : Ray K) (e : Vec3 K)
    (m : BSDF) :
    (triangleIntersect tri r = miss ∨
      dot r.dir (cross (Vec3.sub tri.b.pt tri.a.pt) (Vec3.sub tri.c.pt tri.a.pt)) ≤ -EPS) ∧
    (triangleIntersect tri r = miss ∨
      triangleIntersect ⟨tri.a, tri.c, tri.b, e, m⟩ r = miss) := by
  by_cases h : triangleIntersect tri r = miss
  · exact ⟨Or.inl h, Or.inl h⟩
  · have ha := (hit_spec tri r h).1
    rw [dot_cross_swap] at ha
    refine ⟨Or.inr (by linarith), Or.inr ?_⟩
    apply triangleIntersect_of_alpha_lt
    show dot (cross r.dir (Vec3.sub tri.b.pt tri.a.pt)) (Vec3.sub tri.c.pt tri.a.pt) < EPS
    rw [alpha_swap, dot_cross_swap]
    have := EPS_pos (K := K)
    linarith

/-- What an accepted hit returns: the parameter and the triple by their formulas. -/
theorem hit_result (tri : Triangle K) (r : Ray K) (h : triangleIntersect tri r ≠ miss) :
    EPS ≤ dot (cross r.dir (Vec3.sub tri.c.pt tri.a.pt)) (Vec3.sub tri.b.pt tri.a.pt) ∧
    triangleIntersect tri r =
      (1 / dot (cross r.dir (Vec3.sub tri.c.pt tri.a.pt)) (Vec3.sub tri.b.pt tri.a.pt) *
        dot (Vec3.sub tri.c.pt tri.a.pt)
          (cross (Vec3.sub r.orig tri.a.pt) (Vec3.sub tri.b.pt tri.a.pt)),
       ⟨1 / dot (cross r.dir (Vec3.sub tri.c.pt tri.a.pt)) (Vec3.sub tri.b.pt tri.a.pt) *
          dot (Vec3.sub r.orig tri.a.pt) (cross r.dir (Vec3.sub tri.c.pt tri.a.pt)),
        1 / dot (cross r.dir (Vec3.sub tri.c.pt tri.a.pt)) (Vec3.sub tri.b.pt tri.a.pt) *
          dot r.dir (cross (Vec3.sub r.orig tri.a.pt) (Vec3.sub tri.b.pt tri.a.pt)),
        1 - 1 / dot (cross r.dir (Vec3.sub tri.c.pt tri.a.pt)) (Vec3.sub tri.b.pt tri.a.pt) *
          dot (Vec3.sub r.orig tri.a.pt) (cross r.dir (Vec3.sub tri.c.pt tri.a.pt)) -
        1 / dot (cross r.dir (Vec3.sub tri.c.pt tri.a.pt)) (Vec3.sub tri.b.pt tri.a.pt) *
          dot r.dir (cross (Vec3.sub r.orig tri.a.pt) (Vec3.sub tri.b.pt tri.a.pt))⟩) := by
  rw [triangleIntersect_eq_ite] at h ⊢
  split_ifs at h ⊢ with hc
  · exact ⟨hc.1, rfl⟩
  · exact absurd rfl h

/-- C27.  When `triangleIntersect` returns a hit with parameter `t` and triple `P`, the hit
point is `O + t·D = a + P[0]·(b-a) + P[1]·(c-a) = P[2]·a + P[0]·b + P[1]·c` with
`P[2] = 1 - P[0] - P[1]`: the first component is the weight of `b`, the second of `c`, the
third of `a`. -/
theorem hit_point_barycentric (tri : Triangle K) (r : Ray K)
    (h : triangleIntersect tri r ≠ miss) :
    r.pointAt (triangleIntersect tri r).1 =
      Vec3.add (Vec3.add tri.a.pt
        (Vec3.lscale (triangleIntersect tri r).2.x (Vec3.sub tri.b.pt tri.a.pt)))
        (Vec3.lscale (triangleIntersect tri r).2.y (Vec3.sub tri.c.pt tri.a.pt)) ∧
    r.pointAt (triangleIntersect tri r).1 =
      Vec3.add (Vec3.add (Vec3.lscale (triangleIntersect tri r).2.z tri.a.pt)
        (Vec3.lscale (triangleIntersect tri r).2.x tri.b.pt))
        (Vec3.lscale (triangleIntersect tri r).2.y tri.c.pt) ∧
    (triangleIntersect tri r).2.z =
      1 - (triangleIntersect tri r).2.x - (triangleIntersect tri r).2.y := by
  obtain ⟨ha, hres⟩ := hit_result tri r h
  have hne : dot (cross r.dir (Vec3.sub tri.c.pt tri.a.pt)) (Vec3.sub tri.b.pt tri.a.pt) ≠ 0 :=
    (lt_of_lt_of_le EPS_pos ha).ne'
  rw [hres]
  obtain ⟨⟨dx, dy, dz⟩, ⟨ox, oy, oz⟩⟩ := r
  obtain ⟨⟨⟨ax, ay, az⟩, _, _⟩, ⟨⟨bx, b_y, bz⟩, _, _⟩, ⟨⟨cx, cy, cz⟩, _, _⟩, _, _⟩ := tri
  simp only [dot, cross, Vec3.sub, Ray.pointAt, Vec3.add, Vec3.scale, Vec3.lscale,
    Vec3.mk.injEq] at hne ⊢
  refine ⟨⟨?_, ?_, ?_⟩, ⟨?_, ?_, ?_⟩, trivial⟩ <;>
  · field_simp
    ring

end CullingProofs

section DriverProofs

variable {K : Type} [LinearOrderedField K]

/-- One coordinate of the pixel-plane point for a viewport of size 1: its value and its
range. -/
theorem pixel_coordinate_range (W i : Int) (du : K) (hW : 1 ≤ W) (hi0 : 0 ≤ i) (hi : i < W)
    (hd0 : 0 ≤ du) (hd1 : du < 1) :
    ((i : K) + 1 * du - 1 / 2 - (W : K) / 2) * (1 / (W : K))
      = (((i : K) + du - 1 / 2) - (W : K) / 2) / (W : K) ∧
    -(1 / 2) - 1 / (2 * (W : K)) ≤ ((i : K) + 1 * du - 1 / 2 - (W : K) / 2) * (1 / (W : K)) ∧
    ((i : K) + 1 * du - 1 / 2 - (W : K) / 2) * (1 / (W : K)) < 1 / 2 - 1 / (2 * (W : K)) := by
  have hWK : (0 : K) < (W : K) := by exact_mod_cast (by omega : (0 : Int) < W)
  have hiK : (0 : K) ≤ (i : K) := by exact_mod_cast hi0
  have hiW : (i : K) + 1 ≤ (W : K) := by exact_mod_cast (by omega : i + 1 ≤ W)
  refine ⟨by field_simp, ?_, ?_⟩
  · rw [← sub_nonneg]
    have : ((i : K) + 1 * du - 1 / 2 - (W : K) / 2) * (1 / (W : K)) - (-(1 / 2) - 1 / (2 * (W : K)))
        = ((i : K) + du) / (W : K) := by
      field_simp
      ring
    rw [this]
    positivity
  · rw [← sub_pos]
    have : 1 / 2 - 1 / (2 * (W : K)) - ((i : K) + 1 * du - 1 / 2 - (W : K) / 2) * (1 / (W : K))
        = ((W : K) - ((i : K) + du)) / (W : K) := by
      field_simp
      ring
    rw [this]
    apply div_pos _ hWK
    linarith

/-- C24, as amended.  For `W, H >= 1`, a pixel `0 <= i < W`, `0 <= j < H` and a jitter in
`[0,1)²`, with the viewport of `main` (width 1, height 1): the pixel-plane point is
`a = <((i+du-0.5) - W/2)/W, ((j+dv-0.5) - H/2)/H, 0>`, the primary ray is
`(a - C, C)` with `C = (0,0,1)`, and `-1/2 - 1/(2W) <= a.x < 1/2 - 1/(2W)`,
`-1/2 - 1/(2H) <= a.y < 1/2 - 1/(2H)`: the upper bound `1/2` holds, the lower bound `-1/2`
holds exactly when `i + du >= 1/2` (`j + dv >= 1/2`). -/
theorem pixelPlanePoint_range (W H i j : Int) (du dv : K) (hW : 1 ≤ W) (hH : 1 ≤ H)
    (hi0 : 0 ≤ i) (hi : i < W) (hj0 : 0 ≤ j) (hj : j < H)
    (hdu0 : 0 ≤ du) (hdu1 : du < 1) (hdv0 : 0 ≤ dv) (hdv1 : dv < 1) :
    pixelPlanePoint W H 1 1 i j du dv =
      ⟨(((i : K) + du - 1 / 2) - (W : K) / 2) / (W : K),
        (((j : K) + dv - 1 / 2) - (H : K) / 2) / (H : K), 0⟩ ∧
    primaryRay W H 1 1 i j du dv =
      ⟨Vec3.sub (pixelPlanePoint W H 1 1 i j du dv) ⟨0, 0, 1⟩, ⟨0, 0, 1⟩⟩ ∧
    -(1 / 2) - 1 / (2 * (W : K)) ≤ (pixelPlanePoint W H 1 1 i j du dv).x ∧
    (pixelPlanePoint W H 1 1 i j du dv).x < 1 / 2 - 1 / (2 * (W : K)) ∧
    -(1 / 2) - 1 / (2 * (H : K)) ≤ (pixelPlanePoint W H 1 1 i j du dv).y ∧
    (pixelPlanePoint W H 1 1 i j du dv).y < 1 / 2 - 1 / (2 * (H : K)) ∧
    (pixelPlanePoint W H 1 1 i j du dv).x < 1 / 2 ∧
    (pixelPlanePoint W H 1 1 i j du dv).y < 1 / 2 ∧
    ((1 : K) / 2 ≤ (i : K) + du → -(1 / 2) ≤ (pixelPlanePoint W H 1 1 i j du dv).x) ∧
    ((1 : K) / 2 ≤ (j : K) + dv → -(1 / 2) ≤ (pixelPlanePoint W H 1 1 i j du dv).y) := by
  obtain ⟨hx, hx1, hx2⟩ := pixel_coordinate_range W i du hW hi0 hi hdu0 hdu1
  obtain ⟨hy, hy1, hy2⟩ := pixel_coordinate_range H j dv hH hj0 hj hdv0 hdv1
  have hWK : (0 : K) < (W : K) := by exact_mod_cast (by omega : (0 : Int) < W)
  have hHK : (0 : K) < (H : K) := by exact_mod_cast (by omega : (0 : Int) < H)
  have hW2 : (0 : K) < 1 / (2 * (W : K)) := by positivity
  have hH2 : (0 : K) < 1 / (2 * (H : K)) := by positivity
  refine ⟨?_, rfl, hx1, hx2, hy1, hy2, ?_, ?_, ?_, ?_⟩
  · simp only [pixelPlanePoint, hx, hy]
  · exact lt_trans hx2 (by linarith)
  · exact lt_trans hy2 (by linarith)
  · intro h
    show -(1 / 2) ≤ ((i : K) + 1 * du - 1 / 2 - (W : K) / 2) * (1 / (W : K))
    rw [hx, le_div_iff₀ hWK]
    linarith
  · intro h
    show -(1 / 2) ≤ ((j : K) + 1 * dv - 1 / 2 - (H : K) / 2) * (1 / (H : K))
    rw [hy, le_div_iff₀ hHK]
    linarith

/-- C24, as amended, for the 2000 x 2000 image of `main` at pixel `(1999, 0)` with jitter
`(3/4, 1/4)`: `a = (3997/8000, -4001/8000, 0)`. -/
theorem pixelPlanePoint_range_witness :
    (1 : Int) ≤ 2000 ∧ (1 : Int) ≤ 2000 ∧ (0 : Int) ≤ 1999 ∧ (1999 : Int) < 2000 ∧
    (0 : Int) ≤ 0 ∧ (0 : Int) < 2000 ∧ (0 : ℚ) ≤ 3 / 4 ∧ (3 / 4 : ℚ) < 1 ∧
    (0 : ℚ) ≤ 1 / 4 ∧ (1 / 4 : ℚ) < 1 ∧
    pixelPlanePoint 2000 2000 (1 : ℚ) 1 1999 0 (3 / 4) (1 / 4) = ⟨3997 / 8000, -4001 / 8000, 0⟩ ∧
    -(1 / 2) - 1 / (2 * ((2000 : Int) : ℚ)) ≤
      (pixelPlanePoint 2000 2000 (1 : ℚ) 1 1999 0 (3 / 4) (1 / 4)).y ∧
    (pixelPlanePoint 2000 2000 (1 : ℚ) 1 1999 0 (3 / 4) (1 / 4)).x <
      1 / 2 - 1 / (2 * ((2000 : Int) : ℚ)) :=
  have h := pixelPlanePoint_range (K := ℚ) 2000 2000 1999 0 (3 / 4) (1 / 4) (by norm_num)
    (by norm_num) (by norm_num) (by norm_num) (by norm_num) (by norm_num) (by norm_num)
    (by norm_num) (by norm_num) (by norm_num)
  ⟨by norm_num, by norm_num, by norm_num, by norm_num, by norm_num, by norm_num, by norm_num,
    by norm_num, by norm_num, by norm_num, by norm_num [pixelPlanePoint], h.2.2.2.2.1,
    h.2.2.2.1⟩

/-- C24 fails as stated.  For the 2000 x 2000 image of `main`, pixel `(0, 0)` and jitter
`(0, 0)`: `a = (-2001/4000, -2001/4000, 0)`, left of and below the viewport. -/
theorem pixelPlanePoint_outside_viewport :
    (1 : Int) ≤ 2000 ∧ (0 : Int) ≤ 0 ∧ (0 : Int) < 2000 ∧ (0 : ℚ) ≤ 0 ∧ (0 : ℚ) < 1 ∧
    pixelPlanePoint 2000 2000 (1 : ℚ) 1 0 0 0 0 = ⟨-2001 / 4000, -2001 / 4000, 0⟩ ∧
    ¬ (-(1 / 2) ≤ (pixelPlanePoint 2000 2000 (1 : ℚ) 1 0 0 0 0).x) ∧
    ¬ (-(1 / 2) ≤ (pixelPlanePoint 2000 2000 (1 : ℚ) 1 0 0 0 0).y) := by
  refine ⟨by norm_num, by norm_num, by norm_num, by norm_num, by norm_num, ?_, ?_, ?_⟩ <;>
    norm_num [pixelPlanePoint]

end DriverProofs

section LightIndex

variable {K : Type} [LinearOrderedField K] [FloorRing K]

/-- For `L >= 1` and `u` in `[0,1)` the truncation of `u · L` is an index of the list. -/
theorem light_index_bounds (L : Nat) (u : K) (hL : 1 ≤ L) (hu0 : 0 ≤ u) (hu1 : u < 1) :
    0 ≤ truncToInt (u * (L : K)) ∧ truncToInt (u * (L : K)) < (L : Int) := by
  have hLK : (0 : K) < (L : K) := by exact_mod_cast hL
  have hx0 : 0 ≤ u * (L : K) := mul_nonneg hu0 hLK.le
  have hx1 : u * (L : K) < (L : K) := by nlinarith
  rw [truncToInt, if_pos hx0]
  refine ⟨Int.floor_nonneg.mpr hx0, ?_⟩
  rw [Int.floor_lt]
  exact_mod_cast hx1

/-- C25.  For an emissive list of length `L >= 1` and a first sampler value `u` in `[0,1)`,
the index `static_cast<int>(u · L)` of `nextEventEstimation` satisfies `0 <= index < L`,
the lookup `lights.at(index)` returns a triangle of the list, and `nextEventEstimation`
returns normally whenever the hit record carries a triangle. -/
theorem nee_light_index_in_range (M : CMath K) (wo : Vec3 K) (objects lights : List (Triangle K))
    (sample : SimpleSampler K) (reflector : BSDF) (intersect : Intersection K) (light_pdf : K)
    (hL : 1 ≤ lights.length)
    (hu : 0 ≤ sample.get1D.1 ∧ sample.get1D.1 < 1) :
    0 ≤ truncToInt (sample.get1D.1 * (lights.length : K)) ∧
    truncToInt (sample.get1D.1 * (lights.length : K)) < (lights.length : Int) ∧
    (∃ l ∈ lights, vectorAt lights (truncToInt (sample.get1D.1 * (lights.length : K))) = some l) ∧
    (intersect.hitTri ≠ none →
      nextEventEstimation M wo objects lights sample reflector intersect light_pdf ≠ none) := by
  obtain ⟨h0, h1⟩ := light_index_bounds lights.length sample.get1D.1 hL hu.1 hu.2
  have hlt : (truncToInt (sample.get1D.1 * (lights.length : K))).toNat < lights.length := by
    omega
  have hat : vectorAt lights (truncToInt (sample.get1D.1 * (lights.length : K))) =
      some (lights.get ⟨_, hlt⟩) := by
    rw [vectorAt, if_pos h0, List.get?_eq_get hlt]
  refine ⟨h0, h1, ⟨_, List.get_mem _ _ _, hat⟩, ?_⟩
  intro hh
  obtain ⟨X, hX⟩ := Option.ne_none_iff_exists'.mp hh
  simp only [nextEventEstimation, hat, hX]
  split_ifs <;> simp

end LightIndex

section DepthOne

variable {K : Type} [LinearOrderedField K] [FloorRing K]

end DepthOne

section LambertSample

variable {K : Type} [LinearOrderedField K]

/-- The real `sin` and `cos` satisfy `sin² + cos² = 1`. -/
theorem real_isSinCos :
    (⟨Real.sqrt, Real.sin, Real.cos, Real.arccos, fun x y => x ^ y⟩ : CMath ℝ).IsSinCos := by
  intro x
  show Real.sin x * Real.sin x + Real.cos x * Real.cos x = 1
  have := Real.sin_sq_add_cos_sq x
  nlinarith [this]

/-- The direction sampled by `simpleDiffuseBSDF::sample_f` has squared length 1. -/
theorem diffuse_sample_unit (M : CMath K) (hS : M.IsSinCos) (wi color : Vec3 K)
    (sample : SimpleSampler K) :
    Vec3.lengthSquared (simpleDiffuseBSDF.sample_f M wi color sample).2.1 = 1 := by
  simp only [simpleDiffuseBSDF.sample_f, Vec3.lengthSquared, SimpleSampler.get2D]
  have h1 := hS (M.acos (M.sqrt (sample.stream sample.pos)))
  have h2 := hS (2 * PI * (sample.stream (sample.pos + 1)))
  linear_combination
    (M.sin (M.acos (M.sqrt (sample.stream sample.pos))) * M.sin (M.acos (M.sqrt (sample.stream sample.pos)))) * h2 + h1

/-- With the first draw `u1 = 0` the sampled direction has `z = 0` and the pdf is 0. -/
theorem diffuse_sample_pdf_zero (M : CMath K) (hM : M.IsSqrt) (hC : M.IsCosAcos)
    (wi color : Vec3 K) (sample : SimpleSampler K) (h0 : (sample.stream sample.pos) = 0) :
    (simpleDiffuseBSDF.sample_f M wi color sample).2.2.1 = 0 := by
  have hz : M.cos (M.acos (M.sqrt (sample.stream sample.pos))) = 0 := by
    rw [h0, sqrt_zero_eq M hM]
    exact hC 0 le_rfl zero_le_one
  simp only [simpleDiffuseBSDF.sample_f, simpleDiffuseBSDF.pdf, SimpleSampler.get2D, hz]
  rw [if_pos le_rfl]

/-- The view-filling triangle alone, seen through the centre of the viewport: the hit
record. -/
theorem view_scene (col e : Vec3 K) (m : BSDF) :
    sceneIntersection [viewTri K col e m] (camRay K) MAX_T
      = hitRecord (camRay K) (viewTri K col e m) :=
  scene_single_hit _ _ (by rw [viewTri_camRay]; simp [miss])
    (by rw [viewTri_camRay]; norm_num [MAX_T])

variable [FloorRing K]

/-- C28.  For the Lambertian BSDF, every `wi`, colour `c` and first draw `u1 < 1` (`sqrt`
exact, `cos(acos x) = x` on `[0,1]`, `sin² + cos² = 1`): when `u1 > 0`, `sample_f` produces
a `wo` of length 1 with `wo.z = sqrt(u1) > 0` and `pdf = sqrt(u1) / PI > 0`, and the
throughput factor `f_val · |wo.z| / pdf` is `c`; when `u1 = 0` the pdf is 0 and an
iteration of the loop of `Li` at a hit on a Lambertian triangle returns the radiance
accumulated so far. -/
theorem lambert_sample_throughput (M : CMath K) (hM : M.IsSqrt) (hC : M.IsCosAcos)
    (hS : M.IsSinCos) (wi color : Vec3 K) (sample : SimpleSampler K)
    (hu1 : sample.stream sample.pos < 1) :
    (0 < (sample.stream sample.pos) →
      Vec3.lengthSquared (simpleDiffuseBSDF.sample_f M wi color sample).2.1 = 1 ∧
      Vec3.length M (simpleDiffuseBSDF.sample_f M wi color sample).2.1 = 1 ∧
      (simpleDiffuseBSDF.sample_f M wi color sample).2.1.z = M.sqrt (sample.stream sample.pos) ∧
      0 < (simpleDiffuseBSDF.sample_f M wi color sample).2.1.z ∧
      (simpleDiffuseBSDF.sample_f M wi color sample).2.2.1 = M.sqrt (sample.stream sample.pos) / PI ∧
      0 < (simpleDiffuseBSDF.sample_f M wi color sample).2.2.1 ∧
      Vec3.div
        (Vec3.scale (simpleDiffuseBSDF.sample_f M wi color sample).1
          |(simpleDiffuseBSDF.sample_f M wi color sample).2.1.z|)
        (simpleDiffuseBSDF.sample_f M wi color sample).2.2.1 = color) ∧
    ((sample.stream sample.pos) = 0 →
      (simpleDiffuseBSDF.sample_f M wi color sample).2.2.1 = 0 ∧
      ∀ (objects lights : List (Triangle K)) (n : Nat) (Li beta : Vec3 K) (r : Ray K)
        (s0 : SimpleSampler K) (X : Triangle K) (nee : Vec3 K) (light_pdf : K),
        (sceneIntersection objects r MAX_T).valid = true →
        (sceneIntersection objects r MAX_T).hitTri = some X →
        X.material = BSDF.simpleDiffuse →
        nextEventEstimation M
          (toLocal M (Vec3.neg r.direction) (unit M (sceneIntersection objects r MAX_T).normal))
          objects lights s0 X.material (sceneIntersection objects r MAX_T) 0
          = some (nee, light_pdf, sample) →
        LiLoop M objects lights (n + 1) Li beta r s0 = some (Li, ⟨sample.stream, sample.pos + 2⟩)) := by
  constructor
  · intro hpos
    obtain ⟨hf, hz, hpdf, _⟩ := diffuse_sample_f M hM hC wi color sample ⟨hpos, hu1.le⟩
    obtain ⟨hz0, _⟩ := sqrt_pos_le_one M hM _ hpos hu1.le
    have hpi : (0 : K) < PI := PI_pos
    have hls := diffuse_sample_unit M hS wi color sample
    refine ⟨hls, ?_, hz, by rw [hz]; exact hz0, hpdf, by rw [hpdf]; exact div_pos hz0 hpi, ?_⟩
    · rw [Vec3.length, hls, sqrt_one_eq M hM]
    · rw [hf, hz, hpdf, abs_of_pos hz0]
      obtain ⟨c1, c2, c3⟩ := color
      have hs : M.sqrt (sample.stream sample.pos) ≠ 0 := hz0.ne'
      simp only [Vec3.scale, Vec3.div, Vec3.mk.injEq]
      refine ⟨?_, ?_, ?_⟩ <;> field_simp
  · intro h0
    refine ⟨diffuse_sample_pdf_zero M hM hC wi color sample h0, ?_⟩
    intro objects lights n Li beta r s0 X nee light_pdf hv hX hmat hnee
    have hp : (X.material.sample_f M
        (toLocal M (Vec3.neg r.direction) (unit M (sceneIntersection objects r MAX_T).normal))
        (sceneIntersection objects r MAX_T).baseColor sample).2.2.1 ≤ 0 := by
      rw [hmat]
      exact (diffuse_sample_pdf_zero M hM hC _ _ sample h0).le
    rw [LiLoop_break_of_pdf_nonpos M objects lights n Li beta r s0 sample X nee light_pdf
      hv hX hnee hp, hmat]
    rfl

/-- Next-event estimation at that hit, the triangle being the only light: the shadow ray
cannot reach the triangle it starts from, the contribution is zero. -/
theorem view_nee (M : CMath K) (wo col e : Vec3 K) (m : BSDF) (sample : SimpleSampler K)
    (reflector : BSDF) (light_pdf : K)
    (hs0 : 0 ≤ sample.stream sample.pos ∧ sample.stream sample.pos < 1) :
    nextEventEstimation M wo [viewTri K col e m] [viewTri K col e m] sample reflector
      (sceneIntersection [viewTri K col e m] (camRay K) MAX_T) light_pdf
      = some (⟨0, 0, 0⟩, light_pdf, ⟨sample.stream, sample.pos + 3⟩) := by
  rw [view_scene]
  exact nee_same_triangle M wo _ _ sample reflector light_pdf
    (by rw [viewTri_camRay]; simp [miss]) hs0

end LambertSample

section ClosingWitnesses

/-- C25 on a list of two lights with first draw `3/4`: the index is 1. -/
theorem nee_light_index_in_range_witness :
    1 ≤ ([lampTri ℝ ⟨-1, 0, 0⟩ ⟨1, 1, 1⟩ ⟨1, 1, 1⟩ BSDF.simpleDiffuse,
      backLampTri ℝ ⟨-1, 0, 0⟩ ⟨1, 1, 1⟩ ⟨1, 1, 1⟩ BSDF.simpleDiffuse]).length ∧
    ((0 : ℝ) ≤ 3 / 4 ∧ (3 / 4 : ℝ) < 1) ∧
    truncToInt ((3 / 4 : ℝ) * ((2 : Nat) : ℝ)) = 1 ∧
    (0 ≤ truncToInt ((⟨fun _ => 3 / 4, 0⟩ : SimpleSampler ℝ).get1D.1 *
        ((([lampTri ℝ ⟨-1, 0, 0⟩ ⟨1, 1, 1⟩ ⟨1, 1, 1⟩ BSDF.simpleDiffuse,
      backLampTri ℝ ⟨-1, 0, 0⟩ ⟨1, 1, 1⟩ ⟨1, 1, 1⟩ BSDF.simpleDiffuse]).length : Nat) : ℝ)) ∧
      truncToInt ((⟨fun _ => 3 / 4, 0⟩ : SimpleSampler ℝ).get1D.1 *
        ((([lampTri ℝ ⟨-1, 0, 0⟩ ⟨1, 1, 1⟩ ⟨1, 1, 1⟩ BSDF.simpleDiffuse,
      backLampTri ℝ ⟨-1, 0, 0⟩ ⟨1, 1, 1⟩ ⟨1, 1, 1⟩ BSDF.simpleDiffuse]).length : Nat) : ℝ)) <
        ((([lampTri ℝ ⟨-1, 0, 0⟩ ⟨1, 1, 1⟩ ⟨1, 1, 1⟩ BSDF.simpleDiffuse,
      backLampTri ℝ ⟨-1, 0, 0⟩ ⟨1, 1, 1⟩ ⟨1, 1, 1⟩ BSDF.simpleDiffuse]).length : Nat) : Int) ∧
      (∃ l ∈ [lampTri ℝ ⟨-1, 0, 0⟩ ⟨1, 1, 1⟩ ⟨1, 1, 1⟩ BSDF.simpleDiffuse,
      backLampTri ℝ ⟨-1, 0, 0⟩ ⟨1, 1, 1⟩ ⟨1, 1, 1⟩ BSDF.simpleDiffuse],
        vectorAt [lampTri ℝ ⟨-1, 0, 0⟩ ⟨1, 1, 1⟩ ⟨1, 1, 1⟩ BSDF.simpleDiffuse,
      backLampTri ℝ ⟨-1, 0, 0⟩ ⟨1, 1, 1⟩ ⟨1, 1, 1⟩ BSDF.simpleDiffuse]
          (truncToInt ((⟨fun _ => 3 / 4, 0⟩ : SimpleSampler ℝ).get1D.1 *
            ((([lampTri ℝ ⟨-1, 0, 0⟩ ⟨1, 1, 1⟩ ⟨1, 1, 1⟩ BSDF.simpleDiffuse,
      backLampTri ℝ ⟨-1, 0, 0⟩ ⟨1, 1, 1⟩ ⟨1, 1, 1⟩ BSDF.simpleDiffuse]).length : Nat) : ℝ))) = some l) ∧
      ((hitRecord (camRay ℝ) (viewTri ℝ ⟨1, 1, 1⟩ ⟨2, 3, 4⟩ BSDF.simpleDiffuse)).hitTri ≠ none →
        nextEventEstimation ⟨Real.sqrt, Real.sin, Real.cos, Real.arccos, fun x y => x ^ y⟩ ⟨0, 0, 1⟩
          [(viewTri ℝ ⟨1, 1, 1⟩ ⟨2, 3, 4⟩ BSDF.simpleDiffuse)]
          [lampTri ℝ ⟨-1, 0, 0⟩ ⟨1, 1, 1⟩ ⟨1, 1, 1⟩ BSDF.simpleDiffuse,
      backLampTri ℝ ⟨-1, 0, 0⟩ ⟨1, 1, 1⟩ ⟨1, 1, 1⟩ BSDF.simpleDiffuse]
          ⟨fun _ => 3 / 4, 0⟩ BSDF.simpleDiffuse (hitRecord (camRay ℝ) (viewTri ℝ ⟨1, 1, 1⟩ ⟨2, 3, 4⟩ BSDF.simpleDiffuse)) 0 ≠ none)) :=
  ⟨by decide, by norm_num,
    by
      rw [truncToInt, if_pos (by norm_num), Int.floor_eq_iff]
      constructor <;> norm_num,
    nee_light_index_in_range _ ⟨0, 0, 1⟩ [(viewTri ℝ ⟨1, 1, 1⟩ ⟨2, 3, 4⟩ BSDF.simpleDiffuse)]
      [lampTri ℝ ⟨-1, 0, 0⟩ ⟨1, 1, 1⟩ ⟨1, 1, 1⟩ BSDF.simpleDiffuse,
      backLampTri ℝ ⟨-1, 0, 0⟩ ⟨1, 1, 1⟩ ⟨1, 1, 1⟩ BSDF.simpleDiffuse]
      ⟨fun _ => 3 / 4, 0⟩ BSDF.simpleDiffuse (hitRecord (camRay ℝ) (viewTri ℝ ⟨1, 1, 1⟩ ⟨2, 3, 4⟩ BSDF.simpleDiffuse)) 0
      (by decide) (by norm_num [SimpleSampler.get1D])⟩

/-- C27 on the view-filling triangle `a = (-1,-1,0)`, `b = (3,-1,0)`, `c = (-1,3,0)` and the
ray through the centre of the viewport: `t = 1`, triple `(1/4, 1/4, 1/2)`, hit point
`(0,0,0) = 1/2·a + 1/4·b + 1/4·c`. -/
theorem hit_point_barycentric_witness :
    triangleIntersect (viewTri ℚ ⟨1, 1, 1⟩ ⟨0, 0, 0⟩ BSDF.simpleDiffuse) (camRay ℚ)
      = (1, ⟨1 / 4, 1 / 4, 1 / 2⟩) ∧
    triangleIntersect (viewTri ℚ ⟨1, 1, 1⟩ ⟨0, 0, 0⟩ BSDF.simpleDiffuse) (camRay ℚ) ≠ miss ∧
    (camRay ℚ).pointAt 1 = ⟨0, 0, 0⟩ ∧
    (camRay ℚ).pointAt 1 =
      Vec3.add (Vec3.add (Vec3.lscale (1 / 2) ⟨-1, -1, 0⟩) (Vec3.lscale (1 / 4) ⟨3, -1, 0⟩))
        (Vec3.lscale (1 / 4) ⟨-1, 3, 0⟩) :=
  have hhit : triangleIntersect (viewTri ℚ ⟨1, 1, 1⟩ ⟨0, 0, 0⟩ BSDF.simpleDiffuse) (camRay ℚ)
      ≠ miss := by rw [viewTri_camRay]; simp [miss]
  have h := (hit_point_barycentric (viewTri ℚ ⟨1, 1, 1⟩ ⟨0, 0, 0⟩ BSDF.simpleDiffuse)
    (camRay ℚ) hhit).2.1
  ⟨viewTri_camRay _ _ _, hhit, by norm_num [Ray.pointAt, camRay, Vec3.add, Vec3.scale],
    by
      rw [viewTri_camRay] at h
      exact h⟩

/-- C28 with `u1 = 1/4` for the first part, and with the sampler stream constantly `0` on the
view-filling Lambertian triangle for the second: the loop of `Li` stops in its first
iteration with radiance `(0,0,0)`. -/
theorem lambert_sample_throughput_witness :
    (1 / 4 : ℝ) < 1 ∧ (0 : ℝ) < 1 / 4 ∧ (0 : ℝ) < 1 ∧
    (Vec3.lengthSquared (simpleDiffuseBSDF.sample_f ⟨Real.sqrt, Real.sin, Real.cos, Real.arccos, fun x y => x ^ y⟩
      (⟨0, 0, 1⟩ : Vec3 ℝ) ⟨1, 1 / 2, 1 / 4⟩ ⟨fun _ => 1 / 4, 0⟩).2.1 = 1 ∧
      Vec3.length ⟨Real.sqrt, Real.sin, Real.cos, Real.arccos, fun x y => x ^ y⟩ (simpleDiffuseBSDF.sample_f ⟨Real.sqrt, Real.sin, Real.cos, Real.arccos, fun x y => x ^ y⟩
      (⟨0, 0, 1⟩ : Vec3 ℝ) ⟨1, 1 / 2, 1 / 4⟩ ⟨fun _ => 1 / 4, 0⟩).2.1 = 1 ∧
      (simpleDiffuseBSDF.sample_f ⟨Real.sqrt, Real.sin, Real.cos, Real.arccos, fun x y => x ^ y⟩
      (⟨0, 0, 1⟩ : Vec3 ℝ) ⟨1, 1 / 2, 1 / 4⟩ ⟨fun _ => 1 / 4, 0⟩).2.1.z = Real.sqrt (1 / 4) ∧
      0 < (simpleDiffuseBSDF.sample_f ⟨Real.sqrt, Real.sin, Real.cos, Real.arccos, fun x y => x ^ y⟩
      (⟨0, 0, 1⟩ : Vec3 ℝ) ⟨1, 1 / 2, 1 / 4⟩ ⟨fun _ => 1 / 4, 0⟩).2.1.z ∧
      (simpleDiffuseBSDF.sample_f ⟨Real.sqrt, Real.sin, Real.cos, Real.arccos, fun x y => x ^ y⟩
      (⟨0, 0, 1⟩ : Vec3 ℝ) ⟨1, 1 / 2, 1 / 4⟩ ⟨fun _ => 1 / 4, 0⟩).2.2.1 = Real.sqrt (1 / 4) / PI ∧
      0 < (simpleDiffuseBSDF.sample_f ⟨Real.sqrt, Real.sin, Real.cos, Real.arccos, fun x y => x ^ y⟩
      (⟨0, 0, 1⟩ : Vec3 ℝ) ⟨1, 1 / 2, 1 / 4⟩ ⟨fun _ => 1 / 4, 0⟩).2.2.1 ∧
      Vec3.div
        (Vec3.scale (simpleDiffuseBSDF.sample_f ⟨Real.sqrt, Real.sin, Real.cos, Real.arccos, fun x y => x ^ y⟩
      (⟨0, 0, 1⟩ : Vec3 ℝ) ⟨1, 1 / 2, 1 / 4⟩ ⟨fun _ => 1 / 4, 0⟩).1
          |(simpleDiffuseBSDF.sample_f ⟨Real.sqrt, Real.sin, Real.cos, Real.arccos, fun x y => x ^ y⟩
      (⟨0, 0, 1⟩ : Vec3 ℝ) ⟨1, 1 / 2, 1 / 4⟩ ⟨fun _ => 1 / 4, 0⟩).2.1.z|)
        (simpleDiffuseBSDF.sample_f ⟨Real.sqrt, Real.sin, Real.cos, Real.arccos, fun x y => x ^ y⟩
      (⟨0, 0, 1⟩ : Vec3 ℝ) ⟨1, 1 / 2, 1 / 4⟩ ⟨fun _ => 1 / 4, 0⟩).2.2.1 = ⟨1, 1 / 2, 1 / 4⟩) ∧
    (simpleDiffuseBSDF.sample_f ⟨Real.sqrt, Real.sin, Real.cos, Real.arccos, fun x y => x ^ y⟩
      (⟨0, 0, 1⟩ : Vec3 ℝ) ⟨1, 1 / 2, 1 / 4⟩ ⟨fun _ => 0, 3⟩).2.2.1 = 0 ∧
    LiLoop ⟨Real.sqrt, Real.sin, Real.cos, Real.arccos, fun x y => x ^ y⟩ [(viewTri ℝ ⟨1, 1, 1⟩ ⟨2, 3, 4⟩ BSDF.simpleDiffuse)] [(viewTri ℝ ⟨1, 1, 1⟩ ⟨2, 3, 4⟩ BSDF.simpleDiffuse)] (5 + 1) ⟨0, 0, 0⟩ ⟨1, 1, 1⟩ (camRay ℝ) ⟨fun _ => 0, 0⟩
      = some (⟨0, 0, 0⟩, ⟨fun _ => 0, 3 + 2⟩) :=
  have hA := (lambert_sample_throughput (⟨Real.sqrt, Real.sin, Real.cos, Real.arccos, fun x y => x ^ y⟩ : CMath ℝ) real_isSqrt real_isCosAcos
    real_isSinCos ⟨0, 0, 1⟩ ⟨1, 1 / 2, 1 / 4⟩ ⟨fun _ => 1 / 4, 0⟩ (by norm_num)).1
    (by norm_num)
  have hB := (lambert_sample_throughput (⟨Real.sqrt, Real.sin, Real.cos, Real.arccos, fun x y => x ^ y⟩ : CMath ℝ) real_isSqrt real_isCosAcos
    real_isSinCos ⟨0, 0, 1⟩ ⟨1, 1 / 2, 1 / 4⟩ ⟨fun _ => 0, 3⟩ (by norm_num)).2 rfl
  have hv : (sceneIntersection [(viewTri ℝ ⟨1, 1, 1⟩ ⟨2, 3, 4⟩ BSDF.simpleDiffuse)] (camRay ℝ) MAX_T).valid = true := by rw [view_scene]; rfl
  have hX : (sceneIntersection [(viewTri ℝ ⟨1, 1, 1⟩ ⟨2, 3, 4⟩ BSDF.simpleDiffuse)] (camRay ℝ) MAX_T).hitTri = some (viewTri ℝ ⟨1, 1, 1⟩ ⟨2, 3, 4⟩ BSDF.simpleDiffuse) := by rw [view_scene]; rfl
  have hnee := view_nee (⟨Real.sqrt, Real.sin, Real.cos, Real.arccos, fun x y => x ^ y⟩ : CMath ℝ)
    (toLocal ⟨Real.sqrt, Real.sin, Real.cos, Real.arccos, fun x y => x ^ y⟩ (Vec3.neg (camRay ℝ).direction)
        (unit ⟨Real.sqrt, Real.sin, Real.cos, Real.arccos, fun x y => x ^ y⟩ (sceneIntersection [(viewTri ℝ ⟨1, 1, 1⟩ ⟨2, 3, 4⟩ BSDF.simpleDiffuse)] (camRay ℝ) MAX_T).normal))
    ⟨1, 1, 1⟩ ⟨2, 3, 4⟩ BSDF.simpleDiffuse ⟨fun _ => 0, 0⟩ BSDF.simpleDiffuse 0
    (by norm_num)
  ⟨by norm_num, by norm_num, by norm_num, hA, hB.1,
    hB.2 [(viewTri ℝ ⟨1, 1, 1⟩ ⟨2, 3, 4⟩ BSDF.simpleDiffuse)] [(viewTri ℝ ⟨1, 1, 1⟩ ⟨2, 3, 4⟩ BSDF.simpleDiffuse)] 5 ⟨0, 0, 0⟩ ⟨1, 1, 1⟩ (camRay ℝ) ⟨fun _ => 0, 0⟩ (viewTri ℝ ⟨1, 1, 1⟩ ⟨2, 3, 4⟩ BSDF.simpleDiffuse) ⟨0, 0, 0⟩ 0
      hv hX rfl hnee⟩

end ClosingWitnesses

end PathTracer
